import Mathlib

/-!
# Session billing engine of ibgames-1999

A shallow embedding of `pkg/billing/billing.go` together with the part of
`pkg/db/db.go` it calls.  The transactional store of `db/db.go` is embedded
separately, in the namespace `Db` below.

* Go's package-level state is passed explicitly: the database handle state is a
  `Store`, the `freePeriod` flag is an argument of the functions that read it.
* `time.Now().Unix()` is an argument `now` of every function that reads the
  clock (`BeginSession` reads it twice and takes two readings).
* `int64` arithmetic wraps (`wrap64`); Go's `int` is taken to be 64 bits wide,
  so `int(s.seconds / 60)` is the truncated quotient itself.
* The four statements are prepared by `db.Prepare` of `pkg/db`, which is
  `Prepare` on the connection pool: they run outside the transaction `tx`, each
  on its own, and what one of them writes is committed when its `Exec` returns.
  The backend is a pair of table snapshots: `working` is what the statements
  read and write, `durable` is what is committed; a statement that succeeds
  leaves the two equal, one whose `Exec` returns an error changes nothing.
  The transaction `tx` holds no statement, so `db.Commit()` commits nothing.
* Behaviour of `database/sql` the embedding relies on: `tx.Commit()` finishes
  the handle whether or not the backend reports an error, and a finished
  handle answers `ErrTxDone` without reaching the backend; `db.Begin()`
  returns a nil handle when it fails.
* What the backend answers to each call (an error from `Exec`, from
  `RowsAffected`, from `tx.Commit`, from `db.Begin`) is an argument
  (`BeginFaults`, `TickFaults`); row counts are computed from the tables.
* Every statement handed to the backend is appended to `Store.trace`, so that
  "no update was issued" can be stated.
* A call through the nil transaction handle panics; a panic is the value `none`
  in the `ret` field of an outcome (`Res.panicked` for `BeginSession`).  The
  handle `tx` is nil, holds an open transaction (`Store.tx`) or holds a
  finished one (`Store.done`).
* For `BeginSession` and `Tick` the four prepared statements are taken to be
  prepared (`Init` has succeeded); the product label formatted into the insert
  statement is an argument.  `Init` itself is embedded over the package
  variables it sets (`Statements`).
-/

namespace Billing

/-! ## Machine integers -/

/-- Two's-complement wrap of an integer into the `int64` range. -/
def wrap64 (x : Int) : Int := (x + 2 ^ 63) % 2 ^ 64 - 2 ^ 63

/-- Two's-complement wrap of an integer into the `int32` range (`int32(sid)`). -/
def wrap32 (x : Int) : Int := (x + 2 ^ 31) % 2 ^ 32 - 2 ^ 31

/-- The constant `minimumCharge`. -/
def minimumCharge : Int := 1

/-! ## Tables -/

/-- A row of `accounts`: the key and the two JSON fields the billing queries use. -/
structure Account where
  uid : Nat
  complimentary : String
  minutes : Int
deriving DecidableEq

/-- A row of `sessions`: the key and the JSON fields written by `insertQuery`
and `update2Query`. -/
structure SessionRow where
  sid : Int
  product : Int
  uid : Nat
  ipAddress : String
  minutes : Int
  endTime : Option Int
deriving DecidableEq

/-- The two tables and the autoincrement counter of `sessions`. -/
structure Database where
  accounts : List Account
  sessions : List SessionRow
  seq : Int
deriving DecidableEq

/-- A statement handed to the backend. -/
inductive Stmt where
  | select (uid : Nat)
  | insert (uid : Nat) (addr : String) (minutes : Int)
  | update1 (minutes : Int) (uid : Nat)
  | update2 (minutes : Int) (sid : Int)
  | commit
  | begin
deriving DecidableEq

/-- State of `pkg/db` and of the backend: the tables as committed, the tables
as the statements see them, whether the handle `tx` holds an open transaction,
the statements issued so far (oldest first), and whether the handle `tx` holds
a transaction that is finished (it is nil when it holds neither). -/
structure Store where
  durable : Database
  working : Database
  tx : Bool
  trace : List Stmt
  done : Bool
deriving DecidableEq

/-- Errors returned to the caller. -/
inductive Err where
  | noRows
  | backend
  | rowCount (rows : Int)
deriving DecidableEq

/-- Result of a Go call returning `(*T, error)` that may also panic. -/
inductive Res (α : Type) where
  | ok (a : α)
  | err (e : Err)
  | panicked
deriving DecidableEq

/-- The `$.minutes` of the first account row with this uid. -/
def balance (d : Database) (uid : Nat) : Option Int :=
  (d.accounts.find? (fun a => a.uid == uid)).map (fun a => a.minutes)

/-- The `update1` statements in a trace: the account charges issued. -/
def accountUpdates (tr : List Stmt) : List (Int × Nat) :=
  tr.filterMap (fun q => match q with
    | .update1 m u => some (m, u)
    | _ => none)

/-- The `insert` statements in a trace. -/
def sessionInserts (tr : List Stmt) : List (Nat × String × Int) :=
  tr.filterMap (fun q => match q with
    | .insert u a m => some (u, a, m)
    | _ => none)

/-! ## Backend calls -/

/-- Effect of `selectStmt.QueryRow(uid).Scan(&complimentary)`: the flag of the
first matching row, `sql.ErrNoRows` when there is none. -/
def querySelect (st : Store) (fail : Bool) (uid : Nat) : Store × Except Err String :=
  let st1 := { st with trace := st.trace ++ [Stmt.select uid] }
  if fail then (st1, .error .backend)
  else match st.working.accounts.find? (fun a => a.uid == uid) with
    | none => (st1, .error .noRows)
    | some a => (st1, .ok a.complimentary)

/-- Effect of `insertStmt.Exec(uid, addr, minutes)`: a new `sessions` row under
the next autoincrement key, which is what `LastInsertId` then reports.  The
row is committed when `Exec` returns. -/
def execInsert (st : Store) (fail : Bool) (product : Int) (uid : Nat) (addr : String)
    (minutes : Int) : Store × Option Int :=
  let st1 := { st with trace := st.trace ++ [Stmt.insert uid addr minutes] }
  if fail then (st1, none)
  else
    let sid := st.working.seq + 1
    let row : SessionRow :=
      { sid := sid, product := product, uid := uid, ipAddress := addr,
        minutes := minutes, endTime := none }
    let written : Database :=
      { st.working with sessions := st.working.sessions ++ [row], seq := sid }
    ({ st1 with working := written, durable := written }, some sid)

/-- The `accounts` rows after `update1Query` with arguments `(minutes, uid)`:
`$.minutes` of every row with that uid is lowered by `minutes`. -/
def charged (l : List Account) (uid : Nat) (minutes : Int) : List Account :=
  l.map (fun a => if a.uid == uid then { a with minutes := a.minutes - minutes } else a)

/-- The `sessions` rows after `update2Query` with arguments `(minutes, sid)`:
`$.end` and `$.minutes` of every row with that sid are overwritten. -/
def stamped (l : List SessionRow) (sid : Int) (minutes : Int) (now : Int) : List SessionRow :=
  l.map (fun r => if r.sid == sid then { r with minutes := minutes, endTime := some now } else r)

/-- Number of `accounts` rows that `WHERE uid = ?` matches. -/
def accountRows (l : List Account) (uid : Nat) : Int :=
  ((l.filter (fun a => a.uid == uid)).length : Nat)

/-- Number of `sessions` rows that `WHERE sid = ?` matches. -/
def sessionRows (l : List SessionRow) (sid : Int) : Int :=
  ((l.filter (fun r => r.sid == sid)).length : Nat)

/-- Effect of `update1Stmt.Exec(minutes, uid)`; the result carries the number of
rows matched.  The charge is committed when `Exec` returns. -/
def execUpdate1 (st : Store) (fail : Bool) (minutes : Int) (uid : Nat) : Store × Option Int :=
  let st1 := { st with trace := st.trace ++ [Stmt.update1 minutes uid] }
  if fail then (st1, none)
  else
    let written : Database :=
      { st.working with accounts := charged st.working.accounts uid minutes }
    ({ st1 with working := written, durable := written },
     some (accountRows st.working.accounts uid))

/-- Effect of `update2Stmt.Exec(minutes, sid)`; the result carries the number of
rows matched.  `datetime('now')` is taken to be the reading `now` of the caller.
The new row is committed when `Exec` returns. -/
def execUpdate2 (st : Store) (fail : Bool) (now : Int) (minutes : Int) (sid : Int) :
    Store × Option Int :=
  let st1 := { st with trace := st.trace ++ [Stmt.update2 minutes sid] }
  if fail then (st1, none)
  else
    let written : Database :=
      { st.working with sessions := stamped st.working.sessions sid minutes now }
    ({ st1 with working := written, durable := written },
     some (sessionRows st.working.sessions sid))

/-- Result of `result.RowsAffected()`: the row count, or `(0, err)`. -/
def rowsAffected (fail : Bool) (rows : Int) : Int × Bool :=
  if fail then (0, true) else (rows, false)

/-- Outcome of `db.Commit()`. -/
inductive CommitResult where
  | ok
  | err
  | panicked
deriving DecidableEq

/-- Function `db.Commit` of `pkg/db`: `tx.Commit()`, then `tx = nil` and
`startTransaction()`.  The transaction holds no statement, so the tables are
not touched.  A failed `tx.Commit()` leaves the handle in place, finished; a
finished handle answers `ErrTxDone`; calling through a nil `tx` panics. -/
def Commit (st : Store) (commitFails beginFails : Bool) : Store × CommitResult :=
  if st.tx then
    let st1 := { st with trace := st.trace ++ [Stmt.commit] }
    if commitFails then ({ st1 with tx := false, done := true }, .err)
    else
      let st2 := { st1 with tx := false, done := false, trace := st1.trace ++ [Stmt.begin] }
      if beginFails then (st2, .err) else ({ st2 with tx := true }, .ok)
  else if st.done then (st, .err)
  else (st, .panicked)

/-! ## Sessions -/

/-- The struct `Session`. -/
structure Session where
  uid : Nat
  complimentary : Bool
  lastCharge : Int
  sid : Int
  nextWrite : Int
  lastTick : Int
  ticking : Bool
  seconds : Int
deriving DecidableEq

/-- What the backend answers during one `BeginSession`. -/
structure BeginFaults where
  select : Bool
  insert : Bool
  lastInsertId : Bool
  update1 : Bool
  rowsAffected : Bool
  commit : Bool
  begin : Bool
deriving DecidableEq

/-- What the backend answers during the flush of one `Tick`. -/
structure TickFaults where
  update2 : Bool
  rows2 : Bool
  update1 : Bool
  rows1 : Bool
  commit : Bool
  begin : Bool
deriving DecidableEq

/-- Every backend call of a `BeginSession` succeeds. -/
def BeginFaults.none : BeginFaults := ⟨false, false, false, false, false, false, false⟩

/-- Every backend call of a flush succeeds. -/
def TickFaults.none : TickFaults := ⟨false, false, false, false, false, false⟩

/-- Session, store and return value after a method call; `ret = none` when the
call panicked. -/
structure Outcome (α : Type) where
  s : Session
  st : Store
  ret : Option α
deriving DecidableEq

/-- Method `Session.StartClock`. -/
def StartClock (now : Int) (s : Session) : Session :=
  if !s.ticking then { s with lastTick := now, ticking := true } else s

/-- Function `BeginSession`; `now1` is the reading taken for `nextWrite`, `now2` the one
`StartClock` takes. -/
def BeginSession (freePeriod : Bool) (product : Int) (now1 now2 : Int) (f : BeginFaults)
    (uid : Nat) (addr : String) (st : Store) : Store × Res Session :=
  let s0 : Session :=
    { uid := uid, complimentary := false, lastCharge := 0, sid := 0, nextWrite := 0,
      lastTick := 0, ticking := false, seconds := 0 }
  match querySelect st f.select uid with
  | (st1, .error e) => (st1, .err e)
  | (st1, .ok complimentary) =>
    let s1 := { s0 with complimentary := (complimentary == "Y") }
    let s2 := if s1.complimentary || freePeriod then s1
              else { s1 with lastCharge := minimumCharge }
    let minutes : Int := if s1.complimentary || freePeriod then 0 else s2.lastCharge
    match execInsert st1 f.insert product uid addr minutes with
    | (st2, none) => (st2, .err .backend)
    | (st2, some sid) =>
      if f.lastInsertId then (st2, .err .backend)
      else
        let s3 := { s2 with sid := wrap32 sid }
        let charged : Store × Option Err :=
          if minutes > 0 then
            match execUpdate1 st2 f.update1 minutes uid with
            | (st3, none) => (st3, some .backend)
            | (st3, some n) =>
              match rowsAffected f.rowsAffected n with
              | (rows, e) => if e || rows != 1 then (st3, some (.rowCount rows)) else (st3, none)
          else (st2, none)
        match charged with
        | (st3, some e) => (st3, .err e)
        | (st3, none) =>
          match Commit st3 f.commit f.begin with
          | (st4, .panicked) => (st4, .panicked)
          | (st4, .err) => (st4, .err .backend)
          | (st4, .ok) =>
            let s4 := { s3 with nextWrite := wrap64 (now1 + 60) }
            (st4, .ok (StartClock now2 s4))

/-- Method `Session.Tick`. -/
def Tick (freePeriod : Bool) (now : Int) (f : TickFaults) (s : Session) (st : Store) :
    Outcome Int :=
  let s1 := if !s.complimentary && !freePeriod && s.ticking then
      { s with seconds := wrap64 (s.seconds + wrap64 (now - s.lastTick)), lastTick := now }
    else s
  let charge : Int := Int.tdiv s1.seconds 60
  if charge > s1.lastCharge || now >= s1.nextWrite then
    match execUpdate2 st f.update2 now charge s1.sid with
    | (st2, none) => ⟨s1, st2, some 0⟩
    | (st2, some n) =>
      match rowsAffected f.rows2 n with
      | (rows, e) =>
        if e || rows != 1 then ⟨s1, st2, some 0⟩
        else
          let charged : Store × Bool :=
            if charge > s1.lastCharge then
              match execUpdate1 st2 f.update1 charge s1.uid with
              | (st3, none) => (st3, false)
              | (st3, some n1) =>
                match rowsAffected f.rows1 n1 with
                | (rows1, e1) => (st3, !(e1 || rows1 != 1))
            else (st2, true)
          match charged with
          | (st3, false) => ⟨s1, st3, some 0⟩
          | (st3, true) =>
            match Commit st3 f.commit f.begin with
            | (st4, .panicked) => ⟨s1, st4, none⟩
            | (st4, .err) => ⟨s1, st4, some 0⟩
            | (st4, .ok) =>
              ⟨{ s1 with nextWrite := wrap64 (now + 60), lastCharge := charge }, st4, some 1⟩
  else ⟨s1, st, some 1⟩

/-- Method `Session.StopClock`: a `Tick` whose result is dropped, then `ticking = false`;
a panic inside the `Tick` leaves the flag as it was. -/
def StopClock (freePeriod : Bool) (now : Int) (f : TickFaults) (s : Session) (st : Store) :
    Outcome Unit :=
  if s.ticking then
    match Tick freePeriod now f s st with
    | ⟨s1, st1, none⟩ => ⟨s1, st1, none⟩
    | ⟨s1, st1, some _⟩ => ⟨{ s1 with ticking := false }, st1, some ()⟩
  else ⟨s, st, some ()⟩

/-- Method `Session.Time`. -/
def Time (freePeriod : Bool) (now : Int) (f : TickFaults) (s : Session) (st : Store) :
    Outcome Int :=
  match Tick freePeriod now f s st with
  | ⟨s1, st1, none⟩ => ⟨s1, st1, none⟩
  | ⟨s1, st1, some _⟩ => ⟨s1, st1, some s1.lastCharge⟩

/-- Method `Session.End`. -/
def End (freePeriod : Bool) (now : Int) (f : TickFaults) (s : Session) (st : Store) :
    Outcome Int :=
  Time freePeriod now f s st

/-! ## Call sequences -/

/-- One call made on a live session, with the clock reading and the backend
answers it meets. -/
inductive Call where
  | tick (now : Int) (f : TickFaults)
  | startClock (now : Int)
  | stopClock (now : Int) (f : TickFaults)
  | time (now : Int) (f : TickFaults)
  | finish (now : Int) (f : TickFaults)
  | freePeriod (flag : Bool)
deriving DecidableEq

/-- The package flag `freePeriod`, one session, the store, and whether the
process has panicked. -/
structure Sys where
  freePeriod : Bool
  s : Session
  st : Store
  halted : Bool
deriving DecidableEq

/-- One call; nothing runs after a panic. -/
def step (w : Sys) (c : Call) : Sys :=
  if w.halted then w
  else match c with
    | .tick now f =>
      let o := Tick w.freePeriod now f w.s w.st
      { w with s := o.s, st := o.st, halted := o.ret.isNone }
    | .startClock now => { w with s := StartClock now w.s }
    | .stopClock now f =>
      let o := StopClock w.freePeriod now f w.s w.st
      { w with s := o.s, st := o.st, halted := o.ret.isNone }
    | .time now f =>
      let o := Time w.freePeriod now f w.s w.st
      { w with s := o.s, st := o.st, halted := o.ret.isNone }
    | .finish now f =>
      let o := End w.freePeriod now f w.s w.st
      { w with s := o.s, st := o.st, halted := o.ret.isNone }
    | .freePeriod flag => { w with freePeriod := flag }

/-- A sequence of calls, in order. -/
def run (w : Sys) (cs : List Call) : Sys := cs.foldl step w

/-- The clock reading a call takes, if it takes one. -/
def Call.reading : Call → Option Int
  | .tick now _ => some now
  | .startClock now => some now
  | .stopClock now _ => some now
  | .time now _ => some now
  | .finish now _ => some now
  | .freePeriod _ => none

/-- Whether a call is `StartClock`. -/
def Call.isStartClock : Call → Bool
  | .startClock _ => true
  | _ => false

/-- The clock readings of a sequence of calls, in order. -/
def readings (cs : List Call) : List Int := cs.filterMap Call.reading

/-! ## The parts of `Tick`

`Tick` is the composition of the three definitions below (`Tick_eq`); they
name the accumulation step, the test guarding the flush and the guarded block,
so that each can be reasoned about on its own. -/

/-- The first statement of `Tick`: the seconds since the last tick are added
when the session is billable and the clock runs. -/
def accumulate (freePeriod : Bool) (now : Int) (s : Session) : Session :=
  if !s.complimentary && !freePeriod && s.ticking then
    { s with seconds := wrap64 (s.seconds + wrap64 (now - s.lastTick)), lastTick := now }
  else s

/-- The minutes `Tick` computes after accumulating. -/
def chargeOf (freePeriod : Bool) (now : Int) (s : Session) : Int :=
  Int.tdiv (accumulate freePeriod now s).seconds 60

/-- The test that guards the flush in `Tick`. -/
def flushDue (freePeriod : Bool) (now : Int) (s : Session) : Bool :=
  chargeOf freePeriod now s > (accumulate freePeriod now s).lastCharge
    || now >= (accumulate freePeriod now s).nextWrite

/-- The guarded block of `Tick`, for the accumulated session `s1` and its `charge`. -/
def flush (now : Int) (f : TickFaults) (s1 : Session) (charge : Int) (st : Store) :
    Outcome Int :=
  match execUpdate2 st f.update2 now charge s1.sid with
  | (st2, none) => ⟨s1, st2, some 0⟩
  | (st2, some n) =>
    match rowsAffected f.rows2 n with
    | (rows, e) =>
      if e || rows != 1 then ⟨s1, st2, some 0⟩
      else
        let charged : Store × Bool :=
          if charge > s1.lastCharge then
            match execUpdate1 st2 f.update1 charge s1.uid with
            | (st3, none) => (st3, false)
            | (st3, some n1) =>
              match rowsAffected f.rows1 n1 with
              | (rows1, e1) => (st3, !(e1 || rows1 != 1))
          else (st2, true)
        match charged with
        | (st3, false) => ⟨s1, st3, some 0⟩
        | (st3, true) =>
          match Commit st3 f.commit f.begin with
          | (st4, .panicked) => ⟨s1, st4, none⟩
          | (st4, .err) => ⟨s1, st4, some 0⟩
          | (st4, .ok) =>
            ⟨{ s1 with nextWrite := wrap64 (now + 60), lastCharge := charge }, st4, some 1⟩

/-- The end of the guarded block: the commit and the bookkeeping after it. -/
def finishFlush (now : Int) (f : TickFaults) (s1 : Session) (charge : Int) (st3 : Store) :
    Outcome Int :=
  match Commit st3 f.commit f.begin with
  | (st4, .panicked) => ⟨s1, st4, none⟩
  | (st4, .err) => ⟨s1, st4, some 0⟩
  | (st4, .ok) => ⟨{ s1 with nextWrite := wrap64 (now + 60), lastCharge := charge }, st4, some 1⟩

/-- Some backend step of the guarded block fails: the session-row update, its
row count, the account charge (made only when the charge grew), its row count,
the commit, or the restart of the transaction. -/
def flushFails (f : TickFaults) (s1 : Session) (charge : Int) (st : Store) : Bool :=
  f.update2 || f.rows2 || sessionRows st.working.sessions s1.sid != 1
    || (decide (charge > s1.lastCharge)
        && (f.update1 || f.rows1 || accountRows st.working.accounts s1.uid != 1))
    || f.commit || f.begin

/-- Some backend step of `BeginSession` fails: the lookup (an error or no row),
the insert, reading the inserted id, the account charge (made only for a
paying account outside a free period) or its row count, the commit, or the
restart of the transaction. -/
def beginFails (freePeriod : Bool) (f : BeginFaults) (uid : Nat) (st : Store) : Bool :=
  match st.working.accounts.find? (fun a => a.uid == uid) with
  | none => true
  | some a =>
    f.select || f.insert || f.lastInsertId
      || (!(a.complimentary == "Y" || freePeriod)
          && (f.update1 || f.rowsAffected || accountRows st.working.accounts uid != 1))
      || f.commit || f.begin

/-! ## Invariants of call sequences -/

/-- A session that accrues nothing: it is complimentary or the free-period flag
is set, and it has no accumulated seconds and no charged minutes. -/
def Frozen (w : Sys) : Prop :=
  (w.s.complimentary = true ∨ w.freePeriod = true) ∧ w.s.seconds = 0 ∧ w.s.lastCharge = 0

/-- The accumulated seconds are non-negative and at most the reading of the
last tick, which is at most `t`. -/
def Clocked (w : Sys) (t : Int) : Prop :=
  0 ≤ w.s.seconds ∧ w.s.seconds ≤ w.s.lastTick ∧ w.s.lastTick ≤ t

/-! ## Fixtures -/

/-- Two accounts with 1000 minutes each, as the tests create them. -/
def demoDb : Database :=
  { accounts := [⟨666001, "N", 1000⟩, ⟨666000, "Y", 1000⟩], sessions := [], seq := 0 }

/-- A connected store over `demoDb` with a transaction open. -/
def demoStore : Store :=
  { durable := demoDb, working := demoDb, tx := true, trace := [], done := false }

/-- The store after `BeginSession` for the paying account 666001 at reading 0. -/
def demoBegun : Store :=
  (BeginSession false 1 0 0 BeginFaults.none 666001 "192.0.2.2" demoStore).1

/-- The session `BeginSession` returns for the paying account 666001 at reading 0. -/
def demoSession : Session :=
  { uid := 666001, complimentary := false, lastCharge := 1, sid := 1, nextWrite := 60,
    lastTick := 0, ticking := true, seconds := 0 }

/-- The store after `BeginSession` for the complimentary account 666000 at reading 0. -/
def demoBegunComplimentary : Store :=
  (BeginSession false 1 0 0 BeginFaults.none 666000 "192.0.2.1" demoStore).1

/-- The session `BeginSession` returns for the complimentary account 666000. -/
def demoComplimentary : Session :=
  { uid := 666000, complimentary := true, lastCharge := 0, sid := 1, nextWrite := 60,
    lastTick := 0, ticking := true, seconds := 0 }

/-- The store after `BeginSession` for the paying account 666001 at reading 0
while the free-period flag is set. -/
def demoBegunFree : Store :=
  (BeginSession true 1 0 0 BeginFaults.none 666001 "192.0.2.3" demoStore).1

/-- The session `BeginSession` returns for the paying account 666001 while the
free-period flag is set. -/
def demoFree : Session :=
  { uid := 666001, complimentary := false, lastCharge := 0, sid := 1, nextWrite := 60,
    lastTick := 0, ticking := true, seconds := 0 }

/-- The session row `BeginSession` inserts for the paying account 666001. -/
def demoRow : SessionRow :=
  { sid := 1, product := 1, uid := 666001, ipAddress := "192.0.2.2", minutes := 1,
    endTime := none }

/-! ## Specification-side definitions and further fixtures -/

/-- The minutes of the specification, in its words: the floor of the
accumulated seconds divided by 60. -/
def floorMinutes (seconds : Int) : Int := Int.floor ((seconds : ℚ) / 60)

/-- The `$.minutes` of the rows of `sessions` with this sid, in table order. -/
def rowMinutes (l : List SessionRow) (sid : Int) : List Int :=
  (l.filter (fun r => r.sid == sid)).map (fun r => r.minutes)

/-- The store after `BeginSession` for the paying account 666001 at reading 100. -/
def demoBegun100 : Store :=
  (BeginSession false 1 100 100 BeginFaults.none 666001 "192.0.2.2" demoStore).1

/-- The session `BeginSession` returns for the paying account 666001 at reading 100. -/
def demoSession100 : Session :=
  { uid := 666001, complimentary := false, lastCharge := 1, sid := 1, nextWrite := 160,
    lastTick := 100, ticking := true, seconds := 0 }

/-- The scenario session after a `Tick` at reading 130 whose session-row
update was refused by the backend. -/
def demoUnflushed : Session :=
  { uid := 666001, complimentary := false, lastCharge := 1, sid := 1, nextWrite := 60,
    lastTick := 130, ticking := true, seconds := 130 }

/-- The store after a `Tick` at reading 130 whose session-row update was
refused by the backend. -/
def demoUnflushedStore : Store :=
  (Tick false 130 { TickFaults.none with update2 := true } demoSession demoBegun).st

/-! ## Preparing the statements (`Init`) -/

/-- A query text handed to `db.Prepare` by `Init`; the insert query has the
product formatted into it. -/
inductive Query where
  | insert (product : Int)
  | select
  | update1
  | update2
deriving DecidableEq

/-- The package variables `insertStmt`, `selectStmt`, `update1Stmt`,
`update2Stmt` (a nil pointer is `none`, a statement is the query it was
prepared from) and `prepared`; `issued` lists the queries handed to
`db.Prepare` so far, oldest first. -/
structure Statements where
  insertStmt : Option Query
  selectStmt : Option Query
  update1Stmt : Option Query
  update2Stmt : Option Query
  prepared : Bool
  issued : List Query
deriving DecidableEq

/-- What the backend answers to the four `db.Prepare` calls of one `Init`. -/
structure InitFaults where
  insert : Bool
  select : Bool
  update1 : Bool
  update2 : Bool
deriving DecidableEq

/-- Every `db.Prepare` of an `Init` succeeds. -/
def InitFaults.none : InitFaults := ⟨false, false, false, false⟩

/-- The package variables of a process that has not called `Init`. -/
def Statements.initial : Statements :=
  { insertStmt := none, selectStmt := none, update1Stmt := none, update2Stmt := none,
    prepared := false, issued := [] }

/-- Function `Init`.  `dbOpen` says whether the handle `db` of `pkg/db` is
non-nil: `db.Prepare` panics through a nil handle.  A `db.Prepare` that fails
returns a nil statement, which is assigned. -/
def Init (dbOpen : Bool) (f : InitFaults) (product : Int) (p : Statements) :
    Statements × Res Unit :=
  if p.prepared then (p, .ok ())
  else if !dbOpen then (p, .panicked)
  else
    let p1 := { p with issued := p.issued ++ [Query.insert product] }
    if f.insert then ({ p1 with insertStmt := none }, .err .backend)
    else
      let p2 := { p1 with insertStmt := some (Query.insert product),
                          issued := p1.issued ++ [Query.select] }
      if f.select then ({ p2 with selectStmt := none }, .err .backend)
      else
        let p3 := { p2 with selectStmt := some Query.select,
                            issued := p2.issued ++ [Query.update1] }
        if f.update1 then ({ p3 with update1Stmt := none }, .err .backend)
        else
          let p4 := { p3 with update1Stmt := some Query.update1,
                              issued := p3.issued ++ [Query.update2] }
          if f.update2 then ({ p4 with update2Stmt := none }, .err .backend)
          else ({ p4 with update2Stmt := some Query.update2, prepared := true }, .ok ())

/-- The package variables after a sequence of `Init` calls, each with its own
database state, backend answers and product. -/
def Inits (p : Statements) (calls : List (Bool × InitFaults × Int)) : Statements :=
  calls.foldl (fun q c => (Init c.1 c.2.1 c.2.2 q).1) p

/-! ## The first minutes of a paying session -/

/-- A paying session begun at reading `start` whose clock has run ever since:
the accumulated seconds are the time from `start` to the last tick, at least
the minimum charge is recorded, and the flush deadline lies at least a minute
after `start`. -/
def Prepaid (start : Int) (s : Session) : Prop :=
  s.complimentary = false ∧ s.ticking = true ∧ s.seconds = s.lastTick - start
    ∧ start ≤ s.lastTick ∧ 1 ≤ s.lastCharge ∧ start + 60 ≤ s.nextWrite

/-- A sequence of `Tick` calls, each with its clock reading and the backend
answers it meets. -/
def tickCalls (l : List (Int × TickFaults)) : List Call :=
  l.map (fun p => Call.tick p.1 p.2)

/-- A paying session fresh from `BeginSession` at reading `start`. -/
def freshSession (uid : Nat) (sid : Int) (start : Int) : Session :=
  { uid := uid, complimentary := false, lastCharge := 1, sid := sid, nextWrite := start + 60,
    lastTick := start, ticking := true, seconds := 0 }

end Billing

/-!
# The transactional store of ibgames-1999 (`db/db.go`)

The package variables `db`, `conn` and `tx` are the three handle fields of a
`Store`; a nil pointer is `none`.  What `database/sql` holds behind the handles
is a `Backend`: the handles it has issued and not closed, the transactions that
are live, committed or rolled back, and the queries it ran with the
transaction that ran each.  The answers of the backend (an error text, or none
for success) are arguments of the functions, and so is the value of `DBPATH`.

Behaviour of `database/sql` the embedding relies on: a method called through a
nil handle panics; `Commit` and `Rollback` finish the transaction handle
whether or not the backend reports an error; every method of a finished
transaction returns `ErrTxDone`; a constructor that fails returns a nil handle
with the error.  The data source name built from `DBPATH` and `readOnly` only
parametrises the backend; of it the embedding keeps which databases were
opened with the `query_only` pragma.
-/

namespace Db

/-- State of the SQL backend behind the handles of the package. -/
structure Backend where
  nextId : Nat
  openDbs : List Nat
  queryOnly : List Nat
  openConns : List Nat
  liveTxs : List Nat
  committed : List Nat
  rolledBack : List Nat
  ran : List (Nat × String × List String)
deriving DecidableEq

/-- The package variables `db`, `conn`, `tx` and the backend they point into. -/
structure Store where
  db : Option Nat
  conn : Option Nat
  tx : Option Nat
  backend : Backend
deriving DecidableEq

/-- Outcome of a Go call: the value it returns, or a panic. -/
inductive Ret (α : Type) where
  | val (a : α)
  | panicked
deriving DecidableEq

/-- Text of `sql.ErrTxDone`. -/
def errTxDone : String := "sql: transaction has already been committed or rolled back"

/-- The store of a process that has not connected. -/
def Store.initial : Store :=
  { db := none, conn := none, tx := none,
    backend := { nextId := 0, openDbs := [], queryOnly := [], openConns := [],
                 liveTxs := [], committed := [], rolledBack := [], ran := [] } }

/-- The backend after the transaction `id` is finished. -/
def Backend.finish (b : Backend) (id : Nat) : Backend :=
  { b with liveTxs := b.liveTxs.filter (fun x => x != id) }

/-- Library call `tx.Commit()` on a non-nil handle: a finished handle reports
`ErrTxDone`; a live one is finished, and committed unless the backend fails. -/
def txCommit (b : Backend) (id : Nat) (fail : Option String) : Backend × Option String :=
  if id ∈ b.liveTxs then
    match fail with
    | some e => (b.finish id, some e)
    | none => ({ b.finish id with committed := b.committed ++ [id] }, none)
  else (b, some errTxDone)

/-- Library call `tx.Rollback()` on a non-nil handle: a finished handle reports
`ErrTxDone`; a live one is finished, and rolled back unless the backend fails. -/
def txRollback (b : Backend) (id : Nat) (fail : Option String) : Backend × Option String :=
  if id ∈ b.liveTxs then
    match fail with
    | some e => (b.finish id, some e)
    | none => ({ b.finish id with rolledBack := b.rolledBack ++ [id] }, none)
  else (b, some errTxDone)

/-- Library calls `tx.Exec` and `tx.QueryRow` on a non-nil handle: a finished
handle reports `ErrTxDone`; a live one runs the query in its transaction
unless the backend fails. -/
def txRun (b : Backend) (id : Nat) (query : String) (args : List String)
    (fail : Option String) : Backend × Option String :=
  if id ∈ b.liveTxs then
    match fail with
    | some e => (b, some e)
    | none => ({ b with ran := b.ran ++ [(id, query, args)] }, none)
  else (b, some errTxDone)

/-- Function `startTransaction`: `tx, err = conn.BeginTx(...)`. -/
def startTransaction (st : Store) (beginFails : Option String) : Store × Ret (Option String) :=
  match st.conn with
  | none => (st, .panicked)
  | some _ =>
    match beginFails with
    | some e => ({ st with tx := none }, .val (some e))
    | none =>
      ({ st with tx := some st.backend.nextId,
                 backend := { st.backend with
                   nextId := st.backend.nextId + 1,
                   liveTxs := st.backend.liveTxs ++ [st.backend.nextId] } }, .val none)

/-- Function `Commit`. -/
def Commit (st : Store) (commitFails beginFails : Option String) :
    Store × Ret (Option String) :=
  match st.tx with
  | none => (st, .panicked)
  | some id =>
    match txCommit st.backend id commitFails with
    | (b, some e) => ({ st with backend := b }, .val (some e))
    | (b, none) => startTransaction { st with backend := b, tx := none } beginFails

/-- Function `Rollback`. -/
def Rollback (st : Store) (rollbackFails beginFails : Option String) :
    Store × Ret (Option String) :=
  match st.tx with
  | none => (st, .panicked)
  | some id =>
    match txRollback st.backend id rollbackFails with
    | (b, some e) => ({ st with backend := b }, .val (some e))
    | (b, none) => startTransaction { st with backend := b, tx := none } beginFails

/-- Function `Connect`; `dbpath` is what `os.LookupEnv("DBPATH")` finds. -/
def Connect (st : Store) (dbpath : Option String) (readOnly : Bool)
    (openFails connFails beginFails : Option String) : Store × Ret (Option String) :=
  if st.db.isSome then (st, .val (some "already open"))
  else
    match dbpath with
    | none => (st, .val (some "DBPATH not set"))
    | some _ =>
      match openFails with
      | some e => ({ st with db := none }, .val (some e))
      | none =>
        let d := st.backend.nextId
        let st1 : Store :=
          { st with db := some d,
                    backend := { st.backend with
                      nextId := d + 1, openDbs := st.backend.openDbs ++ [d],
                      queryOnly := if readOnly then st.backend.queryOnly ++ [d]
                                   else st.backend.queryOnly } }
        match connFails with
        | some e => ({ st1 with conn := none }, .val (some e))
        | none =>
          let c := st1.backend.nextId
          let st2 : Store :=
            { st1 with conn := some c,
                       backend := { st1.backend with
                         nextId := c + 1, openConns := st1.backend.openConns ++ [c] } }
          startTransaction st2 beginFails

/-- Function `Detach`. -/
def Detach : Int := -1

/-- Function `Disconnect`. -/
def Disconnect (st : Store) (commitFails connCloseFails dbCloseFails : Option String) :
    Store × Ret (Option String) :=
  match st.db with
  | none => (st, .val none)
  | some d =>
    match st.tx with
    | none => (st, .panicked)
    | some id =>
      match txCommit st.backend id commitFails with
      | (b, some e) => ({ st with backend := b }, .val (some e))
      | (b, none) =>
        let st1 : Store := { st with backend := b, tx := none }
        match st1.conn with
        | none => (st1, .panicked)
        | some c =>
          match connCloseFails with
          | some e => (st1, .val (some e))
          | none =>
            let st2 : Store :=
              { st1 with conn := none,
                         backend := { st1.backend with
                           openConns := st1.backend.openConns.filter (fun x => x != c) } }
            match dbCloseFails with
            | some e => (st2, .val (some e))
            | none =>
              ({ st2 with db := none,
                          backend := { st2.backend with
                            openDbs := st2.backend.openDbs.filter (fun x => x != d) } },
               .val none)

/-- Function `Exec`. -/
def Exec (st : Store) (query : String) (args : List String) (fail : Option String) :
    Store × Ret (Option String) :=
  match st.tx with
  | none => (st, .panicked)
  | some id =>
    match txRun st.backend id query args fail with
    | (b, e) => ({ st with backend := b }, .val e)

/-- Function `Exit`: the errors of the rollback and of the close are dropped.
Closing the database closes the connection taken from it, the one the store
holds. -/
def Exit (st : Store) (rollbackFails closeFails : Option String) :
    Store × Ret (Option String) :=
  let st1 : Store :=
    match st.tx with
    | none => st
    | some id => { st with backend := (txRollback st.backend id rollbackFails).1, tx := none }
  let st2 : Store :=
    match st1.db with
    | none => st1
    | some d =>
      match closeFails with
      | some _ => st1
      | none =>
        { st1 with backend := { st1.backend with
            openDbs := st1.backend.openDbs.filter (fun x => x != d),
            openConns := st1.backend.openConns.filter (fun x => st1.conn != some x) } }
  ({ st2 with conn := none, db := none }, .val none)

/-- Function `Prepare`: `conn.PrepareContext(...)`; the statement is bound to
the connection and the store is unchanged. -/
def Prepare (st : Store) (fail : Option String) : Store × Ret (Option String) :=
  match st.conn with
  | none => (st, .panicked)
  | some _ => (st, .val fail)

/-- Function `QueryRow`: the error is the one the returned row carries. -/
def QueryRow (st : Store) (query : String) (args : List String) (fail : Option String) :
    Store × Ret (Option String) :=
  match st.tx with
  | none => (st, .panicked)
  | some id =>
    match txRun st.backend id query args fail with
    | (b, e) => ({ st with backend := b }, .val e)

/-- Invariant of the package state: only the transaction the store holds can be
live, a store without a database handle holds no transaction, and the handle
of the store's transaction has been issued already. -/
def Wf (st : Store) : Prop :=
  (∀ id ∈ st.backend.liveTxs, st.tx = some id)
    ∧ (st.db = none → st.tx = none)
    ∧ (∀ id ∈ st.tx.toList, id < st.backend.nextId)

instance (st : Store) : Decidable (Wf st) := by
  unfold Wf
  infer_instance

/-- Exactly one transaction is live, it is the one the store holds, and the
store holds the connection it runs on. -/
def OneOpen (st : Store) : Prop :=
  st.tx.isSome = true ∧ st.backend.liveTxs = st.tx.toList ∧ st.conn.isSome = true

instance (st : Store) : Decidable (OneOpen st) := by
  unfold OneOpen
  infer_instance

/-- The store after `n` calls of `Commit` whose backend steps all succeed. -/
def commitCycles : Nat → Store → Store
  | 0, st => st
  | n + 1, st => commitCycles n (Commit st none none).1

/-- The store after a first successful `Connect` with `DBPATH` set. -/
def demoConnected : Store := (Connect Store.initial (some "/tmp/db") false none none none).1

/-! ## The accounts table and `IsCancelled` (`db/iscancelled.go`) -/

/-- A row of `accounts`: the columns the repository reads and writes.
`nameKey` holds the bytes of the `name_key` text. -/
structure Account where
  uid : Nat
  nameKey : List Nat
  encrypt : String
  slogin : Option String
  ulogin : Option String
  sucip : Option String
  nunsuclog : Int
  unsucip : Option String
  complimentary : String
  status : String
  minutes : Int
deriving DecidableEq

/-- Function `IsCancelled` (`db/iscancelled.go`).  `accounts` is the table as
the open transaction sees it; `fail` is the error of the query and `scan`
says that `Scan` could not convert the column.  `Scan` reports
`sql.ErrNoRows` when no row matches. -/
def IsCancelled (st : Store) (accounts : List Account) (fail : Option String) (scan : Bool)
    (uid : Nat) : Store × Ret Int :=
  match st.tx with
  | none => (st, .panicked)
  | some id =>
    match txRun st.backend id "SELECT status FROM accounts WHERE uid = ?" [toString uid] fail with
    | (b, some _) => ({ st with backend := b }, .val (-1))
    | (b, none) =>
      match accounts.find? (fun a => a.uid == uid) with
      | none => ({ st with backend := b }, .val 1)
      | some a =>
        if scan then ({ st with backend := b }, .val (-1))
        else if a.status = "X" then ({ st with backend := b }, .val 1)
        else ({ st with backend := b }, .val 0)

/-- An active paying account with 100 minutes; its name key is "bob". -/
def demoActive : Account :=
  { uid := 666000, nameKey := [98, 111, 98], encrypt := "hash-of-secret", slogin := none,
    ulogin := none, sucip := none, nunsuclog := 0, unsucip := none, complimentary := "N",
    status := "A", minutes := 100 }

/-- A cancelled account; its name key is "al". -/
def demoCancelled : Account :=
  { demoActive with uid := 666003, nameKey := [97, 108], status := "X" }

/-- An account table with one active and one cancelled account. -/
def demoAccounts : List Account := [demoActive, demoCancelled]

end Db

/-!
# Authentication of ibgames-1999 (`auth/login.go`, `auth/uniquename.go`)

`UniqueName` works on the bytes of its argument; a byte is a natural number
below 256 and the subtraction of bytes wraps modulo 256.  `Login` takes Go
strings that are valid UTF-8, as Lean strings; `len` counts the bytes of the
UTF-8 encoding.  `strings.TrimSpace` removes the leading and trailing code
points for which `unicode.IsSpace` holds.

`Login` reaches the database through `db.QueryRow` and `db.Exec` of `db/db.go`,
embedded in the namespace `Db`; the accounts table it reads and updates, as the
open transaction sees it, is carried beside the store.  The answers of the
backend are arguments, `CURRENT_TIMESTAMP` is an argument, and so is the
verdict of `bcrypt.CompareHashAndPassword`.  Log output is not modelled.
-/

namespace Auth

/-- The type `LoginResult`. -/
inductive LoginResult where
  | LoginOK
  | LoginError
  | LoginIncorrect
  | LoginNoCredit
  | LoginSuspended
deriving DecidableEq

/-- The struct `Session` that `Login` fills in. -/
structure Session where
  UID : Nat
  SLogin : String
  ULogin : String
  SucIP : String
  UnsucIP : String
deriving DecidableEq

/-! ## `UniqueName` -/

/-- Function `isUpper`: `b-'A' < 26` on bytes. -/
def isUpper (b : Nat) : Bool := (b + 256 - 0x41) % 256 < 26

/-- Function `isGraph`: `b-0x21 < 0x5e` on bytes. -/
def isGraph (b : Nat) : Bool := (b + 256 - 0x21) % 256 < 0x5e

/-- Function `toLower`. -/
def toLower (b : Nat) : Nat := if isUpper b then b ||| 32 else b

/-- Function `UniqueName`, on the bytes of the name. -/
def UniqueName (name : List Nat) : List Nat :=
  name.foldl (fun unique ch =>
    if isUpper ch then unique ++ [toLower ch]
    else if isGraph ch then unique ++ [ch]
    else unique) []

/-- What a byte of a name contributes to its unique name, in the words of the
specification: an upper-case letter its lower-case letter, any other printable
byte that is not the space itself, every other byte nothing. -/
def keptByte (b : Nat) : Option Nat :=
  if 0x41 ≤ b ∧ b ≤ 0x5A then some (b + 32)
  else if 0x21 ≤ b ∧ b ≤ 0x7E then some b
  else none

/-! ## Strings -/

/-- The UTF-8 encoding of a code point. -/
def utf8 (c : Char) : List Nat :=
  let v := c.toNat
  if v < 0x80 then [v]
  else if v < 0x800 then [0xC0 + v / 64, 0x80 + v % 64]
  else if v < 0x10000 then [0xE0 + v / 4096, 0x80 + v / 64 % 64, 0x80 + v % 64]
  else [0xF0 + v / 262144, 0x80 + v / 4096 % 64, 0x80 + v / 64 % 64, 0x80 + v % 64]

/-- The bytes of a Go string. -/
def bytes (s : String) : List Nat := s.toList.flatMap utf8

/-- Built-in `len` of a Go string: its number of bytes. -/
def len (s : String) : Nat := (bytes s).length

/-- Library function `unicode.IsSpace`. -/
def isSpace (c : Char) : Bool :=
  let r := c.toNat
  if r ≤ 0xFF then
    r = 0x09 ∨ r = 0x0A ∨ r = 0x0B ∨ r = 0x0C ∨ r = 0x0D ∨ r = 0x20 ∨ r = 0x85 ∨ r = 0xA0
  else
    r = 0x1680 ∨ (0x2000 ≤ r ∧ r ≤ 0x200A) ∨ r = 0x2028 ∨ r = 0x2029 ∨ r = 0x202F
      ∨ r = 0x205F ∨ r = 0x3000

/-- Library function `strings.TrimSpace`. -/
def TrimSpace (s : String) : String :=
  String.mk ((s.toList.dropWhile isSpace).reverse.dropWhile isSpace).reverse

/-- The text of a byte string that is ASCII, as `UniqueName` returns it. -/
def keyText (k : List Nat) : String := String.mk (k.map Char.ofNat)

/-! ## `Login` -/

/-- The constants `NameSize`, `PasswordSize` and `maxPasswordTries` of the
package, which `Login` reads, and the verdict of
`bcrypt.CompareHashAndPassword(hash, password)` (`true` when it returns nil). -/
structure Params where
  NameSize : Nat
  PasswordSize : Nat
  maxPasswordTries : Int
  hashMatches : String → String → Bool

/-- The store of `db/db.go` with the accounts table as the open transaction
sees it. -/
structure Env where
  st : Db.Store
  accounts : List Db.Account
deriving DecidableEq

/-- What the backend answers during one `Login`: to the query, to the scan of
its row, to the update, and to `RowsAffected`. -/
structure LoginFaults where
  query : Option String
  scan : Bool
  exec : Option String
  rowsAffected : Bool
deriving DecidableEq

/-- Every backend call of a `Login` succeeds. -/
def LoginFaults.none : LoginFaults := ⟨Option.none, false, Option.none, false⟩

/-- Database, caller's session and return value after `Login`. -/
structure Outcome where
  env : Env
  session : Session
  ret : Db.Ret LoginResult
deriving DecidableEq

/-- The query of `Login`. -/
def selectQuery : String :=
  "SELECT uid, encrypt, slogin, ulogin, sucip, nunsuclog, unsucip, complimentary, status, minutes FROM accounts WHERE name_key = ?"

/-- The update after a wrong password. -/
def failureQuery : String :=
  "UPDATE accounts SET ulogin = CURRENT_TIMESTAMP, nunsuclog = ?, unsucip = ? WHERE uid = ?"

/-- The update after a successful login. -/
def successQuery : String :=
  "UPDATE accounts SET slogin = CURRENT_TIMESTAMP, sucip = ?, nunsuclog = 0 WHERE uid = ?"

/-- The `accounts` rows after `failureQuery` with arguments `(n, addr, uid)`. -/
def recordFailure (l : List Db.Account) (now : String) (n : Int) (addr : String) (uid : Nat) :
    List Db.Account :=
  l.map (fun a => if a.uid == uid then
    { a with ulogin := some now, nunsuclog := n, unsucip := some addr } else a)

/-- The `accounts` rows after `successQuery` with arguments `(addr, uid)`. -/
def recordSuccess (l : List Db.Account) (now : String) (addr : String) (uid : Nat) :
    List Db.Account :=
  l.map (fun a => if a.uid == uid then
    { a with slogin := some now, sucip := some addr, nunsuclog := 0 } else a)

/-- Number of `accounts` rows that `WHERE uid = ?` matches. -/
def rowsWithUid (l : List Db.Account) (uid : Nat) : Int :=
  ((l.filter (fun a => a.uid == uid)).length : Nat)

/-- Function `Login`. -/
def Login (L : Params) (now : String) (f : LoginFaults) (name password addr : String)
    (session : Session) (e : Env) : Outcome :=
  if name = "" ∨ password = "" then ⟨e, session, .val .LoginError⟩
  else
    let name := TrimSpace name
    if name = "" then ⟨e, session, .val .LoginIncorrect⟩
    else
      let password := TrimSpace password
      if password = "" then ⟨e, session, .val .LoginIncorrect⟩
      else if len name > L.NameSize ∨ len password > L.PasswordSize then
        ⟨e, session, .val .LoginError⟩
      else
        match Db.QueryRow e.st selectQuery [keyText (UniqueName (bytes name))] f.query with
        | (st1, .panicked) => ⟨{ e with st := st1 }, session, .panicked⟩
        | (st1, .val (some _)) => ⟨{ e with st := st1 }, session, .val .LoginError⟩
        | (st1, .val none) =>
          match e.accounts.find? (fun a => a.nameKey == UniqueName (bytes name)) with
          | none => ⟨{ e with st := st1 }, session, .val .LoginIncorrect⟩
          | some a =>
            if f.scan then ⟨{ e with st := st1 }, session, .val .LoginError⟩
            else if a.status = "X" then ⟨{ e with st := st1 }, session, .val .LoginIncorrect⟩
            else if a.status ≠ "A" ∧ a.status ≠ "S" then
              ⟨{ e with st := st1 }, session, .val .LoginError⟩
            else if !L.hashMatches a.encrypt password then
              let nunsuclog := if a.nunsuclog < 32767 then a.nunsuclog + 1 else a.nunsuclog
              match Db.Exec st1 failureQuery [toString nunsuclog, addr, toString a.uid]
                  f.exec with
              | (st2, .panicked) => ⟨{ e with st := st2 }, session, .panicked⟩
              | (st2, .val (some _)) => ⟨{ e with st := st2 }, session, .val .LoginError⟩
              | (st2, .val none) =>
                let e2 : Env :=
                  { st := st2, accounts := recordFailure e.accounts now nunsuclog addr a.uid }
                if f.rowsAffected ∨ rowsWithUid e.accounts a.uid ≠ 1 then
                  ⟨e2, session, .val .LoginError⟩
                else ⟨e2, session, .val .LoginIncorrect⟩
            else if a.status ≠ "A" then ⟨{ e with st := st1 }, session, .val .LoginSuspended⟩
            else if a.nunsuclog ≥ L.maxPasswordTries then
              ⟨{ e with st := st1 }, session, .val .LoginIncorrect⟩
            else
              match Db.Exec st1 successQuery [addr, toString a.uid] f.exec with
              | (st2, .panicked) => ⟨{ e with st := st2 }, session, .panicked⟩
              | (st2, .val (some _)) => ⟨{ e with st := st2 }, session, .val .LoginError⟩
              | (st2, .val none) =>
                let e2 : Env :=
                  { st := st2, accounts := recordSuccess e.accounts now addr a.uid }
                if f.rowsAffected ∨ rowsWithUid e.accounts a.uid ≠ 1 then
                  ⟨e2, session, .val .LoginError⟩
                else
                  let session2 : Session :=
                    { UID := a.uid, SucIP := a.sucip.getD "", UnsucIP := a.unsucip.getD "",
                      SLogin := a.slogin.getD "NEVER", ULogin := a.ulogin.getD "NEVER" }
                  if a.complimentary ≠ "Y" ∧ a.minutes ≤ 0 then
                    ⟨e2, session2, .val .LoginNoCredit⟩
                  else ⟨e2, session2, .val .LoginOK⟩

/-- The part of `Login` from `switch status` on, for the account row `a` that
the query returned and the trimmed password; `e` holds the store after the
query. -/
def verify (L : Params) (now : String) (f : LoginFaults) (password addr : String)
    (session : Session) (e : Env) (a : Db.Account) : Outcome :=
  if a.status = "X" then ⟨e, session, .val .LoginIncorrect⟩
  else if a.status ≠ "A" ∧ a.status ≠ "S" then ⟨e, session, .val .LoginError⟩
  else if !L.hashMatches a.encrypt password then
    let nunsuclog := if a.nunsuclog < 32767 then a.nunsuclog + 1 else a.nunsuclog
    match Db.Exec e.st failureQuery [toString nunsuclog, addr, toString a.uid] f.exec with
    | (st2, .panicked) => ⟨{ e with st := st2 }, session, .panicked⟩
    | (st2, .val (some _)) => ⟨{ e with st := st2 }, session, .val .LoginError⟩
    | (st2, .val none) =>
      let e2 : Env :=
        { st := st2, accounts := recordFailure e.accounts now nunsuclog addr a.uid }
      if f.rowsAffected ∨ rowsWithUid e.accounts a.uid ≠ 1 then ⟨e2, session, .val .LoginError⟩
      else ⟨e2, session, .val .LoginIncorrect⟩
  else if a.status ≠ "A" then ⟨e, session, .val .LoginSuspended⟩
  else if a.nunsuclog ≥ L.maxPasswordTries then ⟨e, session, .val .LoginIncorrect⟩
  else
    match Db.Exec e.st successQuery [addr, toString a.uid] f.exec with
    | (st2, .panicked) => ⟨{ e with st := st2 }, session, .panicked⟩
    | (st2, .val (some _)) => ⟨{ e with st := st2 }, session, .val .LoginError⟩
    | (st2, .val none) =>
      let e2 : Env := { st := st2, accounts := recordSuccess e.accounts now addr a.uid }
      if f.rowsAffected ∨ rowsWithUid e.accounts a.uid ≠ 1 then ⟨e2, session, .val .LoginError⟩
      else
        let session2 : Session :=
          { UID := a.uid, SucIP := a.sucip.getD "", UnsucIP := a.unsucip.getD "",
            SLogin := a.slogin.getD "NEVER", ULogin := a.ulogin.getD "NEVER" }
        if a.complimentary ≠ "Y" ∧ a.minutes ≤ 0 then ⟨e2, session2, .val .LoginNoCredit⟩
        else ⟨e2, session2, .val .LoginOK⟩

/-- A string that consists only of white space (the empty string included). -/
def allSpace (s : String) : Prop := ∀ c ∈ s.toList, isSpace c = true

instance (s : String) : Decidable (allSpace s) := by
  unfold allSpace
  infer_instance

/-- The parameters pass the checks at the head of `Login`: neither is white
space only and the trimmed values are within the size limits. -/
def Valid (L : Params) (name password : String) : Prop :=
  ¬ allSpace name ∧ ¬ allSpace password
    ∧ len (TrimSpace name) ≤ L.NameSize ∧ len (TrimSpace password) ≤ L.PasswordSize

instance (L : Params) (name password : String) : Decidable (Valid L name password) := by
  unfold Valid
  infer_instance

/-- The account row that the query of `Login` returns for a name. -/
def lookup (accounts : List Db.Account) (name : String) : Option Db.Account :=
  accounts.find? (fun a => a.nameKey == UniqueName (bytes (TrimSpace name)))

/-- The store after the query of `Login` has run in the transaction `id`. -/
def queried (e : Env) (id : Nat) (name : String) : Env :=
  { e with st := { e.st with backend := { e.st.backend with
      ran := e.st.backend.ran
        ++ [(id, selectQuery, [keyText (UniqueName (bytes (TrimSpace name)))])] } } }

/-- The outcome the specification gives for an account whose row was read, by
its status, by whether the password is right, by its failure count and by its
credit, when the account update that `Login` makes succeeds. -/
def outcomeByStatus (L : Params) (a : Db.Account) (rightPassword : Bool) : LoginResult :=
  if a.status = "X" then .LoginIncorrect
  else if a.status = "S" then (if rightPassword then .LoginSuspended else .LoginIncorrect)
  else if a.status = "A" then
    if !rightPassword then .LoginIncorrect
    else if a.nunsuclog ≥ L.maxPasswordTries then .LoginIncorrect
    else if a.complimentary ≠ "Y" ∧ a.minutes ≤ 0 then .LoginNoCredit
    else .LoginOK
  else .LoginError

/-! ## Fixtures -/

/-- Sizes 32 and 80, twenty tries, and a hash that is the password behind a
fixed prefix. -/
def demoParams : Params :=
  { NameSize := 32, PasswordSize := 80, maxPasswordTries := 20,
    hashMatches := fun hash password => hash == "hash-of-" ++ password }

/-- The connected store with the two demonstration accounts. -/
def demoEnv : Env := { st := Db.demoConnected, accounts := Db.demoAccounts }

/-- The session of a caller before `Login`. -/
def noSession : Session := { UID := 0, SLogin := "", ULogin := "", SucIP := "", UnsucIP := "" }

/-- The active account with a stored failure count beyond `MaxInt16`. -/
def demoOverflown : Db.Account := { Db.demoActive with nunsuclog := 40000 }

/-- The active account locked out after twenty failures. -/
def demoLocked : Db.Account := { Db.demoActive with nunsuclog := 20 }

/-- The active account, suspended. -/
def demoSuspended : Db.Account := { Db.demoActive with status := "S" }

/-- The active account, out of credit. -/
def demoNoCredit : Db.Account := { Db.demoActive with minutes := 0 }

end Auth

namespace Auth

/-! ## Names with the same unique name -/

/-- Two byte strings that differ only in the case of ASCII letters and in bytes
outside 0x21 to 0x7E (spaces, control bytes, bytes that are not ASCII), in the
words of the specification. -/
inductive SameName : List Nat → List Nat → Prop where
  | nil : SameName [] []
  | same (b : Nat) {s t : List Nat} : SameName s t → SameName (b :: s) (b :: t)
  | lower (b : Nat) {s t : List Nat} : 0x41 ≤ b → b ≤ 0x5A → SameName s t →
      SameName (b :: s) ((b + 32) :: t)
  | upper (b : Nat) {s t : List Nat} : 0x41 ≤ b → b ≤ 0x5A → SameName s t →
      SameName ((b + 32) :: s) (b :: t)
  | dropLeft (b : Nat) {s t : List Nat} : b < 0x21 ∨ 0x7E < b → SameName s t →
      SameName (b :: s) t
  | dropRight (b : Nat) {s t : List Nat} : b < 0x21 ∨ 0x7E < b → SameName s t →
      SameName s (b :: t)

/-! ## `GetCookie` (`auth/getcookie.go`) -/

/-- The type `CookieResult`. -/
inductive CookieResult where
  | CookieOK
  | CookieError
  | CookieNotFound
deriving DecidableEq

/-- A row of `cookies`. -/
structure Cookie where
  sid : String
  uid : Nat
  expire : Int
deriving DecidableEq

/-- The store of `db/db.go` with the cookies table as the open transaction
sees it. -/
structure CookieEnv where
  st : Db.Store
  cookies : List Cookie
deriving DecidableEq

/-- What the backend answers during one `GetCookie`: to the query, to the scan
of its row, and to the delete or the update. -/
structure CookieFaults where
  query : Option String
  scan : Bool
  exec : Option String
deriving DecidableEq

/-- Every backend call of a `GetCookie` succeeds. -/
def CookieFaults.none : CookieFaults := ⟨Option.none, false, Option.none⟩

/-- Database, the caller's `*uidp` and return value after `GetCookie`. -/
structure CookieOutcome where
  env : CookieEnv
  uid : Nat
  ret : Db.Ret CookieResult
deriving DecidableEq

/-- The `cookies` rows after `UPDATE cookies SET expire = ? WHERE sid = ?`. -/
def renewed (l : List Cookie) (expire : Int) (sid : String) : List Cookie :=
  l.map (fun c => if c.sid == sid then { c with expire := expire } else c)

/-- Function `GetCookie`; `now` is the reading of `time.Now().Unix()`.  The
caller's variable `*uidp` is overwritten before it is read, and the address
argument is not used by the code. -/
def GetCookie (now : Int) (f : CookieFaults) (sid : String) (e : CookieEnv) : CookieOutcome :=
  let uidp : Nat := 0
  match Db.QueryRow e.st "SELECT uid, expire FROM cookies WHERE sid = ?" [sid] f.query with
  | (st1, .panicked) => ⟨{ e with st := st1 }, uidp, .panicked⟩
  | (st1, .val (some _)) => ⟨{ e with st := st1 }, uidp, .val .CookieError⟩
  | (st1, .val none) =>
    match e.cookies.find? (fun c => c.sid == sid) with
    | none => ⟨{ e with st := st1 }, uidp, .val .CookieNotFound⟩
    | some c =>
      if f.scan then ⟨{ e with st := st1 }, uidp, .val .CookieError⟩
      else if c.expire < now then
        match Db.Exec st1 "DELETE FROM cookies WHERE sid = ?" [sid] f.exec with
        | (st2, .panicked) => ⟨{ e with st := st2 }, uidp, .panicked⟩
        | (st2, .val (some _)) => ⟨{ e with st := st2 }, uidp, .val .CookieError⟩
        | (st2, .val none) =>
          ⟨{ st := st2, cookies := e.cookies.filter (fun x => x.sid != sid) }, uidp,
           .val .CookieNotFound⟩
      else
        let expire := Billing.wrap64 (now + 30 * 60)
        match Db.Exec st1 "UPDATE cookies SET expire = ? WHERE sid = ?" [toString expire, sid]
            f.exec with
        | (st2, .panicked) => ⟨{ e with st := st2 }, uidp, .panicked⟩
        | (st2, .val (some _)) => ⟨{ e with st := st2 }, uidp, .val .CookieError⟩
        | (st2, .val none) =>
          ⟨{ st := st2, cookies := renewed e.cookies expire sid }, c.uid, .val .CookieOK⟩

/-- The connected store with one cookie that expires at reading 1000. -/
def demoCookies : CookieEnv :=
  { st := Db.demoConnected, cookies := [{ sid := "s1", uid := 666000, expire := 1000 }] }

end Auth

/-!
# Account identifiers and lock files (`pkg/ibgames/ibgames.go`, `rules/rules.go`)

An account identifier is a `uint32`, here a natural number.  The package
variable `homeDir` holds the function that finds the home directory; what a
call of it gives (a path, or a panic) is an argument, and so is the answer of
`unix.Access` for a path.
-/

namespace Ibgames

/-- The constant `MinAccountID`. -/
def MinAccountID : Nat := 100000

/-- The constant `MaxAccountID`: `math.MaxInt32`. -/
def MaxAccountID : Nat := 2147483647

end Ibgames

namespace Rules

/-- Function `RulesLockFile`. -/
def RulesLockFile (homeDir : Db.Ret String) (uid : Nat) : Db.Ret String :=
  if uid < Ibgames.MinAccountID ∨ uid > Ibgames.MaxAccountID then .panicked
  else
    match homeDir with
    | .panicked => .panicked
    | .val home => .val (home ++ "/lock/" ++ toString uid)

/-- Function `IsLockedOut`; `access path` says whether `unix.Access(path, F_OK)`
returns nil. -/
def IsLockedOut (homeDir : Db.Ret String) (access : String → Bool) (uid : Nat) : Db.Ret Bool :=
  if uid < Ibgames.MinAccountID ∨ uid > Ibgames.MaxAccountID then .panicked
  else
    match RulesLockFile homeDir uid with
    | .panicked => .panicked
    | .val path => .val (access path)

end Rules

/-!
# Prompt detection (`goodies/containsprompt.go`)

`ContainsPrompt` asks the `regexp` library whether `(?i)(ogin|word):` matches
anywhere in the string.  The embedding keeps the regular expression as a
syntax tree over code points and runs it: a literal with the fold-case flag
matches every code point of its `unicode.SimpleFold` orbit, `MatchString` tries
every start position.
-/

namespace Goodies

/-- The regular expressions the pattern needs: a literal code point (with the
fold-case flag of `(?i)`), concatenation and alternation. -/
inductive Regex where
  | lit (r : Nat) (foldCase : Bool)
  | cat (a b : Regex)
  | alt (a b : Regex)
deriving DecidableEq

/-- Whether `x` lies in the `unicode.SimpleFold` orbit of the ASCII code point
`r`: the letter itself, its other case, and for `k` and `s` also the Kelvin
sign and the long s. -/
def foldEq (r x : Nat) : Bool :=
  x = r ∨ (0x61 ≤ r ∧ r ≤ 0x7A ∧ x + 32 = r) ∨ (0x41 ≤ r ∧ r ≤ 0x5A ∧ x = r + 32)
    ∨ ((r = 0x6B ∨ r = 0x4B) ∧ x = 0x212A) ∨ ((r = 0x73 ∨ r = 0x53) ∧ x = 0x17F)

/-- The remainders of the input after each way the expression matches a prefix
of it. -/
def Regex.run : Regex → List Nat → List (List Nat)
  | .lit _ _, [] => []
  | .lit r foldCase, x :: rest =>
    if (if foldCase then foldEq r x else x == r) then [rest] else []
  | .cat a b, s => (a.run s).flatMap (fun t => b.run t)
  | .alt a b, s => a.run s ++ b.run s

/-- Method `MatchString`: the expression matches at some position. -/
def Regex.MatchString (re : Regex) (s : List Nat) : Bool :=
  s.tails.any (fun t => !(re.run t).isEmpty)

/-- The compiled pattern `(?i)(ogin|word):`. -/
def promptRegex : Regex :=
  .cat
    (.alt
      (.cat (.lit 0x6F true) (.cat (.lit 0x67 true) (.cat (.lit 0x69 true) (.lit 0x6E true))))
      (.cat (.lit 0x77 true) (.cat (.lit 0x6F true) (.cat (.lit 0x72 true) (.lit 0x64 true)))))
    (.lit 0x3A true)

/-- The code points of a string. -/
def runes (s : String) : List Nat := s.toList.map Char.toNat

/-- Function `ContainsPrompt`. -/
def ContainsPrompt (s : String) : Bool :=
  if s = "" then false else promptRegex.MatchString (runes s)

/-- A code point with ASCII upper-case letters made lower case. -/
def lowerASCII (r : Nat) : Nat := if 0x41 ≤ r ∧ r ≤ 0x5A then r + 32 else r

/-- A string contains a needle, ignoring the case of ASCII letters, in the
words of the specification. -/
def ContainsIgnoringCase (s needle : List Nat) : Prop :=
  ∃ pre mid post, s = pre ++ mid ++ post ∧ mid.map lowerASCII = needle

end Goodies

namespace Billing

/-! ## Lemmas on the backend calls -/

theorem find?_of_filter_singleton {α : Type} (p : α → Bool) (l : List α) (a : α)
    (h : l.filter p = [a]) : l.find? p = some a := by
  induction l with
  | nil => simp at h
  | cons x xs ih =>
    by_cases hx : p x = true
    · simp [List.filter_cons, hx] at h
      obtain ⟨rfl, _⟩ := h
      simp [List.find?_cons, hx]
    · simp [List.filter_cons, hx] at h
      simp [List.find?_cons, hx, ih h]

theorem find?_charged (l : List Account) (uid : Nat) (m : Int) :
    (charged l uid m).find? (fun x => x.uid == uid)
      = (l.find? (fun x => x.uid == uid)).map (fun x => { x with minutes := x.minutes - m }) := by
  induction l with
  | nil => rfl
  | cons x xs ih =>
    unfold charged at ih ⊢
    rw [List.map_cons, List.find?_cons, List.find?_cons]
    by_cases hx : x.uid = uid
    · simp [hx]
    · have h1 : (x.uid == uid) = false := by simpa using hx
      rw [if_neg (by simp [h1]), h1]
      exact ih

theorem balance_charged (l : List Account) (ss : List SessionRow) (sq : Int) (uid : Nat)
    (m : Int) :
    balance ⟨charged l uid m, ss, sq⟩ uid = (balance ⟨l, ss, sq⟩ uid).map (fun b => b - m) := by
  unfold balance
  rw [find?_charged]
  cases List.find? (fun x => x.uid == uid) l <;> rfl

theorem Tick_eq (fp : Bool) (now : Int) (f : TickFaults) (s : Session) (st : Store) :
    Tick fp now f s st
      = if flushDue fp now s then flush now f (accumulate fp now s) (chargeOf fp now s) st
        else ⟨accumulate fp now s, st, some 1⟩ := rfl

/-! ## Machine integers -/

theorem wrap64_of_range (x : Int) (h1 : -2 ^ 63 ≤ x) (h2 : x < 2 ^ 63) : wrap64 x = x := by
  unfold wrap64
  norm_num at h1 h2 ⊢
  omega

theorem wrap64_range (x : Int) : -2 ^ 63 ≤ wrap64 x ∧ wrap64 x < 2 ^ 63 := by
  unfold wrap64
  norm_num
  omega

theorem wrap64_idem (x : Int) : wrap64 (wrap64 x) = wrap64 x :=
  wrap64_of_range _ (wrap64_range x).1 (wrap64_range x).2

/-! ## Projections of the backend calls -/

@[simp] theorem execUpdate2_trace (st : Store) (b : Bool) (now m sid : Int) :
    (execUpdate2 st b now m sid).1.trace = st.trace ++ [Stmt.update2 m sid] := by
  cases b <;> rfl

@[simp] theorem execUpdate2_accounts (st : Store) (b : Bool) (now m sid : Int) :
    (execUpdate2 st b now m sid).1.working.accounts = st.working.accounts := by
  cases b <;> rfl

@[simp] theorem execUpdate2_durable_fail (st : Store) (now m sid : Int) :
    (execUpdate2 st true now m sid).1.durable = st.durable := rfl

@[simp] theorem execUpdate2_durable_ok (st : Store) (now m sid : Int) :
    (execUpdate2 st false now m sid).1.durable = (execUpdate2 st false now m sid).1.working :=
  rfl

@[simp] theorem execUpdate2_done (st : Store) (b : Bool) (now m sid : Int) :
    (execUpdate2 st b now m sid).1.done = st.done := by
  cases b <;> rfl

@[simp] theorem execUpdate2_tx (st : Store) (b : Bool) (now m sid : Int) :
    (execUpdate2 st b now m sid).1.tx = st.tx := by
  cases b <;> rfl

@[simp] theorem execUpdate1_trace (st : Store) (b : Bool) (m : Int) (uid : Nat) :
    (execUpdate1 st b m uid).1.trace = st.trace ++ [Stmt.update1 m uid] := by
  cases b <;> rfl

@[simp] theorem execUpdate1_accounts_fail (st : Store) (m : Int) (uid : Nat) :
    (execUpdate1 st true m uid).1.working.accounts = st.working.accounts := rfl

@[simp] theorem execUpdate1_accounts_ok (st : Store) (m : Int) (uid : Nat) :
    (execUpdate1 st false m uid).1.working.accounts = charged st.working.accounts uid m := rfl

@[simp] theorem execUpdate1_durable_fail (st : Store) (m : Int) (uid : Nat) :
    (execUpdate1 st true m uid).1.durable = st.durable := rfl

@[simp] theorem execUpdate1_durable_ok (st : Store) (m : Int) (uid : Nat) :
    (execUpdate1 st false m uid).1.durable = (execUpdate1 st false m uid).1.working := rfl

@[simp] theorem execUpdate1_done (st : Store) (b : Bool) (m : Int) (uid : Nat) :
    (execUpdate1 st b m uid).1.done = st.done := by
  cases b <;> rfl

@[simp] theorem execUpdate1_tx (st : Store) (b : Bool) (m : Int) (uid : Nat) :
    (execUpdate1 st b m uid).1.tx = st.tx := by
  cases b <;> rfl

@[simp] theorem Commit_working (st : Store) (c b : Bool) :
    (Commit st c b).1.working = st.working := by
  unfold Commit
  cases st.tx <;> cases st.done <;> cases c <;> cases b <;> rfl

@[simp] theorem Commit_durable (st : Store) (c b : Bool) :
    (Commit st c b).1.durable = st.durable := by
  unfold Commit
  cases st.tx <;> cases st.done <;> cases c <;> cases b <;> rfl

theorem Commit_tx (st : Store) (c b : Bool) :
    (Commit st c b).1.tx = (st.tx && !c && !b) := by
  unfold Commit
  cases h : st.tx <;> cases st.done <;> cases c <;> cases b <;> simp [h]

theorem Commit_finished (st : Store) (b c2 b2 : Bool) (htx : st.tx = true) :
    Commit (Commit st true b).1 c2 b2 = ((Commit st true b).1, .err) := by
  simp [Commit, htx]

theorem Commit_restart_failed (st : Store) (c2 b2 : Bool) (htx : st.tx = true) :
    (Commit (Commit st false true).1 c2 b2).2 = .panicked := by
  simp [Commit, htx]

@[simp] theorem accountUpdates_append (a b : List Stmt) :
    accountUpdates (a ++ b) = accountUpdates a ++ accountUpdates b := by
  simp [accountUpdates]

@[simp] theorem accountUpdates_update2 (m sid : Int) :
    accountUpdates [Stmt.update2 m sid] = [] := rfl

@[simp] theorem accountUpdates_update1 (m : Int) (uid : Nat) :
    accountUpdates [Stmt.update1 m uid] = [(m, uid)] := rfl

@[simp] theorem Commit_accountUpdates (st : Store) (c b : Bool) :
    accountUpdates (Commit st c b).1.trace = accountUpdates st.trace := by
  unfold Commit
  cases st.tx <;> cases st.done <;> cases c <;> cases b <;> simp [accountUpdates]

/-! ## Case analysis of a flush -/

theorem finishFlush_cases (P : Outcome Int → Prop) (now : Int) (f : TickFaults) (s1 : Session)
    (charge : Int) (st3 : Store)
    (hp : st3.tx = false → st3.done = false → P ⟨s1, st3, none⟩)
    (hd : st3.tx = false → st3.done = true → P ⟨s1, st3, some 0⟩)
    (he : st3.tx = true → (f.commit = true ∨ f.begin = true) →
      P ⟨s1, (Commit st3 f.commit f.begin).1, some 0⟩)
    (ho : st3.tx = true → f.commit = false → f.begin = false →
      P ⟨{ s1 with nextWrite := wrap64 (now + 60), lastCharge := charge },
         (Commit st3 false false).1, some 1⟩) :
    P (finishFlush now f s1 charge st3) := by
  rcases f with ⟨u2, r2, u1, r1, c, b⟩
  cases htx : st3.tx
  · cases hdn : st3.done
    · have := hp htx hdn
      simpa [finishFlush, Commit, htx, hdn] using this
    · have := hd htx hdn
      simpa [finishFlush, Commit, htx, hdn] using this
  · cases c
    · cases b
      · have := ho htx rfl rfl
        simpa [finishFlush, Commit, htx] using this
      · have := he htx (Or.inr rfl)
        simpa [finishFlush, Commit, htx] using this
    · have := he htx (Or.inl rfl)
      simpa [finishFlush, Commit, htx] using this

theorem flush_cases (P : Outcome Int → Prop) (now : Int) (f : TickFaults) (s1 : Session)
    (charge : Int) (st : Store)
    (h1 : f.update2 = true → P ⟨s1, (execUpdate2 st true now charge s1.sid).1, some 0⟩)
    (h2 : f.update2 = false → (f.rows2 = true ∨ sessionRows st.working.sessions s1.sid ≠ 1) →
      P ⟨s1, (execUpdate2 st false now charge s1.sid).1, some 0⟩)
    (h3 : f.update2 = false → f.rows2 = false → sessionRows st.working.sessions s1.sid = 1 →
      charge > s1.lastCharge → f.update1 = true →
      P ⟨s1, (execUpdate1 (execUpdate2 st false now charge s1.sid).1 true charge s1.uid).1,
         some 0⟩)
    (h4 : f.update2 = false → f.rows2 = false → sessionRows st.working.sessions s1.sid = 1 →
      charge > s1.lastCharge → f.update1 = false →
      (f.rows1 = true ∨ accountRows st.working.accounts s1.uid ≠ 1) →
      P ⟨s1, (execUpdate1 (execUpdate2 st false now charge s1.sid).1 false charge s1.uid).1,
         some 0⟩)
    (h5 : f.update2 = false → f.rows2 = false → sessionRows st.working.sessions s1.sid = 1 →
      charge > s1.lastCharge → f.update1 = false → f.rows1 = false →
      accountRows st.working.accounts s1.uid = 1 →
      P (finishFlush now f s1 charge
          (execUpdate1 (execUpdate2 st false now charge s1.sid).1 false charge s1.uid).1))
    (h6 : f.update2 = false → f.rows2 = false → sessionRows st.working.sessions s1.sid = 1 →
      ¬ charge > s1.lastCharge →
      P (finishFlush now f s1 charge (execUpdate2 st false now charge s1.sid).1)) :
    P (flush now f s1 charge st) := by
  rcases f with ⟨u2, r2, u1, r1, c, b⟩
  cases u2
  · cases r2
    · by_cases hs : sessionRows st.working.sessions s1.sid = 1
      · by_cases hc : charge > s1.lastCharge
        · cases u1
          · cases r1
            · by_cases ha : accountRows st.working.accounts s1.uid = 1
              · have := h5 rfl rfl hs hc rfl rfl ha
                simpa [flush, finishFlush, execUpdate2, execUpdate1, rowsAffected, hs, hc, ha]
                  using this
              · have := h4 rfl rfl hs hc rfl (Or.inr ha)
                have hb : (accountRows st.working.accounts s1.uid != 1) = true := by
                  simpa [bne_iff_ne] using ha
                simpa [flush, finishFlush, execUpdate2, execUpdate1, rowsAffected, hs, hc, hb]
                  using this
            · have := h4 rfl rfl hs hc rfl (Or.inl rfl)
              simpa [flush, finishFlush, execUpdate2, execUpdate1, rowsAffected, hs, hc]
                using this
          · have := h3 rfl rfl hs hc rfl
            simpa [flush, finishFlush, execUpdate2, execUpdate1, rowsAffected, hs, hc] using this
        · have := h6 rfl rfl hs hc
          simpa [flush, finishFlush, execUpdate2, execUpdate1, rowsAffected, hs, hc] using this
      · have := h2 rfl (Or.inr hs)
        have hb : (sessionRows st.working.sessions s1.sid != 1) = true := by
          simpa [bne_iff_ne] using hs
        simpa [flush, finishFlush, execUpdate2, execUpdate1, rowsAffected, hb] using this
    · have := h2 rfl (Or.inl rfl)
      simpa [flush, finishFlush, execUpdate2, execUpdate1, rowsAffected] using this
  · have := h1 rfl
    simpa [flush, execUpdate2] using this

/-! ## What a `Tick` does to the session and the store -/

theorem flush_session (now : Int) (f : TickFaults) (s1 : Session) (charge : Int) (st : Store) :
    ((flush now f s1 charge st).ret ≠ some 1 ∧ (flush now f s1 charge st).s = s1)
      ∨ ((flush now f s1 charge st).ret = some 1
        ∧ (flush now f s1 charge st).s
          = { s1 with nextWrite := wrap64 (now + 60), lastCharge := charge }) := by
  refine flush_cases (fun o => (o.ret ≠ some 1 ∧ o.s = s1) ∨ (o.ret = some 1
    ∧ o.s = { s1 with nextWrite := wrap64 (now + 60), lastCharge := charge }))
    now f s1 charge st ?_ ?_ ?_ ?_ ?_ ?_
  all_goals intros
  all_goals first
    | (simp; done)
    | (refine finishFlush_cases (fun o => (o.ret ≠ some 1 ∧ o.s = s1) ∨ (o.ret = some 1
        ∧ o.s = { s1 with nextWrite := wrap64 (now + 60), lastCharge := charge }))
        now f s1 charge _ ?_ ?_ ?_ ?_ <;> intros <;> simp)

theorem flush_ret (now : Int) (f : TickFaults) (s1 : Session) (charge : Int) (st : Store)
    (htx : st.tx = true) :
    (flush now f s1 charge st).ret = some (if flushFails f s1 charge st then 0 else 1) := by
  refine flush_cases
    (fun o => o.ret = some (if flushFails f s1 charge st then 0 else 1))
    now f s1 charge st ?_ ?_ ?_ ?_ ?_ ?_
  · intro h
    simp [flushFails, h]
  · intro h hr
    rcases hr with hr | hr
    · simp [flushFails, hr]
    · simp [flushFails, bne_iff_ne, hr]
  · intro _ _ _ hc h
    simp [flushFails, hc, h]
  · intro _ _ _ hc _ hr
    rcases hr with hr | hr
    · simp [flushFails, hc, hr]
    · simp [flushFails, bne_iff_ne, hc, hr]
  · intro a1 a2 a3 hc a4 a5 a6
    refine finishFlush_cases
      (fun o => o.ret = some (if flushFails f s1 charge st then 0 else 1))
      now f s1 charge _ ?_ ?_ ?_ ?_
    · intro h _
      simp [htx] at h
    · intro h _
      simp [htx] at h
    · intro _ hr
      rcases hr with hr | hr <;> simp [flushFails, hr]
    · intro _ c1 c2
      simp [flushFails, a1, a2, a3, a4, a5, a6, c1, c2]
  · intro a1 a2 a3 hc
    refine finishFlush_cases
      (fun o => o.ret = some (if flushFails f s1 charge st then 0 else 1))
      now f s1 charge _ ?_ ?_ ?_ ?_
    · intro h _
      simp [htx] at h
    · intro h _
      simp [htx] at h
    · intro _ hr
      rcases hr with hr | hr <;> simp [flushFails, hr]
    · intro _ c1 c2
      simp [flushFails, a1, a2, a3, hc, c1, c2]

theorem flush_trace_head (now : Int) (f : TickFaults) (s1 : Session) (charge : Int)
    (st : Store) :
    ∃ rest, (flush now f s1 charge st).st.trace
      = st.trace ++ Stmt.update2 charge s1.sid :: rest := by
  refine flush_cases
    (fun o => ∃ rest, o.st.trace = st.trace ++ Stmt.update2 charge s1.sid :: rest)
    now f s1 charge st ?_ ?_ ?_ ?_ ?_ ?_
  · intro _
    exact ⟨[], by simp⟩
  · intro _ _
    exact ⟨[], by simp⟩
  · intro _ _ _ _ _
    exact ⟨[Stmt.update1 charge s1.uid], by simp⟩
  · intro _ _ _ _ _ _
    exact ⟨[Stmt.update1 charge s1.uid], by simp⟩
  · intro _ _ _ _ _ _ _
    refine finishFlush_cases
      (fun o => ∃ rest, o.st.trace = st.trace ++ Stmt.update2 charge s1.sid :: rest)
      now f s1 charge _ ?_ ?_ ?_ ?_
    · intro _ _
      exact ⟨[Stmt.update1 charge s1.uid], by simp⟩
    · intro _ _
      exact ⟨[Stmt.update1 charge s1.uid], by simp⟩
    · intro h _
      simp at h
      cases hc : f.commit <;> cases hb : f.begin <;>
        simp [Commit, h]
    · intro h
      simp at h
      simp [Commit, h]
  · intro _ _ _ _
    refine finishFlush_cases
      (fun o => ∃ rest, o.st.trace = st.trace ++ Stmt.update2 charge s1.sid :: rest)
      now f s1 charge _ ?_ ?_ ?_ ?_
    · intro _ _
      exact ⟨[], by simp⟩
    · intro _ _
      exact ⟨[], by simp⟩
    · intro h _
      simp at h
      cases hc : f.commit <;> cases hb : f.begin <;>
        simp [Commit, h]
    · intro h
      simp at h
      simp [Commit, h]

theorem flush_no_charge (now : Int) (f : TickFaults) (s1 : Session) (charge : Int)
    (st : Store) (hc : ¬ charge > s1.lastCharge) :
    accountUpdates (flush now f s1 charge st).st.trace = accountUpdates st.trace
      ∧ (flush now f s1 charge st).st.working.accounts = st.working.accounts := by
  refine flush_cases
    (fun o => accountUpdates o.st.trace = accountUpdates st.trace
      ∧ o.st.working.accounts = st.working.accounts)
    now f s1 charge st ?_ ?_ ?_ ?_ ?_ ?_
  · intro _
    simp
  · intro _ _
    simp
  · intro _ _ _ h
    exact absurd h hc
  · intro _ _ _ h
    exact absurd h hc
  · intro _ _ _ h
    exact absurd h hc
  · intro _ _ _ _
    refine finishFlush_cases
      (fun o => accountUpdates o.st.trace = accountUpdates st.trace
        ∧ o.st.working.accounts = st.working.accounts)
      now f s1 charge _ ?_ ?_ ?_ ?_ <;> intros <;> simp

theorem flush_durable (now : Int) (f : TickFaults) (s1 : Session) (charge : Int)
    (st : Store) :
    (flush now f s1 charge st).st.durable = st.durable
      ∨ (flush now f s1 charge st).st.durable = (flush now f s1 charge st).st.working := by
  refine flush_cases
    (fun o => o.st.durable = st.durable ∨ o.st.durable = o.st.working)
    now f s1 charge st ?_ ?_ ?_ ?_ ?_ ?_
  · intro _
    simp
  · intro _ _
    simp
  · intro _ _ _ _ _
    simp [execUpdate1, execUpdate2]
  · intro _ _ _ _ _ _
    simp
  · intro _ _ _ _ _ _ _
    refine finishFlush_cases
      (fun o => o.st.durable = st.durable ∨ o.st.durable = o.st.working)
      now f s1 charge _ ?_ ?_ ?_ ?_ <;> intros <;> simp
  · intro _ _ _ _
    refine finishFlush_cases
      (fun o => o.st.durable = st.durable ∨ o.st.durable = o.st.working)
      now f s1 charge _ ?_ ?_ ?_ ?_ <;> intros <;> simp

/-! ## Accumulation -/

@[simp] theorem accumulate_uid (fp : Bool) (now : Int) (s : Session) :
    (accumulate fp now s).uid = s.uid := by
  unfold accumulate; split <;> rfl

@[simp] theorem accumulate_complimentary (fp : Bool) (now : Int) (s : Session) :
    (accumulate fp now s).complimentary = s.complimentary := by
  unfold accumulate; split <;> rfl

@[simp] theorem accumulate_lastCharge (fp : Bool) (now : Int) (s : Session) :
    (accumulate fp now s).lastCharge = s.lastCharge := by
  unfold accumulate; split <;> rfl

@[simp] theorem accumulate_sid (fp : Bool) (now : Int) (s : Session) :
    (accumulate fp now s).sid = s.sid := by
  unfold accumulate; split <;> rfl

@[simp] theorem accumulate_nextWrite (fp : Bool) (now : Int) (s : Session) :
    (accumulate fp now s).nextWrite = s.nextWrite := by
  unfold accumulate; split <;> rfl

@[simp] theorem accumulate_ticking (fp : Bool) (now : Int) (s : Session) :
    (accumulate fp now s).ticking = s.ticking := by
  unfold accumulate; split <;> rfl

theorem accumulate_idle (fp : Bool) (now : Int) (s : Session)
    (h : (!s.complimentary && !fp && s.ticking) = false) : accumulate fp now s = s := by
  unfold accumulate
  rw [if_neg (by simp [h])]

theorem accumulate_idem (fp : Bool) (now : Int) (s : Session) :
    accumulate fp now (accumulate fp now s) = accumulate fp now s := by
  by_cases h : (!s.complimentary && !fp && s.ticking) = true
  · have h2 : accumulate fp now s
        = { s with seconds := wrap64 (s.seconds + wrap64 (now - s.lastTick)), lastTick := now } := by
      unfold accumulate
      rw [if_pos h]
    rw [h2]
    unfold accumulate
    rw [if_pos (by simpa using h)]
    have h0 : wrap64 (now - now) = 0 := by
      rw [sub_self]
      rfl
    simp only [h0, add_zero, wrap64_idem]
  · have h2 := accumulate_idle fp now s (by simpa using h)
    rw [h2, h2]

/-! ## What a `Tick` does -/

theorem Tick_session (fp : Bool) (now : Int) (f : TickFaults) (s : Session) (st : Store) :
    ((Tick fp now f s st).ret ≠ some 1 ∧ (Tick fp now f s st).s = accumulate fp now s)
      ∨ ((Tick fp now f s st).ret = some 1 ∧ flushDue fp now s = false
        ∧ (Tick fp now f s st).s = accumulate fp now s)
      ∨ ((Tick fp now f s st).ret = some 1 ∧ flushDue fp now s = true
        ∧ (Tick fp now f s st).s
          = { accumulate fp now s with
              nextWrite := wrap64 (now + 60), lastCharge := chargeOf fp now s }) := by
  rw [Tick_eq]
  cases h : flushDue fp now s
  · simp
  · simp only [if_true]
    rcases flush_session now f (accumulate fp now s) (chargeOf fp now s) st with h1 | h1
    · exact Or.inl h1
    · exact Or.inr (Or.inr ⟨h1.1, trivial, h1.2⟩)

theorem Tick_seconds (fp : Bool) (now : Int) (f : TickFaults) (s : Session) (st : Store) :
    (Tick fp now f s st).s.seconds = (accumulate fp now s).seconds := by
  rcases Tick_session fp now f s st with h | h | h
  · rw [h.2]
  · rw [h.2.2]
  · rw [h.2.2]

theorem Tick_lastTick (fp : Bool) (now : Int) (f : TickFaults) (s : Session) (st : Store) :
    (Tick fp now f s st).s.lastTick = (accumulate fp now s).lastTick := by
  rcases Tick_session fp now f s st with h | h | h
  · rw [h.2]
  · rw [h.2.2]
  · rw [h.2.2]

theorem Tick_ticking (fp : Bool) (now : Int) (f : TickFaults) (s : Session) (st : Store) :
    (Tick fp now f s st).s.ticking = s.ticking := by
  rcases Tick_session fp now f s st with h | h | h
  · rw [h.2]; simp
  · rw [h.2.2]; simp
  · rw [h.2.2]; simp

theorem Tick_complimentary (fp : Bool) (now : Int) (f : TickFaults) (s : Session) (st : Store) :
    (Tick fp now f s st).s.complimentary = s.complimentary := by
  rcases Tick_session fp now f s st with h | h | h
  · rw [h.2]; simp
  · rw [h.2.2]; simp
  · rw [h.2.2]; simp

theorem Tick_lastCharge (fp : Bool) (now : Int) (f : TickFaults) (s : Session) (st : Store) :
    (Tick fp now f s st).s.lastCharge = s.lastCharge
      ∨ (flushDue fp now s = true ∧ (Tick fp now f s st).ret = some 1
        ∧ (Tick fp now f s st).s.lastCharge = chargeOf fp now s) := by
  rcases Tick_session fp now f s st with h | h | h
  · left; rw [h.2]; simp
  · left; rw [h.2.2]; simp
  · right; exact ⟨h.2.1, h.1, by rw [h.2.2]⟩

theorem Tick_ret (fp : Bool) (now : Int) (f : TickFaults) (s : Session) (st : Store)
    (htx : st.tx = true) :
    (Tick fp now f s st).ret
      = some (if flushDue fp now s
                && flushFails f (accumulate fp now s) (chargeOf fp now s) st then 0 else 1) := by
  rw [Tick_eq]
  cases h : flushDue fp now s
  · simp
  · simp only [if_true, Bool.true_and]
    exact flush_ret now f _ _ st htx

theorem Tick_trace_head (fp : Bool) (now : Int) (f : TickFaults) (s : Session) (st : Store)
    (h : flushDue fp now s = true) :
    ∃ rest, (Tick fp now f s st).st.trace
      = st.trace ++ Stmt.update2 (chargeOf fp now s) s.sid :: rest := by
  rw [Tick_eq, h]
  simpa using flush_trace_head now f (accumulate fp now s) (chargeOf fp now s) st

theorem Tick_no_charge (fp : Bool) (now : Int) (f : TickFaults) (s : Session) (st : Store)
    (hc : ¬ chargeOf fp now s > s.lastCharge) :
    accountUpdates (Tick fp now f s st).st.trace = accountUpdates st.trace
      ∧ (Tick fp now f s st).st.working.accounts = st.working.accounts := by
  rw [Tick_eq]
  cases h : flushDue fp now s
  · simp
  · simp only [if_true]
    exact flush_no_charge now f _ _ st (by simpa using hc)

theorem Tick_durable (fp : Bool) (now : Int) (f : TickFaults) (s : Session) (st : Store) :
    (Tick fp now f s st).st.durable = st.durable
      ∨ (Tick fp now f s st).st.durable = (Tick fp now f s st).st.working := by
  rw [Tick_eq]
  cases h : flushDue fp now s
  · simp
  · simp only [if_true]
    exact flush_durable now f _ _ st

/-! ## C1 -/

/-- C1 (the code at the scenario of the claim): on the 1000-minute paying
account `BeginSession` leaves balance 999 and `lastCharge = 1`; the `Tick` at 130
accumulated seconds succeeds with `lastCharge = 2`, but the account charge it
issues carries the total 2, not the increment 1, and the balance is 997. -/
theorem tick_charges_total_not_increment :
    BeginSession false 1 0 0 BeginFaults.none 666001 "192.0.2.2" demoStore
        = (demoBegun, .ok demoSession)
      ∧ balance demoBegun.durable 666001 = some 999
      ∧ (Tick false 130 TickFaults.none demoSession demoBegun).ret = some 1
      ∧ (Tick false 130 TickFaults.none demoSession demoBegun).s.seconds = 130
      ∧ (Tick false 130 TickFaults.none demoSession demoBegun).s.lastCharge = 2
      ∧ accountUpdates (Tick false 130 TickFaults.none demoSession demoBegun).st.trace
          = [(1, 666001), (2, 666001)]
      ∧ balance (Tick false 130 TickFaults.none demoSession demoBegun).st.durable 666001
          = some 997 := by
  decide

/-! ## C2 -/

/-- C2 (the code at a failing input): a paying session begun at reading 0 has
`lastCharge = 1`; after `StopClock` at 0 and a `Tick` at 60, both succeeding,
the deadline flush has written 0 minutes to the session row and `lastCharge`
is 0, lower than before the `Tick`. -/
theorem lastCharge_drops_below_minimum :
    demoSession.lastCharge = 1
      ∧ (run ⟨false, demoSession, demoBegun, false⟩
          [.stopClock 0 TickFaults.none]).s.lastCharge = 1
      ∧ (run ⟨false, demoSession, demoBegun, false⟩
          [.stopClock 0 TickFaults.none, .tick 60 TickFaults.none]).s.lastCharge = 0
      ∧ (run ⟨false, demoSession, demoBegun, false⟩
          [.stopClock 0 TickFaults.none, .tick 60 TickFaults.none]).s.lastCharge
        < (run ⟨false, demoSession, demoBegun, false⟩
          [.stopClock 0 TickFaults.none]).s.lastCharge
      ∧ (run ⟨false, demoSession, demoBegun, false⟩
          [.stopClock 0 TickFaults.none, .tick 60 TickFaults.none]).halted = false
      ∧ (run ⟨false, demoSession, demoBegun, false⟩
          [.stopClock 0 TickFaults.none, .tick 60 TickFaults.none]).st.durable.sessions
          = [{ demoRow with minutes := 0, endTime := some 60 }] := by
  decide

/-! ## C3 -/

theorem paying_begin_eq (product now1 now2 : Int) (uid : Nat) (addr : String)
    (st : Store) (a : Account) (htx : st.tx = true)
    (hrow : st.working.accounts.filter (fun x => x.uid == uid) = [a])
    (hflag : a.complimentary ≠ "Y") :
    BeginSession false product now1 now2 BeginFaults.none uid addr st
      = (let d : Database :=
            { accounts := charged st.working.accounts uid 1,
              sessions := st.working.sessions
                ++ [⟨st.working.seq + 1, product, uid, addr, 1, none⟩],
              seq := st.working.seq + 1 }
         { durable := d, working := d, tx := true,
           trace := st.trace
             ++ [.select uid, .insert uid addr 1, .update1 1 uid, .commit, .begin],
           done := false },
         .ok { uid := uid, complimentary := false, lastCharge := 1,
               sid := wrap32 (st.working.seq + 1), nextWrite := wrap64 (now1 + 60),
               lastTick := now2, ticking := true, seconds := 0 }) := by
  have hfind := find?_of_filter_singleton _ _ _ hrow
  have hrows : accountRows st.working.accounts uid = 1 := by simp [accountRows, hrow]
  simp [BeginSession, querySelect, execInsert, execUpdate1, rowsAffected, Commit, StartClock,
    BeginFaults.none, minimumCharge, hfind, hflag, hrows, htx]

/-- C3: for an existing account (one row) whose flag is not "Y", with the
free-period flag clear, an open transaction and every backend step succeeding,
`BeginSession` returns a session with `lastCharge = 1`, appends a session row
recording 1 minute, lowers the account balance by exactly 1 and commits. -/
theorem beginSession_paying (product now1 now2 : Int) (uid : Nat) (addr : String) (st : Store)
    (a : Account) (htx : st.tx = true)
    (hrow : st.working.accounts.filter (fun x => x.uid == uid) = [a])
    (hflag : a.complimentary ≠ "Y") :
    (∃ s, (BeginSession false product now1 now2 BeginFaults.none uid addr st).2 = .ok s
        ∧ s.lastCharge = 1 ∧ s.complimentary = false ∧ s.uid = uid
        ∧ s.sid = wrap32 (st.working.seq + 1))
      ∧ (BeginSession false product now1 now2 BeginFaults.none uid addr st).1.working.sessions
        = st.working.sessions ++ [⟨st.working.seq + 1, product, uid, addr, 1, none⟩]
      ∧ balance st.working uid = some a.minutes
      ∧ balance (BeginSession false product now1 now2 BeginFaults.none uid addr st).1.working uid
        = some (a.minutes - 1)
      ∧ (BeginSession false product now1 now2 BeginFaults.none uid addr st).1.working.accounts
        = charged st.working.accounts uid 1
      ∧ (BeginSession false product now1 now2 BeginFaults.none uid addr st).1.durable
        = (BeginSession false product now1 now2 BeginFaults.none uid addr st).1.working
      ∧ (BeginSession false product now1 now2 BeginFaults.none uid addr st).1.trace
        = st.trace ++ [.select uid, .insert uid addr 1, .update1 1 uid, .commit, .begin] := by
  have hfind := find?_of_filter_singleton _ _ _ hrow
  have hbal : balance st.working uid = some a.minutes := by simp [balance, hfind]
  rw [paying_begin_eq product now1 now2 uid addr st a htx hrow hflag]
  refine ⟨⟨_, rfl, rfl, rfl, rfl, rfl⟩, rfl, hbal, ?_, rfl, rfl, rfl⟩
  show balance ⟨charged st.working.accounts uid 1, _, _⟩ uid = _
  rw [balance_charged]
  have : balance ⟨st.working.accounts, st.working.sessions
      ++ [⟨st.working.seq + 1, product, uid, addr, 1, none⟩], st.working.seq + 1⟩ uid
      = balance st.working uid := rfl
  rw [this, hbal]
  rfl

/-- C3 at the paying account of the tests: 1000 becomes 999. -/
theorem beginSession_paying_witness :
    (∃ s, (BeginSession false 1 0 0 BeginFaults.none 666001 "192.0.2.2" demoStore).2 = .ok s
        ∧ s.lastCharge = 1 ∧ s.complimentary = false ∧ s.uid = 666001
        ∧ s.sid = wrap32 (demoStore.working.seq + 1))
      ∧ (BeginSession false 1 0 0 BeginFaults.none 666001 "192.0.2.2"
          demoStore).1.working.sessions
        = demoStore.working.sessions
          ++ [⟨demoStore.working.seq + 1, 1, 666001, "192.0.2.2", 1, none⟩]
      ∧ balance demoStore.working 666001 = some (1000 : Int)
      ∧ balance (BeginSession false 1 0 0 BeginFaults.none 666001 "192.0.2.2"
          demoStore).1.working 666001 = some ((1000 : Int) - 1)
      ∧ (BeginSession false 1 0 0 BeginFaults.none 666001 "192.0.2.2"
          demoStore).1.working.accounts = charged demoStore.working.accounts 666001 1
      ∧ (BeginSession false 1 0 0 BeginFaults.none 666001 "192.0.2.2" demoStore).1.durable
        = (BeginSession false 1 0 0 BeginFaults.none 666001 "192.0.2.2" demoStore).1.working
      ∧ (BeginSession false 1 0 0 BeginFaults.none 666001 "192.0.2.2" demoStore).1.trace
        = demoStore.trace
          ++ [.select 666001, .insert 666001 "192.0.2.2" 1, .update1 1 666001, .commit,
              .begin] :=
  beginSession_paying 1 0 0 666001 "192.0.2.2" demoStore ⟨666001, "N", 1000⟩
    (by decide) (by decide) (by decide)

/-! ## C4 -/

/-- C4: for an existing account that is complimentary (flag "Y"), or for any
existing account while the free-period flag is set, `BeginSession` issues no
account-balance update whatever the backend answers, and when every backend
step succeeds it returns a session with `lastCharge = 0`, appends a session
row recording 0 minutes, leaves the account rows as they were and commits. -/
theorem beginSession_free (fp : Bool) (product now1 now2 : Int) (uid : Nat) (addr : String)
    (st : Store) (a : Account) (htx : st.tx = true)
    (hfind : st.working.accounts.find? (fun x => x.uid == uid) = some a)
    (hfree : a.complimentary = "Y" ∨ fp = true) :
    (∀ f, accountUpdates (BeginSession fp product now1 now2 f uid addr st).1.trace
          = accountUpdates st.trace
        ∧ (BeginSession fp product now1 now2 f uid addr st).1.working.accounts
          = st.working.accounts)
      ∧ (BeginSession fp product now1 now2 BeginFaults.none uid addr st).2
        = .ok { uid := uid, complimentary := (a.complimentary == "Y"), lastCharge := 0,
                sid := wrap32 (st.working.seq + 1), nextWrite := wrap64 (now1 + 60),
                lastTick := now2, ticking := true, seconds := 0 }
      ∧ (BeginSession fp product now1 now2 BeginFaults.none uid addr st).1.working.sessions
        = st.working.sessions ++ [⟨st.working.seq + 1, product, uid, addr, 0, none⟩]
      ∧ (BeginSession fp product now1 now2 BeginFaults.none uid addr st).1.durable
        = (BeginSession fp product now1 now2 BeginFaults.none uid addr st).1.working
      ∧ balance (BeginSession fp product now1 now2 BeginFaults.none uid addr st).1.durable uid
        = some a.minutes
      ∧ (BeginSession fp product now1 now2 BeginFaults.none uid addr st).1.trace
        = st.trace ++ [.select uid, .insert uid addr 0, .commit, .begin] := by
  have hcond : (a.complimentary == "Y" || fp) = true := by
    rcases hfree with h | h
    · simp [h]
    · simp [h]
  refine ⟨?_, ?_⟩
  · intro f
    rcases f with ⟨f1, f2, f3, f4, f5, f6, f7⟩
    cases f1 <;> cases f2 <;> cases f3 <;> cases f6 <;> cases f7 <;>
      simp [BeginSession, querySelect, execInsert, Commit, StartClock, hfind, hcond, htx,
        accountUpdates]
  · simp [BeginSession, querySelect, execInsert, Commit, StartClock, BeginFaults.none, hfind,
      hcond, htx, balance]

/-- C4 at the complimentary account of the tests: 1000 stays 1000. -/
theorem beginSession_free_witness :
    (BeginSession false 1 0 0 BeginFaults.none 666000 "192.0.2.1" demoStore).2
        = .ok demoComplimentary
      ∧ balance (BeginSession false 1 0 0 BeginFaults.none 666000 "192.0.2.1"
          demoStore).1.durable 666000 = some 1000 :=
  ⟨(beginSession_free false 1 0 0 666000 "192.0.2.1" demoStore ⟨666000, "Y", 1000⟩
      (by decide) (by decide) (by decide)).2.1,
   (beginSession_free false 1 0 0 666000 "192.0.2.1" demoStore ⟨666000, "Y", 1000⟩
      (by decide) (by decide) (by decide)).2.2.2.2.1⟩

/-! ## C5 -/

/-- C5: with a transaction open, a `Tick` returns 0 exactly when it attempts a
flush and a backend step of the flush fails (the session-row update, the
account charge, a row count other than 1, the commit or the restart of the
transaction), and returns 1 in every other case.  In the failing case
`lastCharge` and `nextWrite` keep their values, and a `Tick` at the same clock
reading again finds the flush due, computes the same charge and issues the
same session-row update first. -/
theorem tick_failure_keeps_checkpoint (fp : Bool) (now : Int) (f : TickFaults) (s : Session)
    (st : Store) (htx : st.tx = true) :
    ((flushDue fp now s = true
        ∧ flushFails f (accumulate fp now s) (chargeOf fp now s) st = true) →
      (Tick fp now f s st).ret = some 0
        ∧ (Tick fp now f s st).s.lastCharge = s.lastCharge
        ∧ (Tick fp now f s st).s.nextWrite = s.nextWrite
        ∧ flushDue fp now (Tick fp now f s st).s = true
        ∧ chargeOf fp now (Tick fp now f s st).s = chargeOf fp now s
        ∧ (∃ rest, (Tick fp now f s st).st.trace
            = st.trace ++ Stmt.update2 (chargeOf fp now s) s.sid :: rest)
        ∧ ∀ f2, ∃ rest,
            (Tick fp now f2 (Tick fp now f s st).s (Tick fp now f s st).st).st.trace
              = (Tick fp now f s st).st.trace
                ++ Stmt.update2 (chargeOf fp now s) s.sid :: rest)
      ∧ (¬ (flushDue fp now s = true
          ∧ flushFails f (accumulate fp now s) (chargeOf fp now s) st = true) →
        (Tick fp now f s st).ret = some 1) := by
  have hret := Tick_ret fp now f s st htx
  refine ⟨?_, ?_⟩
  · rintro ⟨hd, hf⟩
    have h0 : (Tick fp now f s st).ret = some 0 := by
      rw [hret]; simp [hd, hf]
    have hs : (Tick fp now f s st).s = accumulate fp now s := by
      rcases Tick_session fp now f s st with h | h | h
      · exact h.2
      · exact h.2.2
      · rw [h0] at h
        exact absurd h.1 (by decide)
    have hd2 : flushDue fp now (Tick fp now f s st).s = true := by
      rw [hs]
      unfold flushDue chargeOf
      rw [accumulate_idem]
      exact hd
    have hc2 : chargeOf fp now (Tick fp now f s st).s = chargeOf fp now s := by
      rw [hs]
      unfold chargeOf
      rw [accumulate_idem]
    refine ⟨h0, by rw [hs]; simp, by rw [hs]; simp, hd2, hc2,
      Tick_trace_head fp now f s st hd, ?_⟩
    intro f2
    have := Tick_trace_head fp now f2 (Tick fp now f s st).s (Tick fp now f s st).st hd2
    rw [hc2] at this
    have hsid : (Tick fp now f s st).s.sid = s.sid := by rw [hs]; simp
    rw [hsid] at this
    exact this
  · intro h
    rw [hret]
    have : (flushDue fp now s
        && flushFails f (accumulate fp now s) (chargeOf fp now s) st) = false := by
      cases hd : flushDue fp now s <;>
        cases hf : flushFails f (accumulate fp now s) (chargeOf fp now s) st <;> simp_all
    simp [this]

/-- C5 at the scenario session: the commit of the flush at 130 seconds fails. -/
theorem tick_failure_keeps_checkpoint_witness :
    (Tick false 130 { TickFaults.none with commit := true } demoSession demoBegun).ret = some 0
      ∧ (Tick false 130 { TickFaults.none with commit := true } demoSession
          demoBegun).s.lastCharge = demoSession.lastCharge
      ∧ (Tick false 130 { TickFaults.none with commit := true } demoSession
          demoBegun).s.nextWrite = demoSession.nextWrite :=
  have h := (tick_failure_keeps_checkpoint false 130 { TickFaults.none with commit := true }
    demoSession demoBegun (by decide)).1 ⟨by decide, by decide⟩
  ⟨h.1, h.2.1, h.2.2.1⟩

/-! ## C6 -/

/-- C6 is false as stated: when the account charge of `BeginSession` fails, an
error is returned and the session row inserted before it is in the database,
committed; when the commit fails, an error is returned and both the session
row and the account charge (999 left of 1000) are in the database. -/
theorem failed_begin_leaves_writes :
    (BeginSession false 1 0 0 { BeginFaults.none with update1 := true } 666001
        "192.0.2.2" demoStore).2 = .err .backend
      ∧ (BeginSession false 1 0 0 { BeginFaults.none with update1 := true } 666001
        "192.0.2.2" demoStore).1.durable.sessions = [demoRow]
      ∧ demoStore.durable.sessions = []
      ∧ (BeginSession false 1 0 0 { BeginFaults.none with commit := true } 666001
        "192.0.2.2" demoStore).2 = .err .backend
      ∧ (BeginSession false 1 0 0 { BeginFaults.none with commit := true } 666001
        "192.0.2.2" demoStore).1.durable.sessions = [demoRow]
      ∧ balance (BeginSession false 1 0 0 { BeginFaults.none with commit := true }
        666001 "192.0.2.2" demoStore).1.durable 666001 = some 999
      ∧ balance demoStore.durable 666001 = some 1000 := by
  decide

/-- C6 as amended: with a transaction open, if any backend step of
`BeginSession` fails, an error and no session are returned, and no write is
undone.  The database is as it was when the lookup or the insert is the step
that fails.  Once the insert has succeeded, the new session row is committed
whatever fails later, and so is the account charge once its statement has been
executed: what is committed is what the statements wrote.  When no step fails a
session is returned. -/
theorem beginSession_failure (fp : Bool) (product now1 now2 : Int) (f : BeginFaults)
    (uid : Nat) (addr : String) (st : Store) (htx : st.tx = true) :
    (beginFails fp f uid st = true →
      (∃ e, (BeginSession fp product now1 now2 f uid addr st).2 = .err e)
        ∧ (st.working.accounts.find? (fun x => x.uid == uid) = none ∨ f.select = true
            ∨ f.insert = true →
            (BeginSession fp product now1 now2 f uid addr st).1.durable = st.durable
              ∧ (BeginSession fp product now1 now2 f uid addr st).1.working = st.working)
        ∧ (∀ a, st.working.accounts.find? (fun x => x.uid == uid) = some a →
            f.select = false → f.insert = false →
            (BeginSession fp product now1 now2 f uid addr st).1.durable
              = (BeginSession fp product now1 now2 f uid addr st).1.working
            ∧ (BeginSession fp product now1 now2 f uid addr st).1.durable.sessions
              = st.working.sessions
                ++ [⟨st.working.seq + 1, product, uid, addr,
                     if a.complimentary == "Y" || fp then 0 else 1, none⟩]
            ∧ (BeginSession fp product now1 now2 f uid addr st).1.durable.accounts
              = (if (a.complimentary == "Y" || fp) || f.lastInsertId || f.update1
                 then st.working.accounts
                 else charged st.working.accounts uid 1)))
      ∧ (beginFails fp f uid st = false →
          ∃ s, (BeginSession fp product now1 now2 f uid addr st).2 = .ok s) := by
  rcases f with ⟨f1, f2, f3, f4, f5, f6, f7⟩
  cases hfind : st.working.accounts.find? (fun x => x.uid == uid) with
  | none =>
    cases f1 <;> simp [BeginSession, querySelect, beginFails, hfind]
  | some a =>
    cases f1
    · cases f2
      · cases f3
        · by_cases hY : a.complimentary = "Y"
          · cases f6 <;> cases f7 <;>
              simp [BeginSession, querySelect, execInsert, Commit, StartClock, beginFails,
                hfind, hY, htx]
          · cases fp
            · cases f4
              · cases f5
                · by_cases hr : accountRows st.working.accounts uid = 1
                  · cases f6 <;> cases f7 <;>
                      simp [BeginSession, querySelect, execInsert, execUpdate1, rowsAffected,
                        Commit, StartClock, beginFails, minimumCharge, hfind, hY, htx, hr]
                  · have hb : (accountRows st.working.accounts uid != 1) = true := by
                      simpa [bne_iff_ne] using hr
                    simp [BeginSession, querySelect, execInsert, execUpdate1, rowsAffected,
                      beginFails, minimumCharge, hfind, hY, hb]
                · simp [BeginSession, querySelect, execInsert, execUpdate1, rowsAffected,
                    beginFails, minimumCharge, hfind, hY]
              · simp [BeginSession, querySelect, execInsert, execUpdate1, rowsAffected,
                  beginFails, minimumCharge, hfind, hY]
            · cases f6 <;> cases f7 <;>
                simp [BeginSession, querySelect, execInsert, Commit, StartClock, beginFails,
                  hfind, hY, htx]
        · simp [BeginSession, querySelect, execInsert, beginFails, hfind]
          split <;> simp [minimumCharge]
      · simp [BeginSession, querySelect, execInsert, beginFails, hfind]
    · simp [BeginSession, querySelect, beginFails, hfind]

/-- C6 as amended, at the paying account of the tests with the row count of the
account charge unreadable: an error is returned, and the inserted session row
and the charge are committed. -/
theorem beginSession_failure_witness :
    (∃ e, (BeginSession false 1 0 0 { BeginFaults.none with rowsAffected := true } 666001
        "192.0.2.2" demoStore).2 = .err e)
      ∧ (BeginSession false 1 0 0 { BeginFaults.none with rowsAffected := true } 666001
        "192.0.2.2" demoStore).1.durable.sessions = demoStore.working.sessions ++ [demoRow]
      ∧ (BeginSession false 1 0 0 { BeginFaults.none with rowsAffected := true } 666001
        "192.0.2.2" demoStore).1.durable.accounts
          = charged demoStore.working.accounts 666001 1 :=
  have h := (beginSession_failure false 1 0 0 { BeginFaults.none with rowsAffected := true }
    666001 "192.0.2.2" demoStore (by decide)).1 (by decide)
  have h2 := h.2.2 ⟨666001, "N", 1000⟩ (by decide) rfl rfl
  ⟨h.1, h2.2.1, h2.2.2⟩

/-! ## C7 -/

/-- C7: for an account identifier with no row in `accounts`, `BeginSession`
returns an error and no session, and the only statement it hands to the
backend is the lookup: no insert into `sessions`, no update of `accounts`, no
commit; the tables are untouched. -/
theorem beginSession_unknown_account (fp : Bool) (product now1 now2 : Int) (f : BeginFaults)
    (uid : Nat) (addr : String) (st : Store)
    (hnone : st.working.accounts.find? (fun x => x.uid == uid) = none) :
    (BeginSession fp product now1 now2 f uid addr st).2
        = .err (if f.select then .backend else .noRows)
      ∧ (BeginSession fp product now1 now2 f uid addr st).1
        = { st with trace := st.trace ++ [Stmt.select uid] }
      ∧ sessionInserts (BeginSession fp product now1 now2 f uid addr st).1.trace
        = sessionInserts st.trace
      ∧ accountUpdates (BeginSession fp product now1 now2 f uid addr st).1.trace
        = accountUpdates st.trace := by
  cases hf : f.select <;>
    simp [BeginSession, querySelect, hnone, hf, sessionInserts, accountUpdates]

/-- C7 at the account 999999 of the tests, absent from the table. -/
theorem beginSession_unknown_account_witness :
    (BeginSession false 1 0 0 BeginFaults.none 999999 "192.0.2.4" demoStore).2 = .err .noRows
      ∧ (BeginSession false 1 0 0 BeginFaults.none 999999 "192.0.2.4" demoStore).1
        = { demoStore with trace := demoStore.trace ++ [Stmt.select 999999] } :=
  ⟨(beginSession_unknown_account false 1 0 0 BeginFaults.none 999999 "192.0.2.4" demoStore
      (by decide)).1,
   (beginSession_unknown_account false 1 0 0 BeginFaults.none 999999 "192.0.2.4" demoStore
      (by decide)).2.1⟩

/-! ## Calls on a live session -/

theorem step_shape (w : Sys) (c : Call) :
    step w c = w
      ∨ (∃ flag, c = .freePeriod flag ∧ step w c = { w with freePeriod := flag })
      ∨ (∃ now, c = .startClock now ∧ w.halted = false
          ∧ step w c = { w with s := StartClock now w.s })
      ∨ (∃ now f, c.reading = some now ∧ w.halted = false
          ∧ (step w c).freePeriod = w.freePeriod
          ∧ (step w c).st = (Tick w.freePeriod now f w.s w.st).st
          ∧ ((step w c).s = (Tick w.freePeriod now f w.s w.st).s
              ∨ (step w c).s = { (Tick w.freePeriod now f w.s w.st).s with ticking := false })) := by
  cases hh : w.halted
  · cases c with
    | tick now f =>
      right; right; right
      exact ⟨now, f, rfl, rfl, by simp [step, hh], by simp [step, hh], by simp [step, hh]⟩
    | startClock now =>
      right; right; left
      exact ⟨now, rfl, rfl, by simp [step, hh]⟩
    | stopClock now f =>
      cases ht : w.s.ticking
      · left
        rcases w with ⟨fp, s, st, h⟩
        simp only at hh ht
        subst hh
        simp [step, StopClock, ht]
      · right; right; right
        refine ⟨now, f, rfl, rfl, by simp [step, hh], ?_, ?_⟩
        · rcases h : Tick w.freePeriod now f w.s w.st with ⟨s1, st1, r⟩
          cases r <;> simp [step, hh, StopClock, ht, h]
        · rcases h : Tick w.freePeriod now f w.s w.st with ⟨s1, st1, r⟩
          cases r <;> simp [step, hh, StopClock, ht, h]
    | time now f =>
      right; right; right
      refine ⟨now, f, rfl, rfl, by simp [step, hh], ?_, ?_⟩
      · rcases h : Tick w.freePeriod now f w.s w.st with ⟨s1, st1, r⟩
        cases r <;> simp [step, hh, Time, h]
      · rcases h : Tick w.freePeriod now f w.s w.st with ⟨s1, st1, r⟩
        cases r <;> simp [step, hh, Time, h]
    | finish now f =>
      right; right; right
      refine ⟨now, f, rfl, rfl, by simp [step, hh], ?_, ?_⟩
      · rcases h : Tick w.freePeriod now f w.s w.st with ⟨s1, st1, r⟩
        cases r <;> simp [step, hh, End, Time, h]
      · rcases h : Tick w.freePeriod now f w.s w.st with ⟨s1, st1, r⟩
        cases r <;> simp [step, hh, End, Time, h]
    | freePeriod flag =>
      right; left
      exact ⟨flag, rfl, by simp [step, hh]⟩
  · left
    simp [step, hh]

theorem run_cons (w : Sys) (c : Call) (cs : List Call) :
    run w (c :: cs) = run (step w c) cs := rfl

theorem run_append (w : Sys) (cs ds : List Call) : run w (cs ++ ds) = run (run w cs) ds := by
  simp [run, List.foldl_append]

theorem step_halted (w : Sys) (c : Call) (h : w.halted = true) : step w c = w := by
  simp [step, h]

theorem run_halted (cs : List Call) (w : Sys) (h : w.halted = true) : run w cs = w := by
  induction cs with
  | nil => rfl
  | cons c cs ih => rw [run_cons, step_halted w c h, ih]

@[simp] theorem StartClock_seconds (now : Int) (s : Session) :
    (StartClock now s).seconds = s.seconds := by
  unfold StartClock; split <;> rfl

@[simp] theorem StartClock_lastCharge (now : Int) (s : Session) :
    (StartClock now s).lastCharge = s.lastCharge := by
  unfold StartClock; split <;> rfl

@[simp] theorem StartClock_complimentary (now : Int) (s : Session) :
    (StartClock now s).complimentary = s.complimentary := by
  unfold StartClock; split <;> rfl

theorem beginSession_ok (fp : Bool) (product now1 now2 : Int) (f : BeginFaults) (uid : Nat)
    (addr : String) (st st1 : Store) (s : Session)
    (hb : BeginSession fp product now1 now2 f uid addr st = (st1, .ok s)) :
    ∃ a, st.working.accounts.find? (fun x => x.uid == uid) = some a
      ∧ s = { uid := uid, complimentary := (a.complimentary == "Y"),
              lastCharge := if a.complimentary == "Y" || fp then 0 else 1,
              sid := wrap32 (st.working.seq + 1), nextWrite := wrap64 (now1 + 60),
              lastTick := now2, ticking := true, seconds := 0 }
      ∧ st1.durable = st1.working ∧ st1.tx = true
      ∧ st1.working.accounts
        = (if a.complimentary == "Y" || fp then st.working.accounts
           else charged st.working.accounts uid 1) := by
  rcases f with ⟨f1, f2, f3, f4, f5, f6, f7⟩
  cases hfind : st.working.accounts.find? (fun x => x.uid == uid) with
  | none =>
    cases f1 <;> simp [BeginSession, querySelect, hfind] at hb
  | some a =>
    refine ⟨a, rfl, ?_⟩
    cases f1
    · cases f2
      · cases f3
        · by_cases hY : a.complimentary = "Y"
          · cases htx : st.tx <;> cases hd : st.done <;> cases f6 <;> cases f7 <;>
              simp [BeginSession, querySelect, execInsert, Commit, StartClock,
                hfind, hY, htx, hd] at hb
            all_goals obtain ⟨h1, h2⟩ := hb
            all_goals subst h1 h2
            all_goals simp [hY]
          · cases fp
            · cases f4
              · cases f5
                · by_cases hr : accountRows st.working.accounts uid = 1
                  · cases htx : st.tx <;> cases hd : st.done <;> cases f6 <;> cases f7 <;>
                      simp [BeginSession, querySelect, execInsert, execUpdate1, rowsAffected,
                        Commit, StartClock, minimumCharge, hfind, hY, htx, hd, hr] at hb
                    all_goals obtain ⟨h1, h2⟩ := hb
                    all_goals subst h1 h2
                    all_goals simp [hY]
                  · have hb2 : (accountRows st.working.accounts uid != 1) = true := by
                      simpa [bne_iff_ne] using hr
                    simp [BeginSession, querySelect, execInsert, execUpdate1, rowsAffected,
                      minimumCharge, hfind, hY, hb2] at hb
                · simp [BeginSession, querySelect, execInsert, execUpdate1, rowsAffected,
                    minimumCharge, hfind, hY] at hb
              · simp [BeginSession, querySelect, execInsert, execUpdate1, rowsAffected,
                  minimumCharge, hfind, hY] at hb
            · cases htx : st.tx <;> cases hd : st.done <;> cases f6 <;> cases f7 <;>
                simp [BeginSession, querySelect, execInsert, Commit, StartClock,
                  hfind, hY, htx, hd] at hb
              all_goals obtain ⟨h1, h2⟩ := hb
              all_goals subst h1 h2
              all_goals simp [hY]
        · simp [BeginSession, querySelect, execInsert, hfind] at hb
      · simp [BeginSession, querySelect, execInsert, hfind] at hb
    · simp [BeginSession, querySelect, hfind] at hb

/-! ## Sessions that accrue nothing -/

theorem Tick_frozen (fp : Bool) (now : Int) (f : TickFaults) (s : Session) (st : Store)
    (hidle : s.complimentary = true ∨ fp = true) (hsec : s.seconds = 0)
    (hlc : s.lastCharge = 0) :
    (Tick fp now f s st).s.seconds = 0 ∧ (Tick fp now f s st).s.lastCharge = 0
      ∧ accountUpdates (Tick fp now f s st).st.trace = accountUpdates st.trace
      ∧ (Tick fp now f s st).st.working.accounts = st.working.accounts := by
  have hacc : accumulate fp now s = s := by
    apply accumulate_idle
    rcases hidle with h | h <;> simp [h]
  have hch : chargeOf fp now s = 0 := by
    unfold chargeOf
    rw [hacc, hsec]
    rfl
  have hno := Tick_no_charge fp now f s st (by rw [hch, hlc]; decide)
  refine ⟨by rw [Tick_seconds, hacc, hsec], ?_, hno.1, hno.2⟩
  rcases Tick_lastCharge fp now f s st with h | h
  · rw [h, hlc]
  · rw [h.2.2, hch]

theorem step_frozen (w : Sys) (c : Call) (hF : Frozen w)
    (hc : w.s.complimentary = true ∨ c ≠ .freePeriod false) :
    Frozen (step w c) ∧ (step w c).s.complimentary = w.s.complimentary
      ∧ accountUpdates (step w c).st.trace = accountUpdates w.st.trace
      ∧ (step w c).st.working.accounts = w.st.working.accounts
      ∧ ((step w c).st.durable.accounts = w.st.durable.accounts
          ∨ (step w c).st.durable.accounts = w.st.working.accounts) := by
  obtain ⟨hidle, hsec, hlc⟩ := hF
  rcases step_shape w c with h | ⟨flag, hcf, h⟩ | ⟨now, _, _, h⟩ | ⟨now, f, _, _, hfp, hst, hs⟩
  · rw [h]
    exact ⟨⟨hidle, hsec, hlc⟩, rfl, rfl, rfl, Or.inl rfl⟩
  · rw [h]
    refine ⟨⟨?_, hsec, hlc⟩, rfl, rfl, rfl, Or.inl rfl⟩
    rcases hc with hc | hc
    · exact Or.inl hc
    · right
      cases flag
      · exact absurd hcf hc
      · rfl
  · rw [h]
    exact ⟨⟨by simpa using hidle, by simpa using hsec, by simpa using hlc⟩, by simp, rfl, rfl,
      Or.inl rfl⟩
  · have hT := Tick_frozen w.freePeriod now f w.s w.st hidle hsec hlc
    have hcomp := Tick_complimentary w.freePeriod now f w.s w.st
    have hdur := Tick_durable w.freePeriod now f w.s w.st
    have hsf : (step w c).s.seconds = 0 ∧ (step w c).s.lastCharge = 0
        ∧ (step w c).s.complimentary = w.s.complimentary := by
      rcases hs with hs | hs <;> rw [hs]
      · exact ⟨hT.1, hT.2.1, hcomp⟩
      · exact ⟨hT.1, hT.2.1, hcomp⟩
    refine ⟨⟨?_, hsf.1, hsf.2.1⟩, hsf.2.2, ?_, ?_, ?_⟩
    · rw [hsf.2.2, hfp]
      exact hidle
    · rw [hst]
      exact hT.2.2.1
    · rw [hst]
      exact hT.2.2.2
    · rw [hst]
      rcases hdur with hd | hd
      · exact Or.inl (by rw [hd])
      · exact Or.inr (by rw [hd, hT.2.2.2])

theorem run_frozen (cs : List Call) (w : Sys) (hF : Frozen w)
    (hc : w.s.complimentary = true ∨ ∀ c ∈ cs, c ≠ Call.freePeriod false)
    (hd : w.st.durable.accounts = w.st.working.accounts) :
    Frozen (run w cs)
      ∧ accountUpdates (run w cs).st.trace = accountUpdates w.st.trace
      ∧ (run w cs).st.working.accounts = w.st.working.accounts
      ∧ (run w cs).st.durable.accounts = w.st.working.accounts := by
  induction cs generalizing w with
  | nil => exact ⟨hF, rfl, rfl, hd⟩
  | cons c cs ih =>
    have hc1 : w.s.complimentary = true ∨ c ≠ Call.freePeriod false := by
      rcases hc with h | h
      · exact Or.inl h
      · exact Or.inr (h c (List.mem_cons_self _ _))
    obtain ⟨hF1, hcomp, htr, hwk, hdu⟩ := step_frozen w c hF hc1
    have hc2 : (step w c).s.complimentary = true ∨ ∀ d ∈ cs, d ≠ Call.freePeriod false := by
      rcases hc with h | h
      · exact Or.inl (by rw [hcomp, h])
      · exact Or.inr (fun d hd => h d (List.mem_cons_of_mem _ hd))
    have hd1 : (step w c).st.durable.accounts = (step w c).st.working.accounts := by
      rcases hdu with h | h
      · rw [h, hwk, hd]
      · rw [h, hwk]
    obtain ⟨hF2, htr2, hwk2, hdu2⟩ := ih (step w c) hF1 hc2 hd1
    rw [run_cons]
    exact ⟨hF2, by rw [htr2, htr], by rw [hwk2, hwk], by rw [hdu2, hwk]⟩

/-! ## C8 -/

/-- C8: after a successful `BeginSession` on a complimentary account (flag
"Y"), every sequence of calls on the session (ticks at any clock readings with
any backend answers, the clock started or stopped, the free-period flag
either way) leaves `seconds = 0` and `lastCharge = 0` and issues no
account-balance update, so the committed account rows, and the balance among
them, are those of the session start. -/
theorem complimentary_session_never_charged (fp0 : Bool) (product now1 now2 : Int)
    (f0 : BeginFaults) (uid : Nat) (addr : String) (st st1 : Store) (s : Session) (a : Account)
    (hfind : st.working.accounts.find? (fun x => x.uid == uid) = some a)
    (hY : a.complimentary = "Y")
    (hb : BeginSession fp0 product now1 now2 f0 uid addr st = (st1, .ok s))
    (fp : Bool) (cs : List Call) :
    (run ⟨fp, s, st1, false⟩ cs).s.seconds = 0
      ∧ (run ⟨fp, s, st1, false⟩ cs).s.lastCharge = 0
      ∧ accountUpdates (run ⟨fp, s, st1, false⟩ cs).st.trace = accountUpdates st1.trace
      ∧ (run ⟨fp, s, st1, false⟩ cs).st.working.accounts = st1.durable.accounts
      ∧ (run ⟨fp, s, st1, false⟩ cs).st.durable.accounts = st1.durable.accounts
      ∧ balance (run ⟨fp, s, st1, false⟩ cs).st.durable uid = balance st1.durable uid
      ∧ balance st1.durable uid = some a.minutes := by
  obtain ⟨a1, hfind1, hs, hdw, _, hacc⟩ := beginSession_ok fp0 product now1 now2 f0 uid addr
    st st1 s hb
  rw [hfind] at hfind1
  cases hfind1
  have hF : Frozen ⟨fp, s, st1, false⟩ := by
    rw [hs]
    exact ⟨Or.inl (by simp [hY]), rfl, by simp [hY]⟩
  have hd : st1.durable.accounts = st1.working.accounts := by rw [hdw]
  obtain ⟨hF2, htr, hwk, hdu⟩ := run_frozen cs ⟨fp, s, st1, false⟩ hF
    (Or.inl (by rw [hs]; simp [hY])) hd
  have hacc1 : st1.durable.accounts = st.working.accounts := by
    rw [hd, hacc]
    simp [hY]
  refine ⟨hF2.2.1, hF2.2.2, htr, by rw [hwk, hd], by rw [hdu, hd], ?_, ?_⟩
  · unfold balance
    rw [hdu, hd]
  · unfold balance
    rw [hacc1, hfind]
    rfl

/-- C8 at the complimentary account of the tests: after the clock is stopped
and restarted and a tick two minutes later, nothing has accrued and the balance
is still 1000. -/
theorem complimentary_session_never_charged_witness :
    (run ⟨false, demoComplimentary, demoBegunComplimentary, false⟩
        [.stopClock 10 TickFaults.none, .startClock 20, .tick 140 TickFaults.none]).s.seconds = 0
      ∧ balance (run ⟨false, demoComplimentary, demoBegunComplimentary, false⟩
        [.stopClock 10 TickFaults.none, .startClock 20,
         .tick 140 TickFaults.none]).st.durable 666000 = some 1000 :=
  have h := complimentary_session_never_charged false 1 0 0 BeginFaults.none 666000
    "192.0.2.1" demoStore demoBegunComplimentary demoComplimentary ⟨666000, "Y", 1000⟩
    (by decide) (by decide) (by decide) false
    [.stopClock 10 TickFaults.none, .startClock 20, .tick 140 TickFaults.none]
  ⟨h.1, h.2.2.2.2.2.1.trans h.2.2.2.2.2.2⟩

/-! ## C9 -/

/-- C9 is false as stated: a paying session begun at reading 0 while the
free-period flag is set (balance 1000, `lastCharge = 0`) accrues the whole
elapsed time once `FreePeriod(false)` has been called; the `Tick` at reading
130 leaves `seconds = 130`, charges the account 2 minutes and the committed
balance is 998. -/
theorem free_period_session_charged_after_flag_clears :
    BeginSession true 1 0 0 BeginFaults.none 666001 "192.0.2.3" demoStore
        = (demoBegunFree, .ok demoFree)
      ∧ balance demoBegunFree.durable 666001 = some 1000
      ∧ (run ⟨true, demoFree, demoBegunFree, false⟩
          [.freePeriod false, .tick 130 TickFaults.none]).s.seconds = 130
      ∧ accountUpdates (run ⟨true, demoFree, demoBegunFree, false⟩
          [.freePeriod false, .tick 130 TickFaults.none]).st.trace = [(2, 666001)]
      ∧ balance (run ⟨true, demoFree, demoBegunFree, false⟩
          [.freePeriod false, .tick 130 TickFaults.none]).st.durable 666001 = some 998 := by
  decide

/-- C9 as amended: after a successful `BeginSession` made while the
free-period flag is set, every sequence of calls on the session that never
clears the flag (no `FreePeriod(false)`) leaves `seconds = 0` and issues no
account-balance update, whatever the clock readings and backend answers; the
committed account rows are those of the session start. -/
theorem free_period_session_never_charged (product now1 now2 : Int) (f0 : BeginFaults)
    (uid : Nat) (addr : String) (st st1 : Store) (s : Session)
    (hb : BeginSession true product now1 now2 f0 uid addr st = (st1, .ok s))
    (cs : List Call) (hcs : ∀ c ∈ cs, c ≠ Call.freePeriod false) :
    (run ⟨true, s, st1, false⟩ cs).s.seconds = 0
      ∧ accountUpdates (run ⟨true, s, st1, false⟩ cs).st.trace = accountUpdates st1.trace
      ∧ (run ⟨true, s, st1, false⟩ cs).st.working.accounts = st1.durable.accounts
      ∧ (run ⟨true, s, st1, false⟩ cs).st.durable.accounts = st1.durable.accounts
      ∧ balance (run ⟨true, s, st1, false⟩ cs).st.durable uid = balance st1.durable uid
      ∧ st1.durable.accounts = st.working.accounts := by
  obtain ⟨a1, hfind1, hs, hdw, _, hacc⟩ := beginSession_ok true product now1 now2 f0 uid addr
    st st1 s hb
  have hF : Frozen ⟨true, s, st1, false⟩ := by
    rw [hs]
    exact ⟨Or.inr rfl, rfl, by simp⟩
  have hd : st1.durable.accounts = st1.working.accounts := by rw [hdw]
  obtain ⟨hF2, htr, hwk, hdu⟩ := run_frozen cs ⟨true, s, st1, false⟩ hF (Or.inr hcs) hd
  refine ⟨hF2.2.1, htr, by rw [hwk, hd], by rw [hdu, hd], ?_, ?_⟩
  · unfold balance
    rw [hdu, hd]
  · rw [hd, hacc]
    simp

/-- C9 as amended, at the paying account of the tests: begun in a free period,
ticked at 130 with the flag still set, nothing has accrued and the committed
account rows are unchanged. -/
theorem free_period_session_never_charged_witness :
    (run ⟨true, demoFree, demoBegunFree, false⟩
        [.freePeriod true, .tick 130 TickFaults.none]).s.seconds = 0
      ∧ (run ⟨true, demoFree, demoBegunFree, false⟩
        [.freePeriod true, .tick 130 TickFaults.none]).st.durable.accounts
          = demoStore.working.accounts :=
  have h := free_period_session_never_charged 1 0 0 BeginFaults.none 666001 "192.0.2.3"
    demoStore demoBegunFree demoFree (by decide)
    [.freePeriod true, .tick 130 TickFaults.none] (by decide)
  ⟨h.1, h.2.2.2.1.trans h.2.2.2.2.2⟩

/-! ## Accumulated seconds along a call sequence -/

theorem accumulate_clocked (fp : Bool) (now : Int) (s : Session)
    (h0 : 0 ≤ s.seconds) (h1 : s.seconds ≤ s.lastTick) (h2 : s.lastTick ≤ now)
    (h3 : now < 2 ^ 63) :
    (accumulate fp now s = s
        ∨ ((accumulate fp now s).seconds = s.seconds + (now - s.lastTick)
            ∧ (accumulate fp now s).lastTick = now)) := by
  by_cases h : (!s.complimentary && !fp && s.ticking) = true
  · right
    unfold accumulate
    rw [if_pos h]
    have e1 : wrap64 (now - s.lastTick) = now - s.lastTick :=
      wrap64_of_range _ (by norm_num; omega) (by norm_num at h3 ⊢; omega)
    have e2 : wrap64 (s.seconds + (now - s.lastTick)) = s.seconds + (now - s.lastTick) :=
      wrap64_of_range _ (by norm_num; omega) (by norm_num at h3 ⊢; omega)
    simp only [e1, e2, and_self]
  · left
    exact accumulate_idle fp now s (by simpa using h)

theorem step_clocked (w : Sys) (c : Call) (t : Int) (hI : Clocked w t)
    (hr : ∀ now, c.reading = some now → t ≤ now ∧ now < 2 ^ 63) :
    w.s.seconds ≤ (step w c).s.seconds
      ∧ w.s.lastTick - w.s.seconds ≤ (step w c).s.lastTick - (step w c).s.seconds
      ∧ Clocked (step w c) (c.reading.getD t) := by
  obtain ⟨h0, h1, h2⟩ := hI
  rcases step_shape w c with h | ⟨flag, hcf, h⟩ | ⟨now, hcn, _, h⟩
    | ⟨now, f, hcr, _, hfp, hst, hs⟩
  · rw [h]
    refine ⟨le_refl _, le_refl _, h0, h1, ?_⟩
    cases hcr : c.reading with
    | none => exact h2
    | some now => exact le_trans h2 (hr now hcr).1
  · rw [h, hcf]
    exact ⟨le_refl _, le_refl _, h0, h1, h2⟩
  · rw [h, hcn]
    have hn := hr now (by rw [hcn]; rfl)
    by_cases ht : w.s.ticking = true
    · have e : StartClock now w.s = w.s := by simp [StartClock, ht]
      simp only [e]
      exact ⟨le_refl _, le_refl _, h0, h1, le_trans h2 hn.1⟩
    · have e : StartClock now w.s = { w.s with lastTick := now, ticking := true } := by
        simp [StartClock, ht]
      simp only [e]
      refine ⟨le_refl _, by show _ ≤ now - w.s.seconds; omega, h0, ?_, ?_⟩
      · show w.s.seconds ≤ now
        omega
      · show now ≤ _
        exact le_refl _
  · have hn := hr now hcr
    have hsec : (step w c).s.seconds = (accumulate w.freePeriod now w.s).seconds := by
      rcases hs with hs | hs <;> rw [hs]
      · exact Tick_seconds _ _ _ _ _
      · exact Tick_seconds _ _ _ _ _
    have hlt : (step w c).s.lastTick = (accumulate w.freePeriod now w.s).lastTick := by
      rcases hs with hs | hs <;> rw [hs]
      · exact Tick_lastTick _ _ _ _ _
      · exact Tick_lastTick _ _ _ _ _
    unfold Clocked
    rw [hsec, hlt, hcr]
    rcases accumulate_clocked w.freePeriod now w.s h0 h1 (le_trans h2 hn.1) hn.2 with e | e
    · rw [e]
      refine ⟨le_refl _, le_refl _, h0, h1, ?_⟩
      show _ ≤ now
      omega
    · rw [e.1, e.2]
      refine ⟨by omega, by omega, by omega, by omega, ?_⟩
      show now ≤ now
      exact le_refl _

theorem run_clocked (cs : List Call) (w : Sys) (t : Int) (hI : Clocked w t)
    (hs : List.Pairwise (fun a b => a ≤ b) (t :: readings cs))
    (hb : ∀ r ∈ readings cs, r < 2 ^ 63) :
    ∃ u, u ∈ t :: readings cs ∧ Clocked (run w cs) u
      ∧ w.s.seconds ≤ (run w cs).s.seconds
      ∧ w.s.lastTick - w.s.seconds ≤ (run w cs).s.lastTick - (run w cs).s.seconds := by
  induction cs generalizing w t with
  | nil => exact ⟨t, List.mem_cons_self _ _, hI, le_refl _, le_refl _⟩
  | cons c cs ih =>
    cases hcr : c.reading with
    | none =>
      have hrd : readings (c :: cs) = readings cs := by
        simp [readings, List.filterMap_cons, hcr]
      rw [hrd] at hs hb
      obtain ⟨k1, k2, k3⟩ := step_clocked w c t hI (by intro now h; rw [hcr] at h; cases h)
      rw [hcr] at k3
      obtain ⟨u, hu, hc, m1, m2⟩ := ih (step w c) t k3 hs hb
      rw [run_cons, hrd]
      exact ⟨u, hu, hc, le_trans k1 m1, le_trans k2 m2⟩
    | some now =>
      have hrd : readings (c :: cs) = now :: readings cs := by
        simp [readings, List.filterMap_cons, hcr]
      rw [hrd] at hs hb
      have htn : t ≤ now := (List.pairwise_cons.mp hs).1 now (List.mem_cons_self _ _)
      have hnb : now < 2 ^ 63 := hb now (List.mem_cons_self _ _)
      obtain ⟨k1, k2, k3⟩ := step_clocked w c t hI
        (by intro n h; rw [hcr] at h; cases h; exact ⟨htn, hnb⟩)
      rw [hcr] at k3
      obtain ⟨u, hu, hc, m1, m2⟩ := ih (step w c) now k3 (List.pairwise_cons.mp hs).2
        (fun r hr => hb r (List.mem_cons_of_mem _ hr))
      rw [run_cons, hrd]
      exact ⟨u, List.mem_cons_of_mem _ hu, hc, le_trans k1 m1, le_trans k2 m2⟩

theorem readings_append (A B : List Call) : readings (A ++ B) = readings A ++ readings B := by
  simp [readings]

theorem run_clocked_split (A B : List Call) (w : Sys) (t : Int) (hI : Clocked w t)
    (hs : List.Pairwise (fun a b => a ≤ b) (t :: readings (A ++ B)))
    (hb : ∀ r ∈ readings (A ++ B), r < 2 ^ 63) :
    ∃ u, Clocked (run w A) u
      ∧ List.Pairwise (fun a b => a ≤ b) (u :: readings B)
      ∧ (∀ r ∈ readings B, r < 2 ^ 63)
      ∧ w.s.seconds ≤ (run w A).s.seconds
      ∧ w.s.lastTick - w.s.seconds ≤ (run w A).s.lastTick - (run w A).s.seconds := by
  rw [readings_append] at hs hb
  have hs2 : List.Pairwise (fun a b => a ≤ b) ((t :: readings A) ++ readings B) := by
    simpa using hs
  obtain ⟨p1, p2, p3⟩ := List.pairwise_append.mp hs2
  obtain ⟨u, hu, hc, m1, m2⟩ := run_clocked A w t hI p1
    (fun r hr => hb r (List.mem_append_left _ hr))
  refine ⟨u, hc, ?_, fun r hr => hb r (List.mem_append_right _ hr), m1, m2⟩
  exact List.pairwise_cons.mpr ⟨fun b hb2 => p3 u hu b hb2, p2⟩

theorem step_stopClock_paused (w : Sys) (t : Int) (f : TickFaults) :
    (step w (.stopClock t f)).halted = true ∨ (step w (.stopClock t f)).s.ticking = false := by
  cases hh : w.halted
  · cases ht : w.s.ticking
    · right
      simp [step, hh, StopClock, ht]
    · rcases h : Tick w.freePeriod t f w.s w.st with ⟨s1, st1, r⟩
      cases r <;> simp [step, hh, StopClock, ht, h]
  · left
    rw [step_halted w _ hh]
    exact hh

theorem step_paused (w : Sys) (c : Call) (hp : w.halted = true ∨ w.s.ticking = false)
    (hc : c.isStartClock = false) :
    (step w c).s.seconds = w.s.seconds
      ∧ ((step w c).halted = true ∨ (step w c).s.ticking = false) := by
  rcases hp with hp | hp
  · rw [step_halted w c hp]
    exact ⟨rfl, Or.inl hp⟩
  · rcases step_shape w c with h | ⟨flag, _, h⟩ | ⟨now, hcn, _, _⟩ | ⟨now, f, _, _, _, _, hs⟩
    · rw [h]
      exact ⟨rfl, Or.inr hp⟩
    · rw [h]
      exact ⟨rfl, Or.inr hp⟩
    · rw [hcn] at hc
      simp [Call.isStartClock] at hc
    · have hacc : accumulate w.freePeriod now w.s = w.s :=
        accumulate_idle _ _ _ (by simp [hp])
      have h1 := Tick_seconds w.freePeriod now f w.s w.st
      have h2 := Tick_ticking w.freePeriod now f w.s w.st
      rw [hacc] at h1
      rcases hs with hs | hs <;> rw [hs]
      · exact ⟨h1, Or.inr (by rw [h2, hp])⟩
      · exact ⟨h1, Or.inr rfl⟩

theorem run_paused (cs : List Call) (w : Sys) (hp : w.halted = true ∨ w.s.ticking = false)
    (hc : ∀ c ∈ cs, c.isStartClock = false) :
    (run w cs).s.seconds = w.s.seconds
      ∧ ((run w cs).halted = true ∨ (run w cs).s.ticking = false) := by
  induction cs generalizing w with
  | nil => exact ⟨rfl, hp⟩
  | cons c cs ih =>
    obtain ⟨h1, h2⟩ := step_paused w c hp (hc c (List.mem_cons_self _ _))
    obtain ⟨h3, h4⟩ := ih (step w c) h2 (fun d hd => hc d (List.mem_cons_of_mem _ hd))
    rw [run_cons]
    exact ⟨by rw [h3, h1], h4⟩

/-! ## C10 -/

/-- C10: for a session returned by `BeginSession` and clock readings that are
Unix times (not before the epoch, below 2^63) and never go back, (1) no call of
a sequence of `Tick`, `StartClock`, `StopClock` (or `Time`, `End`, `FreePeriod`)
calls lowers the accumulated seconds; (2) a `Tick` on a paused session leaves
them unchanged, in every state; (3) after a `StopClock`, calls made while
paused and the next `StartClock` at reading `t2`, the seconds at any later
time `T` exceed those at the `StopClock` by at most `T - t2`: the time between
the pause and the resumption is never added. -/
theorem seconds_only_grow_while_ticking (fp0 : Bool) (product now1 now2 : Int)
    (f0 : BeginFaults) (uid : Nat) (addr : String) (st st1 : Store) (s : Session)
    (hb : BeginSession fp0 product now1 now2 f0 uid addr st = (st1, .ok s))
    (h0 : 0 ≤ now2) (fp : Bool) :
    (∀ cs c, List.Pairwise (fun a b => a ≤ b) (now2 :: readings (cs ++ [c])) →
        (∀ r ∈ readings (cs ++ [c]), r < 2 ^ 63) →
        (run ⟨fp, s, st1, false⟩ cs).s.seconds
          ≤ (run ⟨fp, s, st1, false⟩ (cs ++ [c])).s.seconds)
      ∧ (∀ fpx now f sx stx, sx.ticking = false →
          (Tick fpx now f sx stx).s.seconds = sx.seconds)
      ∧ (∀ cs t1 f1 paused t2 rest T,
          List.Pairwise (fun a b => a ≤ b)
            (now2 :: readings (cs ++ [Call.stopClock t1 f1] ++ paused
              ++ [Call.startClock t2] ++ rest)) →
          (∀ r ∈ readings (cs ++ [Call.stopClock t1 f1] ++ paused
              ++ [Call.startClock t2] ++ rest), r ≤ T) →
          T < 2 ^ 63 →
          (∀ c ∈ paused, c.isStartClock = false) →
          (run ⟨fp, s, st1, false⟩ (cs ++ [Call.stopClock t1 f1] ++ paused
              ++ [Call.startClock t2] ++ rest)).s.seconds
            ≤ (run ⟨fp, s, st1, false⟩ (cs ++ [Call.stopClock t1 f1])).s.seconds
              + (T - t2)) := by
  obtain ⟨a1, _, hs, _, _, _⟩ := beginSession_ok fp0 product now1 now2 f0 uid addr st st1 s hb
  have hI : Clocked ⟨fp, s, st1, false⟩ now2 := by
    rw [hs]
    exact ⟨le_refl _, h0, le_refl _⟩
  refine ⟨?_, ?_, ?_⟩
  · intro cs c hp hbd
    obtain ⟨u, hc, hp2, hb2, _, _⟩ := run_clocked_split cs [c] _ now2 hI hp hbd
    rw [run_append]
    have := step_clocked (run ⟨fp, s, st1, false⟩ cs) c u hc (by
      intro now hcr
      have hrd : readings [c] = [now] := by simp [readings, hcr]
      rw [hrd] at hp2 hb2
      exact ⟨(List.pairwise_cons.mp hp2).1 now (List.mem_cons_self _ _),
        hb2 now (List.mem_cons_self _ _)⟩)
    exact this.1
  · intro fpx now f sx stx ht
    rw [Tick_seconds, accumulate_idle fpx now sx (by simp [ht])]
  · intro cs t1 f1 paused t2 rest T hp hT hTb hpa
    have hbd : ∀ r ∈ readings (cs ++ [Call.stopClock t1 f1] ++ paused
        ++ [Call.startClock t2] ++ rest), r < 2 ^ 63 :=
      fun r hr => lt_of_le_of_lt (hT r hr) hTb
    have ht2 : t2 ≤ T := hT t2 (by simp [readings_append, readings, Call.reading])
    have hrest : ∀ r ∈ readings rest, r ≤ T :=
      fun r hr => hT r (by rw [readings_append]; exact List.mem_append_right _ hr)
    simp only [List.append_assoc] at hp hbd ⊢
    rw [← List.append_assoc] at hp hbd ⊢
    obtain ⟨u1, hc1, hp1, hb1, _, _⟩ := run_clocked_split (cs ++ [Call.stopClock t1 f1])
      (paused ++ ([Call.startClock t2] ++ rest)) _ now2 hI hp hbd
    rw [run_append]
    generalize hW1 : run ⟨fp, s, st1, false⟩ (cs ++ [Call.stopClock t1 f1]) = W1 at hc1 ⊢
    have hW1p : W1.halted = true ∨ W1.s.ticking = false := by
      rw [← hW1, run_append]
      exact step_stopClock_paused _ t1 f1
    obtain ⟨u2, hc2, hp2, hb2, _, _⟩ := run_clocked_split paused
      ([Call.startClock t2] ++ rest) W1 u1 hc1 hp1 hb1
    obtain ⟨hsec2, hW2p⟩ := run_paused paused W1 hW1p hpa
    rw [run_append]
    generalize run W1 paused = W2 at hc2 hsec2 hW2p ⊢
    rcases hW2p with hh | htk
    · rw [run_halted _ W2 hh, hsec2]
      omega
    · cases hh : W2.halted
      · have hu2 : u2 ≤ t2 := by
          have : readings ([Call.startClock t2] ++ rest) = t2 :: readings rest := by
            simp [readings, Call.reading]
          rw [this] at hp2
          exact (List.pairwise_cons.mp hp2).1 t2 (List.mem_cons_self _ _)
        have hp3 : List.Pairwise (fun a b => a ≤ b) (t2 :: readings rest) := by
          have : readings ([Call.startClock t2] ++ rest) = t2 :: readings rest := by
            simp [readings, Call.reading]
          rw [this] at hp2
          exact (List.pairwise_cons.mp hp2).2
        have hb3 : ∀ r ∈ readings rest, r < 2 ^ 63 :=
          fun r hr => lt_of_le_of_lt (hrest r hr) hTb
        rw [show [Call.startClock t2] ++ rest = Call.startClock t2 :: rest from rfl, run_cons]
        have hW3 : step W2 (Call.startClock t2)
            = { W2 with s := { W2.s with lastTick := t2, ticking := true } } := by
          simp [step, hh, StartClock, htk]
        rw [hW3]
        obtain ⟨c0, c1, c2⟩ := hc2
        have hc3 : Clocked { W2 with s := { W2.s with lastTick := t2, ticking := true } } t2 :=
          ⟨c0, by show W2.s.seconds ≤ t2; omega, le_refl _⟩
        obtain ⟨u, hu, ⟨d0, d1, d2⟩, _, m2⟩ := run_clocked rest _ t2 hc3 hp3 hb3
        have huT : u ≤ T := by
          rcases List.mem_cons.mp hu with h | h
          · rw [h]; exact ht2
          · exact hrest u h
        have m3 : t2 - W2.s.seconds ≤ _ := m2
        rw [hsec2] at m3
        omega
      · rw [run_halted _ W2 hh, hsec2]
        omega

/-- C10 at the paying session of the tests, begun at reading 0: the tick at
130 does not lower the seconds of the tick at 30; a tick on the paused session
leaves them unchanged; and after a tick and `StopClock` at 70, a tick while
paused at 150, `StartClock` at 150 and a tick at 220, the seconds exceed those
at the `StopClock` by at most 220 - 150. -/
theorem seconds_only_grow_while_ticking_witness :
    (run ⟨false, demoSession, demoBegun, false⟩ [.tick 30 TickFaults.none]).s.seconds
        ≤ (run ⟨false, demoSession, demoBegun, false⟩
            ([.tick 30 TickFaults.none] ++ [.tick 130 TickFaults.none])).s.seconds
      ∧ (Tick false 150 TickFaults.none { demoSession with ticking := false }
          demoBegun).s.seconds = demoSession.seconds
      ∧ (run ⟨false, demoSession, demoBegun, false⟩
          ([.tick 70 TickFaults.none] ++ [Call.stopClock 70 TickFaults.none]
            ++ [.tick 150 TickFaults.none] ++ [Call.startClock 150]
            ++ [.tick 220 TickFaults.none])).s.seconds
        ≤ (run ⟨false, demoSession, demoBegun, false⟩
            ([.tick 70 TickFaults.none] ++ [Call.stopClock 70 TickFaults.none])).s.seconds
          + (220 - 150) :=
  have h := seconds_only_grow_while_ticking false 1 0 0 BeginFaults.none 666001 "192.0.2.2"
    demoStore demoBegun demoSession (by decide) (by decide) false
  ⟨h.1 [.tick 30 TickFaults.none] (.tick 130 TickFaults.none) (by decide) (by decide),
   h.2.1 false 150 TickFaults.none { demoSession with ticking := false } demoBegun rfl,
   h.2.2 [.tick 70 TickFaults.none] 70 TickFaults.none [.tick 150 TickFaults.none] 150
     [.tick 220 TickFaults.none] 220 (by decide) (by decide) (by decide) (by decide)⟩

/-! ## Whole minutes -/

theorem floorMinutes_eq (x : Int) : floorMinutes x = x / 60 := by
  unfold floorMinutes
  exact_mod_cast Rat.floor_intCast_div_natCast x 60

theorem tdiv_floorMinutes (x : Int) (h : 0 ≤ x) : Int.tdiv x 60 = floorMinutes x := by
  rw [floorMinutes_eq, Int.tdiv_eq_ediv h (by decide)]

theorem tdiv_floorMinutes_neg (x : Int) (h : x < 0) :
    Int.tdiv x 60 = - floorMinutes (-x) := by
  rw [floorMinutes_eq, ← Int.tdiv_eq_ediv (by omega) (by decide), Int.neg_tdiv, neg_neg]

/-! ## C11 -/

/-- C11 is false as stated: a paying session begun at reading 100 and ticked at
reading 99 (the clock stepped back one second) has -1 accumulated seconds;
paused there, the `Tick` at reading 160 meets the flush deadline and writes the
charge 0 to the session row, while the floor of -1 / 60 is -1. -/
theorem tick_charge_not_floor_of_negative_seconds :
    BeginSession false 1 100 100 BeginFaults.none 666001 "192.0.2.2" demoStore
        = (demoBegun100, .ok demoSession100)
      ∧ (run ⟨false, demoSession100, demoBegun100, false⟩
          [.tick 99 TickFaults.none, .stopClock 99 TickFaults.none]).s.seconds = -1
      ∧ (run ⟨false, demoSession100, demoBegun100, false⟩
          [.tick 99 TickFaults.none, .stopClock 99 TickFaults.none,
           .tick 160 TickFaults.none]).s.seconds = -1
      ∧ (run ⟨false, demoSession100, demoBegun100, false⟩
          [.tick 99 TickFaults.none, .stopClock 99 TickFaults.none,
           .tick 160 TickFaults.none]).st.trace
        = demoBegun100.trace ++ [Stmt.update2 0 1, Stmt.commit, Stmt.begin]
      ∧ (run ⟨false, demoSession100, demoBegun100, false⟩
          [.tick 99 TickFaults.none, .stopClock 99 TickFaults.none,
           .tick 160 TickFaults.none]).st.durable.sessions
        = [{ demoRow with minutes := 0, endTime := some 160 }]
      ∧ floorMinutes (-1) = -1 := by
  refine ⟨by decide, by decide, by decide, by decide, by decide, ?_⟩
  rw [floorMinutes_eq]
  decide

/-- C11 as amended: the charge a `Tick` computes is the accumulated seconds it
leaves divided by 60 with Go's integer division, which truncates toward zero;
that value is what the session-row update of a due flush carries and what
`lastCharge` becomes when it changes.  It is the floor of seconds / 60 whenever
the accumulated seconds are not negative, and the negated floor of
-seconds / 60 when they are negative.  For a session returned by `BeginSession`
whose clock readings are Unix times that never go back, the accumulated
seconds are never negative. -/
theorem tick_charge_truncates (fp : Bool) (now : Int) (f : TickFaults) (s : Session)
    (st : Store) :
    chargeOf fp now s = Int.tdiv (Tick fp now f s st).s.seconds 60
      ∧ (flushDue fp now s = true → ∃ rest, (Tick fp now f s st).st.trace
          = st.trace ++ Stmt.update2 (chargeOf fp now s) s.sid :: rest)
      ∧ ((Tick fp now f s st).s.lastCharge = s.lastCharge
          ∨ (Tick fp now f s st).s.lastCharge = chargeOf fp now s)
      ∧ (0 ≤ (Tick fp now f s st).s.seconds →
          chargeOf fp now s = floorMinutes (Tick fp now f s st).s.seconds)
      ∧ ((Tick fp now f s st).s.seconds < 0 →
          chargeOf fp now s = - floorMinutes (-(Tick fp now f s st).s.seconds))
      ∧ (∀ fp0 product now1 now2 f0 uid addr st0 st1 s0 fpx cs,
          BeginSession fp0 product now1 now2 f0 uid addr st0 = (st1, .ok s0) →
          0 ≤ now2 →
          List.Pairwise (fun a b => a ≤ b) (now2 :: readings cs) →
          (∀ r ∈ readings cs, r < 2 ^ 63) →
          0 ≤ (run ⟨fpx, s0, st1, false⟩ cs).s.seconds) := by
  have hsec := Tick_seconds fp now f s st
  have hch : chargeOf fp now s = Int.tdiv (Tick fp now f s st).s.seconds 60 := by
    rw [hsec]
    rfl
  refine ⟨hch, Tick_trace_head fp now f s st, ?_, ?_, ?_, ?_⟩
  · rcases Tick_lastCharge fp now f s st with h | h
    · exact Or.inl h
    · exact Or.inr h.2.2
  · intro h
    rw [hch]
    exact tdiv_floorMinutes _ h
  · intro h
    rw [hch]
    exact tdiv_floorMinutes_neg _ h
  · intro fp0 product now1 now2 f0 uid addr st0 st1 s0 fpx cs hb h0 hp hbd
    obtain ⟨a1, _, hs, _, _, _⟩ := beginSession_ok fp0 product now1 now2 f0 uid addr st0 st1
      s0 hb
    have hI : Clocked ⟨fpx, s0, st1, false⟩ now2 := by
      rw [hs]
      exact ⟨le_refl _, h0, le_refl _⟩
    obtain ⟨u, _, hc, _, _⟩ := run_clocked cs _ now2 hI hp hbd
    exact hc.1

/-- C11 as amended, at the scenario session: the `Tick` at 130 seconds computes
the charge 2, the floor of 130 / 60, and writes it. -/
theorem tick_charge_truncates_witness :
    chargeOf false 130 demoSession = floorMinutes 130
      ∧ ∃ rest, (Tick false 130 TickFaults.none demoSession demoBegun).st.trace
          = demoBegun.trace ++ Stmt.update2 (chargeOf false 130 demoSession) 1 :: rest :=
  have h := tick_charge_truncates false 130 TickFaults.none demoSession demoBegun
  ⟨h.2.2.2.1 (by decide), h.2.1 (by decide)⟩

/-! ## The committed minutes of the session row -/

@[simp] theorem execUpdate2_sessions_fail (st : Store) (now m sid : Int) :
    (execUpdate2 st true now m sid).1.working.sessions = st.working.sessions := rfl

@[simp] theorem execUpdate2_sessions_ok (st : Store) (now m sid : Int) :
    (execUpdate2 st false now m sid).1.working.sessions
      = stamped st.working.sessions sid m now := rfl

@[simp] theorem execUpdate1_sessions (st : Store) (b : Bool) (m : Int) (uid : Nat) :
    (execUpdate1 st b m uid).1.working.sessions = st.working.sessions := by
  cases b <;> rfl

theorem rowMinutes_stamped_replicate (l : List SessionRow) (sid m now : Int) :
    rowMinutes (stamped l sid m now) sid
      = List.replicate (l.filter (fun r => r.sid == sid)).length m := by
  induction l with
  | nil => rfl
  | cons x xs ih =>
    unfold rowMinutes stamped at ih ⊢
    by_cases hx : x.sid = sid
    · simp [List.filter_cons, hx, List.replicate_succ]
      simpa using ih
    · simp [List.filter_cons, hx]
      simpa using ih

theorem rowMinutes_stamped (l : List SessionRow) (sid m now : Int)
    (h : sessionRows l sid = 1) : rowMinutes (stamped l sid m now) sid = [m] := by
  rw [rowMinutes_stamped_replicate]
  unfold sessionRows at h
  have h1 : (l.filter (fun r => r.sid == sid)).length = 1 := by exact_mod_cast h
  rw [h1]
  rfl

theorem flush_row (now : Int) (f : TickFaults) (s1 : Session) (charge : Int) (st : Store) :
    (f.update2 = true → (flush now f s1 charge st).st.durable = st.durable)
      ∧ (f.update2 = false →
          (flush now f s1 charge st).st.durable.sessions
            = stamped st.working.sessions s1.sid charge now)
      ∧ ((flush now f s1 charge st).ret = some 1 →
          f.update2 = false ∧ sessionRows st.working.sessions s1.sid = 1) := by
  refine flush_cases
    (fun o => (f.update2 = true → o.st.durable = st.durable)
      ∧ (f.update2 = false →
          o.st.durable.sessions = stamped st.working.sessions s1.sid charge now)
      ∧ (o.ret = some 1 → f.update2 = false ∧ sessionRows st.working.sessions s1.sid = 1))
    now f s1 charge st ?_ ?_ ?_ ?_ ?_ ?_
  · intro h
    simp [h]
  · intro h _
    simp [h]
  · intro h _ _ _ _
    simp [h, execUpdate1]
  · intro h _ _ _ _ _
    simp [h]
  · intro h _ a3 _ _ _ _
    refine finishFlush_cases
      (fun o => (f.update2 = true → o.st.durable = st.durable)
        ∧ (f.update2 = false →
            o.st.durable.sessions = stamped st.working.sessions s1.sid charge now)
        ∧ (o.ret = some 1 → f.update2 = false ∧ sessionRows st.working.sessions s1.sid = 1))
      now f s1 charge _ ?_ ?_ ?_ ?_ <;> intros <;> simp [h, a3]
  · intro h _ a3 _
    refine finishFlush_cases
      (fun o => (f.update2 = true → o.st.durable = st.durable)
        ∧ (f.update2 = false →
            o.st.durable.sessions = stamped st.working.sessions s1.sid charge now)
        ∧ (o.ret = some 1 → f.update2 = false ∧ sessionRows st.working.sessions s1.sid = 1))
      now f s1 charge _ ?_ ?_ ?_ ?_ <;> intros <;> simp [h, a3]

theorem flush_sid (now : Int) (f : TickFaults) (s1 : Session) (charge : Int) (st : Store) :
    (flush now f s1 charge st).s.sid = s1.sid := by
  rcases flush_session now f s1 charge st with h | h <;> rw [h.2]

theorem accumulate_sid_lastCharge (fp : Bool) (now : Int) (s : Session) :
    (accumulate fp now s).sid = s.sid ∧ (accumulate fp now s).lastCharge = s.lastCharge := by
  unfold accumulate
  split <;> exact ⟨rfl, rfl⟩

theorem Time_eq (fp : Bool) (now : Int) (f : TickFaults) (s : Session) (st : Store) :
    (Time fp now f s st).s = (Tick fp now f s st).s
      ∧ (Time fp now f s st).st = (Tick fp now f s st).st
      ∧ (Time fp now f s st).ret
        = (Tick fp now f s st).ret.map (fun _ => (Tick fp now f s st).s.lastCharge) := by
  unfold Time
  rcases h : Tick fp now f s st with ⟨s1, st1, r⟩
  cases r <;> simp

theorem beginSession_ok_sessions (fp : Bool) (product now1 now2 : Int) (f : BeginFaults)
    (uid : Nat) (addr : String) (st st1 : Store) (s : Session)
    (hb : BeginSession fp product now1 now2 f uid addr st = (st1, .ok s)) :
    st1.working.sessions
      = st.working.sessions
        ++ [⟨st.working.seq + 1, product, uid, addr, s.lastCharge, none⟩] := by
  rcases f with ⟨f1, f2, f3, f4, f5, f6, f7⟩
  cases hfind : st.working.accounts.find? (fun x => x.uid == uid) with
  | none =>
    cases f1 <;> simp [BeginSession, querySelect, hfind] at hb
  | some a =>
    cases f1
    · cases f2
      · cases f3
        · by_cases hY : a.complimentary = "Y"
          · cases htx : st.tx <;> cases hd : st.done <;> cases f6 <;> cases f7 <;>
              simp [BeginSession, querySelect, execInsert, Commit, StartClock,
                hfind, hY, htx, hd] at hb
            all_goals obtain ⟨h1, h2⟩ := hb
            all_goals subst h1 h2
            all_goals simp
          · cases fp
            · cases f4
              · cases f5
                · by_cases hr : accountRows st.working.accounts uid = 1
                  · cases htx : st.tx <;> cases hd : st.done <;> cases f6 <;> cases f7 <;>
                      simp [BeginSession, querySelect, execInsert, execUpdate1, rowsAffected,
                        Commit, StartClock, minimumCharge, hfind, hY, htx, hd, hr] at hb
                    all_goals obtain ⟨h1, h2⟩ := hb
                    all_goals subst h1 h2
                    all_goals simp
                  · have hb2 : (accountRows st.working.accounts uid != 1) = true := by
                      simpa [bne_iff_ne] using hr
                    simp [BeginSession, querySelect, execInsert, execUpdate1, rowsAffected,
                      minimumCharge, hfind, hY, hb2] at hb
                · simp [BeginSession, querySelect, execInsert, execUpdate1, rowsAffected,
                    minimumCharge, hfind, hY] at hb
              · simp [BeginSession, querySelect, execInsert, execUpdate1, rowsAffected,
                  minimumCharge, hfind, hY] at hb
            · cases htx : st.tx <;> cases hd : st.done <;> cases f6 <;> cases f7 <;>
                simp [BeginSession, querySelect, execInsert, Commit, StartClock,
                  hfind, hY, htx, hd] at hb
              all_goals obtain ⟨h1, h2⟩ := hb
              all_goals subst h1 h2
              all_goals simp
        · simp [BeginSession, querySelect, execInsert, hfind] at hb
      · simp [BeginSession, querySelect, execInsert, hfind] at hb
    · simp [BeginSession, querySelect, hfind] at hb

theorem rowMinutes_append_fresh (l : List SessionRow) (r : SessionRow)
    (h : sessionRows l r.sid = 0) : rowMinutes (l ++ [r]) r.sid = [r.minutes] := by
  unfold sessionRows at h
  have h1 : (l.filter (fun x => x.sid == r.sid)).length = 0 := by exact_mod_cast h
  have h2 : l.filter (fun x => x.sid == r.sid) = [] := List.length_eq_zero.mp h1
  simp [rowMinutes, List.filter_append, h2]

/-! ## C12 -/

/-- C12 is false as stated: in the scenario session (row committed with 1
minute, `lastCharge = 1`) the `Tick` at 130 seconds whose account charge is
refused returns 0 and keeps `lastCharge = 1`, and `Time` returns 1, while the
session row is committed with 2 minutes. -/
theorem lastCharge_behind_committed_row :
    rowMinutes demoBegun.durable.sessions demoSession.sid = [demoSession.lastCharge]
      ∧ (Tick false 130 { TickFaults.none with update1 := true } demoSession demoBegun).ret
        = some 0
      ∧ (Tick false 130 { TickFaults.none with update1 := true } demoSession
          demoBegun).s.lastCharge = 1
      ∧ rowMinutes (Tick false 130 { TickFaults.none with update1 := true } demoSession
          demoBegun).st.durable.sessions 1 = [2]
      ∧ (Time false 130 { TickFaults.none with update1 := true } demoSession demoBegun).ret
        = some 1
      ∧ rowMinutes (Time false 130 { TickFaults.none with update1 := true } demoSession
          demoBegun).st.durable.sessions 1 = [2] := by
  decide

/-- C12 as amended: after a successful `BeginSession` (the new row's key being
unused and within `int32`) the committed row of the session records
`lastCharge`.  A `Tick` that attempts no flush changes neither the store nor
`lastCharge`; after a `Tick` whose flush succeeded the committed row records
the new `lastCharge`; a `Tick` whose session-row update is refused changes
neither what is committed nor `lastCharge`.  After a `Tick` whose flush fails
at a later step, `lastCharge` is what it was while the rows of the session are
committed with the minutes computed by this `Tick`.  `Time` leaves the session
and the store as its `Tick` does and returns `lastCharge` as it then stands. -/
theorem lastCharge_is_committed_minutes :
    (∀ fp product now1 now2 f uid addr st st1 s,
        BeginSession fp product now1 now2 f uid addr st = (st1, .ok s) →
        wrap32 (st.working.seq + 1) = st.working.seq + 1 →
        sessionRows st.working.sessions (st.working.seq + 1) = 0 →
        rowMinutes st1.durable.sessions s.sid = [s.lastCharge])
      ∧ (∀ fp now f s st,
          (flushDue fp now s = false →
            (Tick fp now f s st).st = st
              ∧ (Tick fp now f s st).s.lastCharge = s.lastCharge)
          ∧ (flushDue fp now s = true → (Tick fp now f s st).ret = some 1 →
              rowMinutes (Tick fp now f s st).st.durable.sessions (Tick fp now f s st).s.sid
                = [(Tick fp now f s st).s.lastCharge])
          ∧ (flushDue fp now s = true → f.update2 = true →
              (Tick fp now f s st).st.durable = st.durable
                ∧ (Tick fp now f s st).s.lastCharge = s.lastCharge)
          ∧ (flushDue fp now s = true → f.update2 = false →
              (Tick fp now f s st).ret ≠ some 1 →
              (Tick fp now f s st).s.lastCharge = s.lastCharge
                ∧ (Tick fp now f s st).st.durable.sessions
                  = stamped st.working.sessions s.sid (chargeOf fp now s) now
                ∧ (sessionRows st.working.sessions s.sid = 1 →
                    rowMinutes (Tick fp now f s st).st.durable.sessions
                        (Tick fp now f s st).s.sid
                      = [chargeOf fp now s])))
      ∧ (∀ fp now f s st,
          (Time fp now f s st).s = (Tick fp now f s st).s
            ∧ (Time fp now f s st).st = (Tick fp now f s st).st
            ∧ ∀ v, (Time fp now f s st).ret = some v →
                v = (Time fp now f s st).s.lastCharge) := by
  refine ⟨?_, ?_, ?_⟩
  · intro fp product now1 now2 f uid addr st st1 s hb hw hfresh
    obtain ⟨a, _, hs, hdw, _, _⟩ := beginSession_ok fp product now1 now2 f uid addr st st1 s hb
    have hse := beginSession_ok_sessions fp product now1 now2 f uid addr st st1 s hb
    have hsid : s.sid = st.working.seq + 1 := by rw [hs]; exact hw
    rw [hdw, hse, hsid]
    exact rowMinutes_append_fresh st.working.sessions
      ⟨st.working.seq + 1, product, uid, addr, s.lastCharge, none⟩ hfresh
  · intro fp now f s st
    obtain ⟨hsid, hlc⟩ := accumulate_sid_lastCharge fp now s
    obtain ⟨r1, r2, r3⟩ := flush_row now f (accumulate fp now s) (chargeOf fp now s) st
    have hfs := flush_sid now f (accumulate fp now s) (chargeOf fp now s) st
    refine ⟨?_, ?_, ?_, ?_⟩
    · intro hd
      rw [Tick_eq, hd]
      exact ⟨rfl, hlc⟩
    · intro hd hret
      rw [Tick_eq, hd] at hret ⊢
      simp only [if_true] at hret ⊢
      obtain ⟨h2, hone⟩ := r3 hret
      rw [r2 h2, hfs]
      rcases flush_session now f (accumulate fp now s) (chargeOf fp now s) st with h | h
      · exact absurd hret h.1
      · rw [h.2]
        exact rowMinutes_stamped _ _ _ _ hone
    · intro hd h2
      rw [Tick_eq, hd]
      simp only [if_true]
      refine ⟨r1 h2, ?_⟩
      rcases flush_session now f (accumulate fp now s) (chargeOf fp now s) st with h | h
      · rw [h.2]
        exact hlc
      · exact absurd (r3 h.1).1 (by simp [h2])
    · intro hd h2 hret
      rw [Tick_eq, hd] at hret ⊢
      simp only [if_true] at hret ⊢
      rcases flush_session now f (accumulate fp now s) (chargeOf fp now s) st with h | h
      · refine ⟨by rw [h.2]; exact hlc, by rw [r2 h2, hsid], ?_⟩
        intro hone
        rw [r2 h2, hfs]
        exact rowMinutes_stamped _ _ _ _ (by rw [hsid]; exact hone)
      · exact absurd h.1 hret
  · intro fp now f s st
    obtain ⟨h1, h2, h3⟩ := Time_eq fp now f s st
    refine ⟨h1, h2, ?_⟩
    intro v hv
    rw [h3] at hv
    rw [h1]
    cases hr : (Tick fp now f s st).ret with
    | none => rw [hr] at hv; simp at hv
    | some x => rw [hr] at hv; simpa using hv.symm

/-- C12 as amended, at the scenario session: after `BeginSession` the committed
row records `lastCharge = 1`; after the `Tick` at 130 seconds that succeeds it
records the new `lastCharge`; after the `Tick` at 130 seconds whose commit
fails the row is committed with 130 / 60 while `lastCharge` is still 1, which
is what `Time` returns. -/
theorem lastCharge_is_committed_minutes_witness :
    rowMinutes demoBegun.durable.sessions demoSession.sid = [demoSession.lastCharge]
      ∧ rowMinutes (Tick false 130 TickFaults.none demoSession demoBegun).st.durable.sessions
          (Tick false 130 TickFaults.none demoSession demoBegun).s.sid
        = [(Tick false 130 TickFaults.none demoSession demoBegun).s.lastCharge]
      ∧ (Tick false 130 { TickFaults.none with commit := true } demoSession
          demoBegun).s.lastCharge = demoSession.lastCharge
      ∧ rowMinutes (Tick false 130 { TickFaults.none with commit := true } demoSession
          demoBegun).st.durable.sessions
          (Tick false 130 { TickFaults.none with commit := true } demoSession demoBegun).s.sid
        = [chargeOf false 130 demoSession]
      ∧ (1 : Int) = (Time false 130 { TickFaults.none with commit := true } demoSession
          demoBegun).s.lastCharge :=
  have h := (lastCharge_is_committed_minutes.2.1 false 130
    { TickFaults.none with commit := true } demoSession demoBegun).2.2.2
    (by decide) rfl (by decide)
  ⟨lastCharge_is_committed_minutes.1 false 1 0 0 BeginFaults.none 666001 "192.0.2.2"
      demoStore demoBegun demoSession (by decide) (by decide) (by decide),
   (lastCharge_is_committed_minutes.2.1 false 130 TickFaults.none demoSession
      demoBegun).2.1 (by decide) (by decide),
   h.1, h.2.2 (by decide),
   (lastCharge_is_committed_minutes.2.2 false 130 { TickFaults.none with commit := true }
      demoSession demoBegun).2.2 1 (by decide)⟩

/-! ## C13 -/

/-- C13 is false as stated: the scenario session after a `Tick` at reading 130
whose session-row update was refused (nothing written, the transaction still
open) is ticking with its last tick at 130 and the flush still due; `StopClock`
at reading 130 performs that flush (session-row update, account charge,
commit), so after `StartClock` at 130 `lastCharge` is 2 instead of 1,
`nextWrite` is 190 instead of 60, the session row holds 2 minutes instead of 1
and the balance is 997 instead of 999. -/
theorem stop_start_flushes_when_due :
    (Tick false 130 { TickFaults.none with update2 := true } demoSession demoBegun).s
        = demoUnflushed
      ∧ demoUnflushedStore.durable = demoBegun.durable
      ∧ demoUnflushedStore.tx = true
      ∧ demoUnflushed.ticking = true ∧ demoUnflushed.lastTick = 130
      ∧ StartClock 130 (StopClock false 130 TickFaults.none demoUnflushed
          demoUnflushedStore).s
        = { demoUnflushed with lastCharge := 2, nextWrite := 190 }
      ∧ (StopClock false 130 TickFaults.none demoUnflushed demoUnflushedStore).st.trace
        = demoUnflushedStore.trace
          ++ [Stmt.update2 2 1, Stmt.update1 2 666001, Stmt.commit, Stmt.begin]
      ∧ balance demoUnflushedStore.durable 666001 = some 999
      ∧ balance (StopClock false 130 TickFaults.none demoUnflushed
          demoUnflushedStore).st.durable 666001 = some 997
      ∧ rowMinutes demoUnflushedStore.durable.sessions 1 = [1]
      ∧ rowMinutes (StopClock false 130 TickFaults.none demoUnflushed
          demoUnflushedStore).st.durable.sessions 1 = [2] := by
  decide

/-- C13 as amended: for every ticking session state (with `seconds` an `int64`
value) in which no flush is due at the last tick, that is seconds / 60 is at
most `lastCharge` and `lastTick` is before `nextWrite`, `StopClock` at the
reading `lastTick` only clears `ticking`, hands nothing to the database and
leaves the store as it was, and `StartClock` at the same reading gives back
the session exactly as it was before.  Such is the state a `Tick` at a Unix
time `now` that returns 1 leaves behind, when no earlier tick was later than
`now`. -/
theorem stop_start_no_elapsed_is_identity :
    (∀ fp f s st, s.ticking = true → -2 ^ 63 ≤ s.seconds → s.seconds < 2 ^ 63 →
        Int.tdiv s.seconds 60 ≤ s.lastCharge → s.lastTick < s.nextWrite →
        StopClock fp s.lastTick f s st = ⟨{ s with ticking := false }, st, some ()⟩
          ∧ StartClock s.lastTick (StopClock fp s.lastTick f s st).s = s
          ∧ (StopClock fp s.lastTick f s st).st = st)
      ∧ (∀ fp now f s st, (Tick fp now f s st).ret = some 1 → s.lastTick ≤ now →
          0 ≤ now → now + 60 < 2 ^ 63 →
          Int.tdiv (Tick fp now f s st).s.seconds 60 ≤ (Tick fp now f s st).s.lastCharge
            ∧ (Tick fp now f s st).s.lastTick < (Tick fp now f s st).s.nextWrite) := by
  refine ⟨?_, ?_⟩
  · intro fp f s st ht h1 h2 hc hw
    have hacc : accumulate fp s.lastTick s = s := by
      by_cases h : (!s.complimentary && !fp && s.ticking) = true
      · unfold accumulate
        rw [if_pos h]
        have e0 : wrap64 (s.lastTick - s.lastTick) = 0 := by
          rw [sub_self]
          rfl
        rw [e0, add_zero, wrap64_of_range _ h1 h2]
      · exact accumulate_idle fp _ s (by simpa using h)
    have hdue : flushDue fp s.lastTick s = false := by
      unfold flushDue chargeOf
      rw [hacc]
      simp only [Bool.or_eq_false_iff, decide_eq_false_iff_not]
      exact ⟨by omega, by omega⟩
    have hT : Tick fp s.lastTick f s st = ⟨s, st, some 1⟩ := by
      rw [Tick_eq, hdue, hacc]
      rfl
    have hS : StopClock fp s.lastTick f s st = ⟨{ s with ticking := false }, st, some ()⟩ := by
      unfold StopClock
      rw [if_pos ht, hT]
    rw [hS]
    refine ⟨rfl, ?_, rfl⟩
    rcases s with ⟨a, b, c, d, e, g, h, i⟩
    simp only at ht
    subst ht
    simp [StartClock]
  · intro fp now f s st hret hlt h0 hb
    have hlt2 : (accumulate fp now s).lastTick ≤ now := by
      unfold accumulate
      split
      · exact le_refl _
      · exact hlt
    rcases Tick_session fp now f s st with h | h | h
    · exact absurd hret h.1
    · rw [h.2.2]
      have hd := h.2.1
      unfold flushDue at hd
      simp only [Bool.or_eq_false_iff, decide_eq_false_iff_not] at hd
      have hch : chargeOf fp now s = Int.tdiv (accumulate fp now s).seconds 60 := rfl
      rw [hch] at hd
      exact ⟨by omega, by omega⟩
    · rw [h.2.2]
      have hw : wrap64 (now + 60) = now + 60 :=
        wrap64_of_range _ (by norm_num; omega) hb
      show Int.tdiv (accumulate fp now s).seconds 60 ≤ chargeOf fp now s
        ∧ (accumulate fp now s).lastTick < wrap64 (now + 60)
      rw [hw]
      exact ⟨le_refl _, by omega⟩

/-- C13 as amended, at the scenario session fresh from `BeginSession` (last
tick at reading 0): `StopClock` then `StartClock` at reading 0 give the session
and the store back unchanged. -/
theorem stop_start_no_elapsed_is_identity_witness :
    StartClock demoSession.lastTick
        (StopClock false demoSession.lastTick TickFaults.none demoSession demoBegun).s
        = demoSession
      ∧ (StopClock false demoSession.lastTick TickFaults.none demoSession demoBegun).st
        = demoBegun :=
  have h := stop_start_no_elapsed_is_identity.1 false TickFaults.none demoSession demoBegun
    (by decide) (by decide) (by decide) (by decide) (by decide)
  ⟨h.2.1, h.2.2⟩

/-! ## C14 -/

/-- C14: `StartClock` on a ticking session changes no field, `StopClock` on a
paused session changes no field and hands nothing to the database; after
`StartClock` the session is ticking, and when `StopClock` returns (as it always
does while a transaction is open) the session is paused; a second `StartClock`
or a second `StopClock` changes nothing more. -/
theorem clock_toggles_are_idempotent :
    (∀ now s, s.ticking = true → StartClock now s = s)
      ∧ (∀ fp now f s st, s.ticking = false → StopClock fp now f s st = ⟨s, st, some ()⟩)
      ∧ (∀ now s, (StartClock now s).ticking = true)
      ∧ (∀ fp now f s st, (StopClock fp now f s st).ret = some () →
          (StopClock fp now f s st).s.ticking = false)
      ∧ (∀ fp now f s st, st.tx = true → (StopClock fp now f s st).ret = some ())
      ∧ (∀ n1 n2 s, StartClock n2 (StartClock n1 s) = StartClock n1 s)
      ∧ (∀ fp n1 n2 f1 f2 s st, (StopClock fp n1 f1 s st).ret = some () →
          StopClock fp n2 f2 (StopClock fp n1 f1 s st).s (StopClock fp n1 f1 s st).st
            = ⟨(StopClock fp n1 f1 s st).s, (StopClock fp n1 f1 s st).st, some ()⟩) := by
  have hstart : ∀ now s, s.ticking = true → StartClock now s = s := by
    intro now s h
    simp [StartClock, h]
  have hstop : ∀ fp now f s st, s.ticking = false →
      StopClock fp now f s st = ⟨s, st, some ()⟩ := by
    intro fp now f s st h
    simp [StopClock, h]
  have hon : ∀ now s, (StartClock now s).ticking = true := by
    intro now s
    cases h : s.ticking <;> simp [StartClock, h]
  have hoff : ∀ fp now f s st, (StopClock fp now f s st).ret = some () →
      (StopClock fp now f s st).s.ticking = false := by
    intro fp now f s st
    cases ht : s.ticking
    · simp [StopClock, ht]
    · rcases h : Tick fp now f s st with ⟨s1, st1, r⟩
      cases r <;> simp [StopClock, ht, h]
  refine ⟨hstart, hstop, hon, hoff, ?_, ?_, ?_⟩
  · intro fp now f s st htx
    cases ht : s.ticking
    · simp [StopClock, ht]
    · have hr := Tick_ret fp now f s st htx
      rcases h : Tick fp now f s st with ⟨s1, st1, r⟩
      rw [h] at hr
      simp only at hr
      subst hr
      simp [StopClock, ht, h]
  · intro n1 n2 s
    exact hstart n2 _ (hon n1 s)
  · intro fp n1 n2 f1 f2 s st hr
    exact hstop fp n2 f2 _ _ (hoff fp n1 f1 s st hr)

/-- C14 at the scenario session: `StartClock` leaves the ticking session as it
is, and after `StopClock` a second `StopClock` changes nothing. -/
theorem clock_toggles_are_idempotent_witness :
    StartClock 50 demoSession = demoSession
      ∧ (StopClock false 10 TickFaults.none demoSession demoBegun).s.ticking = false
      ∧ StopClock false 20 TickFaults.none
          (StopClock false 10 TickFaults.none demoSession demoBegun).s
          (StopClock false 10 TickFaults.none demoSession demoBegun).st
        = ⟨(StopClock false 10 TickFaults.none demoSession demoBegun).s,
           (StopClock false 10 TickFaults.none demoSession demoBegun).st, some ()⟩ :=
  ⟨clock_toggles_are_idempotent.1 50 demoSession (by decide),
   clock_toggles_are_idempotent.2.2.2.1 false 10 TickFaults.none demoSession demoBegun
     (by decide),
   clock_toggles_are_idempotent.2.2.2.2.2.2 false 10 20 TickFaults.none TickFaults.none
     demoSession demoBegun (by decide)⟩

/-! ## C15 -/

/-- C15: `End` is `Time`; `Time` leaves the session and the store exactly as its
`Tick` leaves them, so no statement reaches the database beyond those of that
`Tick`, and it returns the `lastCharge` of the session after the `Tick` (it
panics when the `Tick` does). -/
theorem end_is_time_is_tick (fp : Bool) (now : Int) (f : TickFaults) (s : Session)
    (st : Store) :
    End fp now f s st = Time fp now f s st
      ∧ (Time fp now f s st).s = (Tick fp now f s st).s
      ∧ (Time fp now f s st).st = (Tick fp now f s st).st
      ∧ (End fp now f s st).st.trace = (Tick fp now f s st).st.trace
      ∧ (Time fp now f s st).ret
        = (Tick fp now f s st).ret.map (fun _ => (Tick fp now f s st).s.lastCharge) := by
  obtain ⟨h1, h2, h3⟩ := Time_eq fp now f s st
  exact ⟨rfl, h1, h2, by rw [show End fp now f s st = Time fp now f s st from rfl, h2], h3⟩

/-! ## C23 -/

/-- C23: `Tick`, `StartClock`, `StopClock`, `Time` and `End` leave the uid, the
complimentary flag and the sid of the session as they were, for every session,
clock reading, store and answer of the backend (a panicking call included). -/
theorem session_identity_is_immutable (fp : Bool) (now : Int) (f : TickFaults) (s : Session)
    (st : Store) :
    ((Tick fp now f s st).s.uid = s.uid ∧ (Tick fp now f s st).s.complimentary = s.complimentary
        ∧ (Tick fp now f s st).s.sid = s.sid)
      ∧ ((StartClock now s).uid = s.uid ∧ (StartClock now s).complimentary = s.complimentary
        ∧ (StartClock now s).sid = s.sid)
      ∧ ((StopClock fp now f s st).s.uid = s.uid
        ∧ (StopClock fp now f s st).s.complimentary = s.complimentary
        ∧ (StopClock fp now f s st).s.sid = s.sid)
      ∧ ((Time fp now f s st).s.uid = s.uid
        ∧ (Time fp now f s st).s.complimentary = s.complimentary
        ∧ (Time fp now f s st).s.sid = s.sid)
      ∧ ((End fp now f s st).s.uid = s.uid
        ∧ (End fp now f s st).s.complimentary = s.complimentary
        ∧ (End fp now f s st).s.sid = s.sid) := by
  have hT : (Tick fp now f s st).s.uid = s.uid
      ∧ (Tick fp now f s st).s.complimentary = s.complimentary
      ∧ (Tick fp now f s st).s.sid = s.sid := by
    rcases Tick_session fp now f s st with h | h | h
    · rw [h.2]; simp
    · rw [h.2.2]; simp
    · rw [h.2.2]; simp
  have hS : (StartClock now s).uid = s.uid ∧ (StartClock now s).complimentary = s.complimentary
      ∧ (StartClock now s).sid = s.sid := by
    unfold StartClock
    split <;> simp
  have hP : (StopClock fp now f s st).s.uid = s.uid
      ∧ (StopClock fp now f s st).s.complimentary = s.complimentary
      ∧ (StopClock fp now f s st).s.sid = s.sid := by
    unfold StopClock
    cases ht : s.ticking
    · simp
    · rcases h : Tick fp now f s st with ⟨s1, st1, r⟩
      rw [h] at hT
      cases r <;> simpa using hT
  have hM : (Time fp now f s st).s.uid = s.uid
      ∧ (Time fp now f s st).s.complimentary = s.complimentary
      ∧ (Time fp now f s st).s.sid = s.sid := by
    rw [(Time_eq fp now f s st).1]
    exact hT
  exact ⟨hT, hS, hP, hM, hM⟩

/-! ## Preparing the statements -/

theorem Init_prepared (dbOpen : Bool) (f : InitFaults) (product : Int) (p : Statements)
    (h : p.prepared = true) : Init dbOpen f product p = (p, .ok ()) := by
  simp [Init, h]

theorem Init_ok_prepared (dbOpen : Bool) (f : InitFaults) (product : Int) (p : Statements)
    (h : (Init dbOpen f product p).2 = .ok ()) : (Init dbOpen f product p).1.prepared = true := by
  unfold Init at h ⊢
  by_cases hp : p.prepared = true
  · simp [hp]
  · simp only [hp] at h ⊢
    cases dbOpen
    · simp at h
    · cases hi : f.insert
      · cases hs : f.select
        · cases h1 : f.update1
          · cases h2 : f.update2
            · simp [hi, hs, h1, h2]
            · simp [hi, hs, h1, h2] at h
          · simp [hi, hs, h1] at h
        · simp [hi, hs] at h
      · simp [hi] at h

theorem Init_first (f : InitFaults) (product : Int) (p : Statements)
    (hp : p.prepared = false) (h : (Init true f product p).2 = .ok ()) :
    (Init true f product p).1
      = { insertStmt := some (Query.insert product), selectStmt := some Query.select,
          update1Stmt := some Query.update1, update2Stmt := some Query.update2,
          prepared := true,
          issued := p.issued ++ [Query.insert product, Query.select, Query.update1,
            Query.update2] } := by
  unfold Init at h ⊢
  simp only [hp] at h ⊢
  cases hi : f.insert
  · cases hs : f.select
    · cases h1 : f.update1
      · cases h2 : f.update2
        · simp [hi, hs, h1, h2]
        · simp [hi, hs, h1, h2] at h
      · simp [hi, hs, h1] at h
    · simp [hi, hs] at h
  · simp [hi] at h

theorem Inits_prepared (calls : List (Bool × InitFaults × Int)) (p : Statements)
    (h : p.prepared = true) : Inits p calls = p := by
  induction calls with
  | nil => rfl
  | cons c cs ih =>
    show Inits (Init c.1 c.2.1 c.2.2 p).1 cs = p
    rw [Init_prepared _ _ _ _ h]
    exact ih

/-! ## C24 -/

/-- C24: once an `Init` has returned nil, every later `Init`, whatever its
product, the state of the database handle and the answers of the backend,
returns nil and leaves the four statements, the flag and the list of prepared
queries as they are, and so does any sequence of later calls; when that first
`Init` did the preparing, the insert statement carries its product. -/
theorem init_is_idempotent (dbOpen : Bool) (f : InitFaults) (product : Int) (p : Statements)
    (h : (Init dbOpen f product p).2 = .ok ()) :
    (∀ dbOpen2 f2 product2,
        Init dbOpen2 f2 product2 (Init dbOpen f product p).1
          = ((Init dbOpen f product p).1, .ok ()))
      ∧ (∀ calls, Inits (Init dbOpen f product p).1 calls = (Init dbOpen f product p).1)
      ∧ (p.prepared = false →
          ∀ calls, (Inits (Init dbOpen f product p).1 calls).insertStmt
              = some (Query.insert product)
            ∧ (Inits (Init dbOpen f product p).1 calls).issued
              = p.issued ++ [Query.insert product, Query.select, Query.update1,
                  Query.update2]) := by
  have hp := Init_ok_prepared dbOpen f product p h
  refine ⟨fun d2 f2 q2 => Init_prepared d2 f2 q2 _ hp, fun calls => Inits_prepared calls _ hp, ?_⟩
  intro hp0 calls
  rw [Inits_prepared calls _ hp]
  cases dbOpen
  · simp [Init, hp0] at h
  · rw [Init_first f product p hp0 h]
    exact ⟨rfl, rfl⟩

theorem init_is_idempotent_witness :
    (Init true InitFaults.none 1 Statements.initial).2 = .ok ()
      ∧ (Inits (Init true InitFaults.none 1 Statements.initial).1
          [(true, InitFaults.none, 2), (false, InitFaults.none, 1)]).insertStmt
        = some (Query.insert 1) :=
  ⟨by decide,
   ((init_is_idempotent true InitFaults.none 1 Statements.initial (by decide)).2.2
      (by decide) [(true, InitFaults.none, 2), (false, InitFaults.none, 1)]).1⟩

/-! ## A flush that only the deadline triggers -/

theorem Commit_trace_head (st : Store) (c b : Bool) (htx : st.tx = true) :
    ∃ rest, (Commit st c b).1.trace = st.trace ++ Stmt.commit :: rest := by
  unfold Commit
  cases c <;> cases b <;> simp [htx]

theorem flush_deadline_only (now : Int) (f : TickFaults) (s1 : Session) (charge : Int)
    (st : Store) (hc : ¬ charge > s1.lastCharge) (htx : st.tx = true)
    (h2 : f.update2 = false) (hr : f.rows2 = false)
    (hone : sessionRows st.working.sessions s1.sid = 1) :
    ∃ rest, (flush now f s1 charge st).st.trace
      = st.trace ++ Stmt.update2 charge s1.sid :: Stmt.commit :: rest := by
  refine flush_cases
    (fun o => ∃ rest, o.st.trace = st.trace ++ Stmt.update2 charge s1.sid :: Stmt.commit :: rest)
    now f s1 charge st ?_ ?_ ?_ ?_ ?_ ?_
  · intro h
    rw [h2] at h
    cases h
  · intro _ h
    rcases h with h | h
    · rw [hr] at h
      cases h
    · exact absurd hone h
  · intro _ _ _ h
    exact absurd h hc
  · intro _ _ _ h
    exact absurd h hc
  · intro _ _ _ h
    exact absurd h hc
  · intro _ _ _ _
    have htx2 : (execUpdate2 st false now charge s1.sid).1.tx = true := by simpa using htx
    refine finishFlush_cases
      (fun o => ∃ rest, o.st.trace
        = st.trace ++ Stmt.update2 charge s1.sid :: Stmt.commit :: rest)
      now f s1 charge _ ?_ ?_ ?_ ?_
    · intro h _
      rw [htx2] at h
      cases h
    · intro h _
      rw [htx2] at h
      cases h
    · intro _ _
      obtain ⟨rest, hrest⟩ := Commit_trace_head (execUpdate2 st false now charge s1.sid).1
        f.commit f.begin htx2
      exact ⟨rest, by simp [hrest]⟩
    · intro _ _ _
      obtain ⟨rest, hrest⟩ := Commit_trace_head (execUpdate2 st false now charge s1.sid).1
        false false htx2
      exact ⟨rest, by simp [hrest]⟩

/-! ## C33 -/

/-- C33: with the charge computed after accumulation, a `Tick` hands a
session-row update carrying that charge to the database exactly when the
charge exceeds `lastCharge` or the reading has reached `nextWrite`; when
neither holds the store is untouched, `lastCharge` and `nextWrite` are as they
were and the `Tick` returns 1; when only the deadline is met the session-row
update is issued, followed by the commit when it succeeds on one row in an open
transaction, and no account charge is issued and the accounts are as they
were. -/
theorem tick_flushes_iff_due (fp : Bool) (now : Int) (f : TickFaults) (s : Session)
    (st : Store) :
    (flushDue fp now s = true ↔
        (Int.tdiv (accumulate fp now s).seconds 60 > (accumulate fp now s).lastCharge
          ∨ now ≥ (accumulate fp now s).nextWrite))
      ∧ (flushDue fp now s = true ↔ ∃ rest, (Tick fp now f s st).st.trace
          = st.trace ++ Stmt.update2 (Int.tdiv (accumulate fp now s).seconds 60) s.sid :: rest)
      ∧ (flushDue fp now s = false →
          Tick fp now f s st = ⟨accumulate fp now s, st, some 1⟩
            ∧ (Tick fp now f s st).s.lastCharge = s.lastCharge
            ∧ (Tick fp now f s st).s.nextWrite = s.nextWrite)
      ∧ (flushDue fp now s = true →
          ¬ Int.tdiv (accumulate fp now s).seconds 60 > s.lastCharge →
          accountUpdates (Tick fp now f s st).st.trace = accountUpdates st.trace
            ∧ (Tick fp now f s st).st.working.accounts = st.working.accounts
            ∧ (st.tx = true → f.update2 = false → f.rows2 = false →
                sessionRows st.working.sessions s.sid = 1 →
                ∃ rest, (Tick fp now f s st).st.trace
                  = st.trace ++ Stmt.update2 (Int.tdiv (accumulate fp now s).seconds 60) s.sid
                      :: Stmt.commit :: rest)) := by
  have hdue : flushDue fp now s = true ↔
      (Int.tdiv (accumulate fp now s).seconds 60 > (accumulate fp now s).lastCharge
        ∨ now ≥ (accumulate fp now s).nextWrite) := by
    simp [flushDue, chargeOf]
  have hnot : flushDue fp now s = false →
      Tick fp now f s st = ⟨accumulate fp now s, st, some 1⟩ := by
    intro h
    rw [Tick_eq, h]
    simp
  refine ⟨hdue, ?_, ?_, ?_⟩
  · constructor
    · intro h
      exact Tick_trace_head fp now f s st h
    · intro h
      cases hd : flushDue fp now s
      · obtain ⟨rest, hrest⟩ := h
        rw [hnot hd] at hrest
        have := congrArg List.length hrest
        simp at this
      · rfl
  · intro h
    rw [hnot h]
    simp
  · intro h hc
    have hn := Tick_no_charge fp now f s st hc
    refine ⟨hn.1, hn.2, ?_⟩
    intro htx h2 hr hone
    rw [Tick_eq, h]
    simp only [if_true]
    have hfl := flush_deadline_only now f (accumulate fp now s) (chargeOf fp now s) st
      (by simpa using hc) htx h2 hr (by simpa using hone)
    simpa [chargeOf] using hfl

theorem tick_flushes_iff_due_witness :
    flushDue false 30 demoSession = false
      ∧ Tick false 30 TickFaults.none demoSession demoBegun
        = ⟨accumulate false 30 demoSession, demoBegun, some 1⟩
      ∧ flushDue false 60 demoSession = true
      ∧ accountUpdates (Tick false 60 TickFaults.none demoSession demoBegun).st.trace
        = accountUpdates demoBegun.trace :=
  ⟨by decide,
   ((tick_flushes_iff_due false 30 TickFaults.none demoSession demoBegun).2.2.1 (by decide)).1,
   by decide,
   ((tick_flushes_iff_due false 60 TickFaults.none demoSession demoBegun).2.2.2 (by decide)
      (by decide)).1⟩

/-! ## C34 -/

/-- C34: a `Tick` at reading `now` on a paying session whose clock runs, with
the free-period flag clear, leaves `seconds` larger by `now - lastTick` (the
subtraction and the sum being within the `int64` range) and `lastTick = now`,
whatever the backend answers to the flush; on a complimentary session, during a
free period and on a paused session it leaves `seconds` and `lastTick` as they
were. -/
theorem tick_accumulates_elapsed_seconds (fp : Bool) (now : Int) (f : TickFaults)
    (s : Session) (st : Store) :
    (s.complimentary = false → fp = false → s.ticking = true →
        -2 ^ 63 ≤ now - s.lastTick → now - s.lastTick < 2 ^ 63 →
        -2 ^ 63 ≤ s.seconds + (now - s.lastTick) → s.seconds + (now - s.lastTick) < 2 ^ 63 →
        (Tick fp now f s st).s.seconds = s.seconds + (now - s.lastTick)
          ∧ (Tick fp now f s st).s.lastTick = now)
      ∧ (s.complimentary = true ∨ fp = true ∨ s.ticking = false →
        (Tick fp now f s st).s.seconds = s.seconds
          ∧ (Tick fp now f s st).s.lastTick = s.lastTick) := by
  rw [Tick_seconds, Tick_lastTick]
  constructor
  · intro hc hf ht a1 a2 b1 b2
    unfold accumulate
    rw [if_pos (by simp [hc, hf, ht])]
    simp only [wrap64_of_range _ a1 a2, wrap64_of_range _ b1 b2, and_self]
  · intro h
    rw [accumulate_idle fp now s (by rcases h with h | h | h <;> simp [h])]
    exact ⟨rfl, rfl⟩

theorem tick_accumulates_elapsed_seconds_witness :
    (Tick false 45 TickFaults.none demoSession demoBegun).s.seconds = 45
      ∧ (Tick false 45 TickFaults.none demoSession demoBegun).s.lastTick = 45
      ∧ (Tick true 45 TickFaults.none demoSession demoBegun).s.seconds = 0 :=
  have h := tick_accumulates_elapsed_seconds false 45 TickFaults.none demoSession demoBegun
  have h2 := tick_accumulates_elapsed_seconds true 45 TickFaults.none demoSession demoBegun
  ⟨(h.1 (by decide) rfl (by decide) (by decide) (by decide) (by decide) (by decide)).1,
   (h.1 (by decide) rfl (by decide) (by decide) (by decide) (by decide) (by decide)).2,
   (h2.2 (Or.inr (Or.inl rfl))).1⟩

/-! ## C35 -/

/-- C35: on a ticking session, whenever the `Tick` at the same reading returns
(as it does while a transaction is open, whether or not its flush succeeds),
`StopClock` leaves the store of that `Tick` and the session of that `Tick` with
`ticking = false`, so the seconds up to the pause are accumulated; `StartClock`
on a paused session sets `lastTick` to the reading and `ticking` to true and
nothing else, and takes no part in the store. -/
theorem stopClock_is_tick_then_pause (fp : Bool) (now : Int) (f : TickFaults) (s : Session)
    (st : Store) :
    (s.ticking = true → (Tick fp now f s st).ret ≠ none →
        StopClock fp now f s st
          = ⟨{ (Tick fp now f s st).s with ticking := false }, (Tick fp now f s st).st,
             some ()⟩)
      ∧ (s.ticking = true → st.tx = true → (Tick fp now f s st).ret ≠ none)
      ∧ (s.ticking = true → (StopClock fp now f s st).s.seconds
          = (accumulate fp now s).seconds)
      ∧ (s.ticking = false →
          StartClock now s = { s with lastTick := now, ticking := true }
            ∧ (StartClock now s).seconds = s.seconds
            ∧ (StartClock now s).lastCharge = s.lastCharge
            ∧ (StartClock now s).nextWrite = s.nextWrite) := by
  refine ⟨?_, ?_, ?_, ?_⟩
  · intro ht hr
    unfold StopClock
    rw [if_pos ht]
    rcases h : Tick fp now f s st with ⟨s1, st1, r⟩
    rw [h] at hr
    cases r with
    | none => exact absurd rfl hr
    | some v => rfl
  · intro _ htx
    rw [Tick_ret fp now f s st htx]
    simp
  · intro ht
    have hs := Tick_seconds fp now f s st
    unfold StopClock
    rw [if_pos ht]
    rcases h : Tick fp now f s st with ⟨s1, st1, r⟩
    rw [h] at hs
    cases r <;> simpa using hs
  · intro ht
    simp [StartClock, ht]

theorem stopClock_is_tick_then_pause_witness :
    StopClock false 45 { TickFaults.none with update2 := true } demoSession demoBegun
        = ⟨{ (Tick false 45 { TickFaults.none with update2 := true } demoSession demoBegun).s
              with ticking := false },
           (Tick false 45 { TickFaults.none with update2 := true } demoSession demoBegun).st,
           some ()⟩
      ∧ (StopClock false 45 TickFaults.none demoSession demoBegun).s.seconds = 45 :=
  ⟨(stopClock_is_tick_then_pause false 45 { TickFaults.none with update2 := true } demoSession
      demoBegun).1 (by decide) (by decide),
   ((stopClock_is_tick_then_pause false 45 TickFaults.none demoSession
      demoBegun).2.2.1 (by decide)).trans (by decide)⟩

/-! ## C36 -/

/-- C36: a `BeginSession` that succeeds with both of its clock readings equal
to `now` returns a session with `nextWrite = now + 60`, `ticking = true`,
`lastTick = now` and `seconds = 0` (in general `nextWrite` is the first reading
plus 60 and `lastTick` the second); a `Tick` at reading `now` whose flush
succeeds leaves `nextWrite = now + 60`; and for a session whose `nextWrite` is
`now + 60` a `Tick` at a reading below `now + 60` is not past the deadline, so
it flushes only when the charge has grown.  Readings are below 2^63 - 60. -/
theorem deadline_is_a_minute_after_write (now : Int) (h0 : -2 ^ 63 ≤ now + 60)
    (h1 : now + 60 < 2 ^ 63) :
    (∀ fp product f uid addr st st1 s,
        BeginSession fp product now now f uid addr st = (st1, .ok s) →
        s.nextWrite = now + 60 ∧ s.ticking = true ∧ s.lastTick = now ∧ s.seconds = 0)
      ∧ (∀ fp product now2 f uid addr st st1 s,
        BeginSession fp product now now2 f uid addr st = (st1, .ok s) →
        s.nextWrite = now + 60 ∧ s.ticking = true ∧ s.lastTick = now2 ∧ s.seconds = 0)
      ∧ (∀ fp f s st, flushDue fp now s = true → (Tick fp now f s st).ret = some 1 →
        (Tick fp now f s st).s.nextWrite = now + 60)
      ∧ (∀ fp t s, s.nextWrite = now + 60 → t < now + 60 →
        ¬ t ≥ (accumulate fp t s).nextWrite
          ∧ (flushDue fp t s = true → chargeOf fp t s > s.lastCharge)) := by
  have hw : wrap64 (now + 60) = now + 60 := wrap64_of_range _ h0 h1
  have hbegin : ∀ fp product now2 f uid addr st st1 s,
      BeginSession fp product now now2 f uid addr st = (st1, .ok s) →
      s.nextWrite = now + 60 ∧ s.ticking = true ∧ s.lastTick = now2 ∧ s.seconds = 0 := by
    intro fp product now2 f uid addr st st1 s hb
    obtain ⟨a, _, hs, _⟩ := beginSession_ok fp product now now2 f uid addr st st1 s hb
    rw [hs]
    exact ⟨hw, rfl, rfl, rfl⟩
  refine ⟨fun fp product f uid addr st st1 s hb => hbegin fp product now f uid addr st st1 s hb,
    hbegin, ?_, ?_⟩
  · intro fp f s st hd hr
    rcases Tick_session fp now f s st with h | h | h
    · exact absurd hr h.1
    · rw [hd] at h
      cases h.2.1
    · rw [h.2.2]
      exact hw
  · intro fp t s hn ht
    have hlt : ¬ t ≥ (accumulate fp t s).nextWrite := by
      rw [accumulate_nextWrite, hn]
      omega
    refine ⟨hlt, ?_⟩
    intro hd
    unfold flushDue at hd
    simp only [Bool.or_eq_true, decide_eq_true_eq] at hd
    rcases hd with hd | hd
    · simpa using hd
    · exact absurd hd hlt

theorem deadline_is_a_minute_after_write_witness :
    BeginSession false 1 0 0 BeginFaults.none 666001 "192.0.2.2" demoStore
        = (demoBegun, .ok demoSession)
      ∧ demoSession.nextWrite = 0 + 60
      ∧ ¬ (59 : Int) ≥ (accumulate false 59 demoSession).nextWrite :=
  have h := deadline_is_a_minute_after_write 0 (by decide) (by decide)
  ⟨by decide,
   (h.1 false 1 BeginFaults.none 666001 "192.0.2.2" demoStore demoBegun demoSession
      (by decide)).1,
   (h.2.2.2 false 59 demoSession (by decide) (by decide)).1⟩

/-! ## The prepaid minute -/

theorem readings_tickCalls (l : List (Int × TickFaults)) :
    readings (tickCalls l) = l.map Prod.fst := by
  induction l with
  | nil => rfl
  | cons p l ih =>
    simp only [tickCalls, List.map_cons] at ih ⊢
    simp [readings, List.filterMap_cons, Call.reading] at ih ⊢
    exact ih

theorem Tick_prepaid (start now : Int) (f : TickFaults) (s : Session) (st : Store)
    (hP : Prepaid start s) (h0 : 0 ≤ start) (hn : s.lastTick ≤ now) (hb : now < 2 ^ 63 - 60) :
    Prepaid start (Tick false now f s st).s
      ∧ (Tick false now f s st).s.lastTick = now
      ∧ s.seconds ≤ (Tick false now f s st).s.seconds
      ∧ ((Tick false now f s st).s.seconds < 120 →
          accountUpdates (Tick false now f s st).st.trace = accountUpdates st.trace
            ∧ (Tick false now f s st).st.working.accounts = st.working.accounts) := by
  obtain ⟨hc, ht, hsec, hst, hl, hw⟩ := hP
  have hacc : accumulate false now s
      = { s with seconds := now - start, lastTick := now } := by
    unfold accumulate
    rw [if_pos (by simp [hc, ht])]
    have e1 : wrap64 (now - s.lastTick) = now - s.lastTick :=
      wrap64_of_range _ (by norm_num; omega) (by norm_num at hb ⊢; omega)
    have e2 : wrap64 (s.seconds + (now - s.lastTick)) = now - start := by
      rw [wrap64_of_range _ (by norm_num; omega) (by norm_num at hb ⊢; omega)]
      omega
    rw [e1, e2]
  have hch : chargeOf false now s = (now - start) / 60 := by
    unfold chargeOf
    rw [hacc]
    exact Int.tdiv_eq_ediv (by show (0 : Int) ≤ now - start; omega) (by norm_num)
  have hw64 : wrap64 (now + 60) = now + 60 :=
    wrap64_of_range _ (by norm_num; omega) (by norm_num at hb ⊢; omega)
  have hsecs : (Tick false now f s st).s.seconds = now - start := by
    rw [Tick_seconds, hacc]
  have hno : (Tick false now f s st).s.seconds < 120 →
      accountUpdates (Tick false now f s st).st.trace = accountUpdates st.trace
        ∧ (Tick false now f s st).st.working.accounts = st.working.accounts := by
    intro h
    rw [hsecs] at h
    exact Tick_no_charge false now f s st (by rw [hch]; omega)
  refine ⟨?_, ?_, ?_, hno⟩
  · rcases Tick_session false now f s st with h | h | h
    · rw [h.2, hacc]
      exact ⟨hc, ht, rfl, by show start ≤ now; omega, hl, hw⟩
    · rw [h.2.2, hacc]
      exact ⟨hc, ht, rfl, by show start ≤ now; omega, hl, hw⟩
    · rw [h.2.2, hacc, hw64, hch]
      refine ⟨hc, ht, rfl, by show start ≤ now; omega, ?_, by show start + 60 ≤ now + 60; omega⟩
      show 1 ≤ (now - start) / 60
      have hd := h.2.1
      unfold flushDue at hd
      rw [hch, hacc] at hd
      simp only [Bool.or_eq_true, decide_eq_true_eq] at hd
      rcases hd with hd | hd
      · have : s.lastCharge < (now - start) / 60 := hd
        omega
      · have : s.nextWrite ≤ now := hd
        omega
  · rw [Tick_lastTick, hacc]
  · rw [hsecs, hsec]
    omega

theorem run_prepaid (l : List (Int × TickFaults)) (start t : Int) (w : Sys) (st0 : Store)
    (hfp : w.freePeriod = false) (hP : Prepaid start w.s) (h0 : 0 ≤ start)
    (ht : w.s.lastTick ≤ t)
    (hT : w.s.seconds < 120 → accountUpdates w.st.trace = accountUpdates st0.trace
      ∧ w.st.working.accounts = st0.working.accounts)
    (hs : List.Pairwise (fun a b => a ≤ b) (t :: l.map Prod.fst))
    (hb : ∀ r ∈ l.map Prod.fst, r < 2 ^ 63 - 60) :
    Prepaid start (run w (tickCalls l)).s
      ∧ ((run w (tickCalls l)).s.seconds < 120 →
          accountUpdates (run w (tickCalls l)).st.trace = accountUpdates st0.trace
            ∧ (run w (tickCalls l)).st.working.accounts = st0.working.accounts) := by
  induction l generalizing w t with
  | nil => exact ⟨hP, hT⟩
  | cons p l ih =>
    have hp1 : t ≤ p.1 := (List.pairwise_cons.mp hs).1 p.1 (by simp)
    have hb1 : p.1 < 2 ^ 63 - 60 := hb p.1 (by simp)
    have hs2 : List.Pairwise (fun a b => a ≤ b) (p.1 :: l.map Prod.fst) :=
      (List.pairwise_cons.mp hs).2
    have hb2 : ∀ r ∈ l.map Prod.fst, r < 2 ^ 63 - 60 :=
      fun r hr => hb r (by simp only [List.map_cons]; exact List.mem_cons_of_mem _ hr)
    rw [show tickCalls (p :: l) = Call.tick p.1 p.2 :: tickCalls l from rfl, run_cons]
    cases hh : w.halted
    · obtain ⟨k1, k2, k3, k4⟩ := Tick_prepaid start p.1 p.2 w.s w.st hP h0 (le_trans ht hp1) hb1
      have hstep : step w (Call.tick p.1 p.2)
          = { w with s := (Tick w.freePeriod p.1 p.2 w.s w.st).s,
                     st := (Tick w.freePeriod p.1 p.2 w.s w.st).st,
                     halted := (Tick w.freePeriod p.1 p.2 w.s w.st).ret.isNone } := by
        simp [step, hh]
      rw [hfp] at hstep
      have hres := ih (t := p.1) (step w (Call.tick p.1 p.2))
        (by rw [hstep]) (by rw [hstep]; exact k1)
        (by rw [hstep]; exact le_of_eq k2)
        (by
          rw [hstep]
          intro hlt
          have hold := hT (lt_of_le_of_lt k3 hlt)
          have hnew := k4 hlt
          exact ⟨hnew.1.trans hold.1, hnew.2.trans hold.2⟩)
        hs2 hb2
      exact hres
    · have hstep : step w (Call.tick p.1 p.2) = w := step_halted w _ hh
      rw [hstep]
      exact ih (t := p.1) w hfp hP (le_trans ht hp1) hT hs2 hb2

/-! ## C37 -/

/-- C37: for a paying session as `BeginSession` returns it at reading `start`
(`lastCharge = 1`, `seconds = 0`, `lastTick = start`, `nextWrite = start + 60`,
clock running) and any sequence of `Tick` calls at readings that never go
back, with the free-period flag clear, whatever the backend answers: the
accumulated seconds are the time since `start`, `lastCharge` stays at least 1,
and as long as the accumulated seconds are below 120 no account charge has been
issued and the accounts are as they were, so the flushes made until then wrote
only the session row.  Readings are Unix times below 2^63 - 60. -/
theorem minimum_charge_prepays_second_minute (uid : Nat) (sid start : Int) (st0 : Store)
    (l : List (Int × TickFaults)) (h0 : 0 ≤ start)
    (hs : List.Pairwise (fun a b => a ≤ b) (start :: l.map Prod.fst))
    (hb : ∀ r ∈ l.map Prod.fst, r < 2 ^ 63 - 60) :
    1 ≤ (run ⟨false, freshSession uid sid start, st0, false⟩ (tickCalls l)).s.lastCharge
      ∧ (run ⟨false, freshSession uid sid start, st0, false⟩ (tickCalls l)).s.seconds
        = (run ⟨false, freshSession uid sid start, st0, false⟩ (tickCalls l)).s.lastTick - start
      ∧ ((run ⟨false, freshSession uid sid start, st0, false⟩ (tickCalls l)).s.seconds < 120 →
          accountUpdates
              (run ⟨false, freshSession uid sid start, st0, false⟩ (tickCalls l)).st.trace
            = accountUpdates st0.trace
          ∧ (run ⟨false, freshSession uid sid start, st0, false⟩
              (tickCalls l)).st.working.accounts = st0.working.accounts) := by
  have hP : Prepaid start (freshSession uid sid start) :=
    ⟨rfl, rfl, by simp [freshSession], le_refl _, le_refl _, le_refl _⟩
  obtain ⟨k1, k2⟩ := run_prepaid l start start ⟨false, freshSession uid sid start, st0, false⟩
    st0 rfl hP h0 (le_refl _) (fun _ => ⟨rfl, rfl⟩) hs hb
  exact ⟨k1.2.2.2.2.1, k1.2.2.1, k2⟩

theorem minimum_charge_prepays_second_minute_witness :
    freshSession 666001 1 0 = demoSession
      ∧ 1 ≤ (run ⟨false, freshSession 666001 1 0, demoBegun, false⟩
          (tickCalls [(30, TickFaults.none), (60, TickFaults.none),
            (119, TickFaults.none)])).s.lastCharge
      ∧ (run ⟨false, freshSession 666001 1 0, demoBegun, false⟩
          (tickCalls [(30, TickFaults.none), (60, TickFaults.none),
            (119, TickFaults.none)])).s.seconds = 119
      ∧ (run ⟨false, freshSession 666001 1 0, demoBegun, false⟩
          (tickCalls [(30, TickFaults.none), (60, TickFaults.none),
            (119, TickFaults.none)])).st.trace
        = demoBegun.trace ++ [Stmt.update2 1 1, Stmt.commit, Stmt.begin] :=
  ⟨by decide,
   (minimum_charge_prepays_second_minute 666001 1 0 demoBegun
      [(30, TickFaults.none), (60, TickFaults.none), (119, TickFaults.none)]
      (by decide) (by decide) (by decide)).1,
   by decide, by decide⟩

end Billing

namespace Db

/-! ## The transactional store: lemmas -/

theorem filter_ne_eq_nil (l : List Nat) (id : Nat) (h : ∀ x ∈ l, x = id) :
    l.filter (fun x => x != id) = [] := by
  rw [List.filter_eq_nil_iff]
  intro x hx
  simp [h x hx]

theorem Commit_success (st : Store) (e1 e2 : Option String)
    (h : (Commit st e1 e2).2 = .val none) :
    ∃ id, st.tx = some id ∧ id ∈ st.backend.liveTxs ∧ st.conn.isSome = true
      ∧ e1 = none ∧ e2 = none
      ∧ (Commit st e1 e2).1
        = { st with
            tx := some st.backend.nextId,
            backend := { st.backend with
              nextId := st.backend.nextId + 1,
              liveTxs := st.backend.liveTxs.filter (fun x => x != id) ++ [st.backend.nextId],
              committed := st.backend.committed ++ [id] } } := by
  cases htx : st.tx with
  | none => simp [Commit, htx] at h
  | some id =>
    refine ⟨id, rfl, ?_⟩
    by_cases hl : id ∈ st.backend.liveTxs
    · cases e1 with
      | some e => simp [Commit, htx, txCommit, hl] at h
      | none =>
        cases hc : st.conn with
        | none => simp [Commit, htx, txCommit, hl, startTransaction, hc] at h
        | some c =>
          cases e2 with
          | some e => simp [Commit, htx, txCommit, hl, startTransaction, hc] at h
          | none =>
            simp [Commit, htx, txCommit, hl, startTransaction, hc, Backend.finish]
    · simp [Commit, htx, txCommit, hl, errTxDone] at h

theorem Rollback_success (st : Store) (e1 e2 : Option String)
    (h : (Rollback st e1 e2).2 = .val none) :
    ∃ id, st.tx = some id ∧ id ∈ st.backend.liveTxs ∧ st.conn.isSome = true
      ∧ e1 = none ∧ e2 = none
      ∧ (Rollback st e1 e2).1
        = { st with
            tx := some st.backend.nextId,
            backend := { st.backend with
              nextId := st.backend.nextId + 1,
              liveTxs := st.backend.liveTxs.filter (fun x => x != id) ++ [st.backend.nextId],
              rolledBack := st.backend.rolledBack ++ [id] } } := by
  cases htx : st.tx with
  | none => simp [Rollback, htx] at h
  | some id =>
    refine ⟨id, rfl, ?_⟩
    by_cases hl : id ∈ st.backend.liveTxs
    · cases e1 with
      | some e => simp [Rollback, htx, txRollback, hl] at h
      | none =>
        cases hc : st.conn with
        | none => simp [Rollback, htx, txRollback, hl, startTransaction, hc] at h
        | some c =>
          cases e2 with
          | some e => simp [Rollback, htx, txRollback, hl, startTransaction, hc] at h
          | none =>
            simp [Rollback, htx, txRollback, hl, startTransaction, hc, Backend.finish]
    · simp [Rollback, htx, txRollback, hl, errTxDone] at h

theorem Connect_success (st : Store) (dbpath : Option String) (ro : Bool)
    (e1 e2 e3 : Option String) (h : (Connect st dbpath ro e1 e2 e3).2 = .val none) :
    st.db = none ∧ dbpath.isSome = true ∧ e1 = none ∧ e2 = none ∧ e3 = none
      ∧ (Connect st dbpath ro e1 e2 e3).1
        = { db := some st.backend.nextId, conn := some (st.backend.nextId + 1),
            tx := some (st.backend.nextId + 2),
            backend := { st.backend with
              nextId := st.backend.nextId + 3,
              openDbs := st.backend.openDbs ++ [st.backend.nextId],
              queryOnly := if ro then st.backend.queryOnly ++ [st.backend.nextId]
                           else st.backend.queryOnly,
              openConns := st.backend.openConns ++ [st.backend.nextId + 1],
              liveTxs := st.backend.liveTxs ++ [st.backend.nextId + 2] } } := by
  cases hdb : st.db with
  | some d => simp [Connect, hdb] at h
  | none =>
    cases dbpath with
    | none => simp [Connect, hdb] at h
    | some p =>
      cases e1 with
      | some e => simp [Connect, hdb] at h
      | none =>
        cases e2 with
        | some e => simp [Connect, hdb] at h
        | none =>
          cases e3 with
          | some e => simp [Connect, hdb, startTransaction] at h
          | none => simp [Connect, hdb, startTransaction]

theorem Commit_cycle (st : Store) (hw : Wf st) (ho : OneOpen st) :
    (Commit st none none).2 = .val none ∧ Wf (Commit st none none).1
      ∧ OneOpen (Commit st none none).1 := by
  obtain ⟨h1, h2, h3⟩ := ho
  cases htx : st.tx with
  | none => simp [htx] at h1
  | some id =>
    cases hc : st.conn with
    | none => simp [hc] at h3
    | some c =>
      have hl : st.backend.liveTxs = [id] := by rw [h2, htx]; rfl
      have hm : id ∈ st.backend.liveTxs := by rw [hl]; exact List.mem_singleton_self _
      have hlt : id < st.backend.nextId := hw.2.2 id (by rw [htx]; simp)
      have hdb : st.db ≠ none := fun h => by
        have := hw.2.1 h
        rw [htx] at this
        cases this
      have hres : Commit st none none
          = ({ st with
                tx := some st.backend.nextId,
                backend := { st.backend with
                  nextId := st.backend.nextId + 1,
                  liveTxs := [st.backend.nextId],
                  committed := st.backend.committed ++ [id] } }, .val none) := by
        simp [Commit, htx, txCommit, hm, startTransaction, hc, Backend.finish, hl]
      rw [hres]
      refine ⟨rfl, ⟨?_, ?_, ?_⟩, ⟨rfl, rfl, ?_⟩⟩
      · intro x hx
        simp at hx
        simp [hx]
      · intro h
        exact absurd h hdb
      · intro x hx
        simp at hx
        simp [hx]
      · simp [hc]

theorem Exec_open (st : Store) (ho : OneOpen st) (q : String) (args : List String) :
    (Exec st q args none).2 = .val none
      ∧ ∃ id, st.tx = some id ∧ id ∈ st.backend.liveTxs
        ∧ (Exec st q args none).1.backend.ran = st.backend.ran ++ [(id, q, args)] := by
  obtain ⟨h1, h2, _⟩ := ho
  cases htx : st.tx with
  | none => simp [htx] at h1
  | some id =>
    have hl : st.backend.liveTxs = [id] := by rw [h2, htx]; rfl
    have hm : id ∈ st.backend.liveTxs := by rw [hl]; exact List.mem_singleton_self _
    simp [Exec, htx, txRun, hm]

theorem commitCycles_inv (n : Nat) (st : Store) (hw : Wf st) (ho : OneOpen st) :
    Wf (commitCycles n st) ∧ OneOpen (commitCycles n st) := by
  induction n generalizing st with
  | zero => exact ⟨hw, ho⟩
  | succ n ih =>
    obtain ⟨_, h2, h3⟩ := Commit_cycle st hw ho
    exact ih _ h2 h3

/-! ## C16 -/

/-- C16: on a store satisfying the package invariant, a `Connect`, a `Commit`
or a `Rollback` that returns nil leaves exactly one live transaction, held by
the store and issued by that call; after `Commit` or `Rollback` the previous
transaction is finished (committed, respectively rolled back) and is not the
new one.  Hence, from a store with one open transaction, each of any number of
consecutive `Commit` calls whose backend steps succeed returns nil, and after
each an `Exec` runs its query in the live transaction of the store. -/
theorem one_fresh_transaction_after_restart :
    (∀ st dbpath ro e1 e2 e3, Wf st →
        (Connect st dbpath ro e1 e2 e3).2 = .val none →
        OneOpen (Connect st dbpath ro e1 e2 e3).1 ∧ Wf (Connect st dbpath ro e1 e2 e3).1
          ∧ (Connect st dbpath ro e1 e2 e3).1.tx = some (st.backend.nextId + 2)
          ∧ (Connect st dbpath ro e1 e2 e3).1.backend.liveTxs = [st.backend.nextId + 2])
      ∧ (∀ st e1 e2, Wf st → (Commit st e1 e2).2 = .val none →
          ∃ old, st.tx = some old
            ∧ (Commit st e1 e2).1.tx = some st.backend.nextId
            ∧ old ≠ st.backend.nextId
            ∧ (Commit st e1 e2).1.backend.liveTxs = [st.backend.nextId]
            ∧ old ∈ (Commit st e1 e2).1.backend.committed
            ∧ OneOpen (Commit st e1 e2).1 ∧ Wf (Commit st e1 e2).1)
      ∧ (∀ st e1 e2, Wf st → (Rollback st e1 e2).2 = .val none →
          ∃ old, st.tx = some old
            ∧ (Rollback st e1 e2).1.tx = some st.backend.nextId
            ∧ old ≠ st.backend.nextId
            ∧ (Rollback st e1 e2).1.backend.liveTxs = [st.backend.nextId]
            ∧ old ∈ (Rollback st e1 e2).1.backend.rolledBack
            ∧ OneOpen (Rollback st e1 e2).1 ∧ Wf (Rollback st e1 e2).1)
      ∧ (∀ n st, Wf st → OneOpen st →
          (Commit (commitCycles n st) none none).2 = .val none
            ∧ OneOpen (Commit (commitCycles n st) none none).1
            ∧ ∀ q args,
                (Exec (Commit (commitCycles n st) none none).1 q args none).2 = .val none
                  ∧ ∃ id, (Commit (commitCycles n st) none none).1.tx = some id
                    ∧ id ∈ (Commit (commitCycles n st) none none).1.backend.liveTxs
                    ∧ (Exec (Commit (commitCycles n st) none none).1 q args none).1.backend.ran
                      = (Commit (commitCycles n st) none none).1.backend.ran
                        ++ [(id, q, args)]) := by
  refine ⟨?_, ?_, ?_, ?_⟩
  · intro st dbpath ro e1 e2 e3 hw h
    obtain ⟨hdb, _, _, _, _, hres⟩ := Connect_success st dbpath ro e1 e2 e3 h
    have htx : st.tx = none := hw.2.1 hdb
    have hl : st.backend.liveTxs = [] := by
      apply List.eq_nil_iff_forall_not_mem.mpr
      intro x hx
      have := hw.1 x hx
      rw [htx] at this
      cases this
    rw [hres]
    refine ⟨⟨rfl, by simp [hl], rfl⟩, ⟨?_, ?_, ?_⟩, rfl, by simp [hl]⟩
    · intro x hx
      simp [hl] at hx
      simp [hx]
    · intro h2
      cases h2
    · intro x hx
      simp at hx
      simp [hx]
  · intro st e1 e2 hw h
    obtain ⟨id, htx, hm, hc, _, _, hres⟩ := Commit_success st e1 e2 h
    have hf : st.backend.liveTxs.filter (fun x => x != id) = [] :=
      filter_ne_eq_nil _ _ (fun x hx => by
        have := hw.1 x hx
        rw [htx] at this
        exact (Option.some.inj this).symm ▸ rfl)
    have hlt : id < st.backend.nextId := hw.2.2 id (by rw [htx]; simp)
    have hdb : st.db ≠ none := fun h => by
      have := hw.2.1 h
      rw [htx] at this
      cases this
    rw [hres, hf]
    refine ⟨id, htx, rfl, by omega, rfl, by simp, ⟨rfl, rfl, hc⟩, ⟨?_, ?_, ?_⟩⟩
    · intro x hx
      simp at hx
      simp [hx]
    · intro h2
      exact absurd h2 hdb
    · intro x hx
      simp at hx
      simp [hx]
  · intro st e1 e2 hw h
    obtain ⟨id, htx, hm, hc, _, _, hres⟩ := Rollback_success st e1 e2 h
    have hf : st.backend.liveTxs.filter (fun x => x != id) = [] :=
      filter_ne_eq_nil _ _ (fun x hx => by
        have := hw.1 x hx
        rw [htx] at this
        exact (Option.some.inj this).symm ▸ rfl)
    have hlt : id < st.backend.nextId := hw.2.2 id (by rw [htx]; simp)
    have hdb : st.db ≠ none := fun h => by
      have := hw.2.1 h
      rw [htx] at this
      cases this
    rw [hres, hf]
    refine ⟨id, htx, rfl, by omega, rfl, by simp, ⟨rfl, rfl, hc⟩, ⟨?_, ?_, ?_⟩⟩
    · intro x hx
      simp at hx
      simp [hx]
    · intro h2
      exact absurd h2 hdb
    · intro x hx
      simp at hx
      simp [hx]
  · intro n st hw ho
    obtain ⟨hw2, ho2⟩ := commitCycles_inv n st hw ho
    obtain ⟨h1, _, h3⟩ := Commit_cycle _ hw2 ho2
    exact ⟨h1, h3, fun q args => Exec_open _ h3 q args⟩

/-- C16 at a freshly connected store: the first `Connect` leaves one open
transaction, and the fifth of five consecutive commits returns nil and is
followed by a store in which `Exec` succeeds. -/
theorem one_fresh_transaction_after_restart_witness :
    OneOpen demoConnected
      ∧ (Commit (commitCycles 4 demoConnected) none none).2 = .val none
      ∧ (Exec (Commit (commitCycles 4 demoConnected) none none).1 "SELECT 1" [] none).2
        = .val none :=
  ⟨(one_fresh_transaction_after_restart.1 Store.initial (some "/tmp/db") false none none none
      (by decide) (by decide)).1,
   (one_fresh_transaction_after_restart.2.2.2 4 demoConnected (by decide) (by decide)).1,
   ((one_fresh_transaction_after_restart.2.2.2 4 demoConnected (by decide) (by decide)).2.2
      "SELECT 1" []).1⟩

/-! ## C17 -/

/-- C17: `Connect` on a store that holds a database handle returns the error
"already open" whatever the environment and the backend would answer, and
leaves the handles and the backend exactly as they were. -/
theorem connect_when_connected (st : Store) (dbpath : Option String) (ro : Bool)
    (e1 e2 e3 : Option String) (h : st.db.isSome = true) :
    Connect st dbpath ro e1 e2 e3 = (st, .val (some "already open")) := by
  simp [Connect, h]

/-- C17 at a connected store: the second `Connect` is refused and nothing
changes. -/
theorem connect_when_connected_witness :
    Connect demoConnected (some "/tmp/db") false none none none
      = (demoConnected, .val (some "already open")) :=
  connect_when_connected demoConnected (some "/tmp/db") false none none none (by decide)

/-! ## C18 -/

/-- C18 is false as stated: on a store that never connected, after a
`Disconnect`, after an `Exit`, and after a `Commit` whose restart failed,
`Exec` and `QueryRow` panic on the nil transaction handle instead of returning
an error. -/
theorem exec_panics_without_transaction :
    Exec Store.initial "SELECT 1" [] none = (Store.initial, .panicked)
      ∧ QueryRow Store.initial "SELECT 1" [] none = (Store.initial, .panicked)
      ∧ (Disconnect demoConnected none none none).2 = .val none
      ∧ (Exec (Disconnect demoConnected none none none).1 "SELECT 1" [] none).2 = .panicked
      ∧ (Exec (Exit demoConnected none none).1 "SELECT 1" [] none).2 = .panicked
      ∧ (Commit demoConnected none (some "busy")).2 = .val (some "busy")
      ∧ (Exec (Commit demoConnected none (some "busy")).1 "SELECT 1" [] none).2 = .panicked
      ∧ (QueryRow (Commit demoConnected none (some "busy")).1 "SELECT 1" [] none).2
        = .panicked := by
  decide

/-- C18 as amended: `Exec` and `QueryRow` hand the query to the transaction
handle of the store without a check of their own.  With no handle (as on a
store that never connected, after `Exit`, after a `Disconnect` that returned
nil, after a `Commit` or `Rollback` whose restart failed) they return no error:
the call panics and the query is not run.  With a finished handle the backend
refuses the query with its transaction-done error.  Whenever a query is run, it
is run in the live transaction the store holds. -/
theorem exec_without_transaction :
    (∀ st q args e, st.tx = none →
        Exec st q args e = (st, .panicked) ∧ QueryRow st q args e = (st, .panicked))
      ∧ (∀ st id q args e, st.tx = some id → id ∉ st.backend.liveTxs →
          Exec st q args e = (st, .val (some errTxDone))
            ∧ QueryRow st q args e = (st, .val (some errTxDone)))
      ∧ (∀ st q args e,
          ((Exec st q args e).1.backend.ran = st.backend.ran
              ∨ ∃ id, st.tx = some id ∧ id ∈ st.backend.liveTxs
                  ∧ (Exec st q args e).1.backend.ran = st.backend.ran ++ [(id, q, args)])
            ∧ ((QueryRow st q args e).1.backend.ran = st.backend.ran
              ∨ ∃ id, st.tx = some id ∧ id ∈ st.backend.liveTxs
                  ∧ (QueryRow st q args e).1.backend.ran
                    = st.backend.ran ++ [(id, q, args)]))
      ∧ Store.initial.tx = none
      ∧ (∀ st e1 e2, (Exit st e1 e2).1.tx = none)
      ∧ (∀ st e1 e2 e3, Wf st → (Disconnect st e1 e2 e3).2 = .val none →
          (Disconnect st e1 e2 e3).1.tx = none)
      ∧ (∀ st id e, st.tx = some id → id ∈ st.backend.liveTxs → st.conn.isSome = true →
          (Commit st none (some e)).2 = .val (some e) ∧ (Commit st none (some e)).1.tx = none
            ∧ (Rollback st none (some e)).2 = .val (some e)
            ∧ (Rollback st none (some e)).1.tx = none) := by
  refine ⟨?_, ?_, ?_, rfl, ?_, ?_, ?_⟩
  · intro st q args e h
    simp [Exec, QueryRow, h]
  · intro st id q args e h hl
    rcases st with ⟨sdb, sconn, stx, sb⟩
    simp only at h hl
    subst h
    simp [Exec, QueryRow, txRun, hl]
  · intro st q args e
    cases htx : st.tx with
    | none => simp [Exec, QueryRow, htx]
    | some id =>
      by_cases hl : id ∈ st.backend.liveTxs
      · cases e with
        | none => simp [Exec, QueryRow, htx, txRun, hl]
        | some x => simp [Exec, QueryRow, htx, txRun, hl]
      · simp [Exec, QueryRow, htx, txRun, hl]
  · intro st e1 e2
    cases htx : st.tx <;> cases hdb : st.db <;> cases e2 <;> simp [Exit, htx, hdb]
  · intro st e1 e2 e3 hw h
    cases hdb : st.db with
    | none =>
      simp [Disconnect, hdb]
      exact hw.2.1 hdb
    | some d =>
      cases htx : st.tx with
      | none => simp [Disconnect, hdb, htx] at h
      | some id =>
        by_cases hl : id ∈ st.backend.liveTxs
        · cases e1 with
          | some x => simp [Disconnect, hdb, htx, txCommit, hl] at h
          | none =>
            cases hc : st.conn with
            | none => simp [Disconnect, hdb, htx, txCommit, hl, hc] at h
            | some c =>
              cases e2 with
              | some x => simp [Disconnect, hdb, htx, txCommit, hl, hc] at h
              | none =>
                cases e3 with
                | some x => simp [Disconnect, hdb, htx, txCommit, hl, hc] at h
                | none => simp [Disconnect, hdb, htx, txCommit, hl, hc]
        · simp [Disconnect, hdb, htx, txCommit, hl, errTxDone] at h
  · intro st id e htx hl hc
    cases hcc : st.conn with
    | none => simp [hcc] at hc
    | some c =>
      simp [Commit, Rollback, htx, txCommit, txRollback, hl, startTransaction, hcc]

/-- C18 as amended, at the store left by a `Commit` whose restart failed: no
transaction handle is held and `Exec` panics without running the query. -/
theorem exec_without_transaction_witness :
    Exec (Commit demoConnected none (some "busy")).1 "SELECT 1" [] none
      = ((Commit demoConnected none (some "busy")).1, .panicked) :=
  (exec_without_transaction.1 (Commit demoConnected none (some "busy")).1 "SELECT 1" [] none
    (by decide)).1

/-! ## C19 -/

/-- C19: when the store holds a live transaction and the backend commit fails,
`Commit` returns the backend's error, issues no new handle and starts no
transaction, and the store keeps the three handles it had; the transaction
handle it keeps is finished, so that `Exec` and a further `Commit` on it
report the transaction-done error.  `Rollback` does the same when the backend
rollback fails. -/
theorem failed_commit_keeps_dead_handle :
    (∀ st id e b, st.tx = some id → id ∈ st.backend.liveTxs →
        Commit st (some e) b = ({ st with backend := st.backend.finish id }, .val (some e))
          ∧ (Commit st (some e) b).1.tx = some id
          ∧ (Commit st (some e) b).1.backend.nextId = st.backend.nextId
          ∧ id ∉ (Commit st (some e) b).1.backend.liveTxs
          ∧ (∀ q args e2, (Exec (Commit st (some e) b).1 q args e2).2
              = .val (some errTxDone))
          ∧ (∀ c d, (Commit (Commit st (some e) b).1 c d).2 = .val (some errTxDone)))
      ∧ (∀ st id e b, st.tx = some id → id ∈ st.backend.liveTxs →
          Rollback st (some e) b = ({ st with backend := st.backend.finish id }, .val (some e))
            ∧ (Rollback st (some e) b).1.tx = some id
            ∧ (Rollback st (some e) b).1.backend.nextId = st.backend.nextId
            ∧ id ∉ (Rollback st (some e) b).1.backend.liveTxs
            ∧ (∀ q args e2, (Exec (Rollback st (some e) b).1 q args e2).2
                = .val (some errTxDone))
            ∧ (∀ c d, (Rollback (Rollback st (some e) b).1 c d).2
                = .val (some errTxDone))) := by
  have hnot : ∀ (b : Backend) (id : Nat), id ∉ (b.finish id).liveTxs := by
    intro b id h
    simp [Backend.finish] at h
  refine ⟨?_, ?_⟩
  · intro st id e b htx hl
    have hres : Commit st (some e) b
        = ({ st with backend := st.backend.finish id }, .val (some e)) := by
      simp [Commit, htx, txCommit, hl]
    rw [hres]
    refine ⟨rfl, htx, rfl, hnot _ _, ?_, ?_⟩
    · intro q args e2
      simp [Exec, htx, txRun, hnot]
    · intro c d
      simp [Commit, htx, txCommit, hnot]
  · intro st id e b htx hl
    have hres : Rollback st (some e) b
        = ({ st with backend := st.backend.finish id }, .val (some e)) := by
      simp [Rollback, htx, txRollback, hl]
    rw [hres]
    refine ⟨rfl, htx, rfl, hnot _ _, ?_, ?_⟩
    · intro q args e2
      simp [Exec, htx, txRun, hnot]
    · intro c d
      simp [Rollback, htx, txRollback, hnot]

/-- C19 at a connected store whose backend commit fails with "disk full": the
error is returned, the handle 2 is kept and is finished. -/
theorem failed_commit_keeps_dead_handle_witness :
    (Commit demoConnected (some "disk full") none).2 = .val (some "disk full")
      ∧ (Commit demoConnected (some "disk full") none).1.tx = some 2
      ∧ 2 ∉ (Commit demoConnected (some "disk full") none).1.backend.liveTxs :=
  have h := failed_commit_keeps_dead_handle.1 demoConnected 2 "disk full" none
    (by decide) (by decide)
  ⟨congrArg Prod.snd h.1, h.2.1, h.2.2.2.1⟩

/-! ## C20 -/

/-- C20: `Disconnect` on a store without a database handle returns nil and
changes nothing.  On a store holding a database handle, a connection and a live
transaction, with the commit and both close steps succeeding, it returns nil,
the transaction is committed, the connection and the database are closed, and
the store holds no handle; a `Connect` that follows (with `DBPATH` set and the
backend answering) is accepted and returns nil. -/
theorem disconnect_commits_and_clears :
    (∀ st e1 e2 e3, st.db = none → Disconnect st e1 e2 e3 = (st, .val none))
      ∧ (∀ st d c id, st.db = some d → st.conn = some c → st.tx = some id →
          id ∈ st.backend.liveTxs →
          (Disconnect st none none none).2 = .val none
            ∧ (Disconnect st none none none).1.db = none
            ∧ (Disconnect st none none none).1.conn = none
            ∧ (Disconnect st none none none).1.tx = none
            ∧ id ∈ (Disconnect st none none none).1.backend.committed
            ∧ id ∉ (Disconnect st none none none).1.backend.liveTxs
            ∧ c ∉ (Disconnect st none none none).1.backend.openConns
            ∧ d ∉ (Disconnect st none none none).1.backend.openDbs
            ∧ ∀ p ro, (Connect (Disconnect st none none none).1 (some p) ro
                none none none).2 = .val none) := by
  refine ⟨?_, ?_⟩
  · intro st e1 e2 e3 h
    simp [Disconnect, h]
  · intro st d c id hdb hc htx hl
    have hres : Disconnect st none none none
        = ({ db := none, conn := none, tx := none,
             backend := { st.backend with
               liveTxs := st.backend.liveTxs.filter (fun x => x != id),
               committed := st.backend.committed ++ [id],
               openConns := st.backend.openConns.filter (fun x => x != c),
               openDbs := st.backend.openDbs.filter (fun x => x != d) } }, .val none) := by
      simp [Disconnect, hdb, hc, htx, txCommit, hl, Backend.finish]
    rw [hres]
    refine ⟨rfl, rfl, rfl, rfl, by simp, by simp, by simp, by simp, ?_⟩
    intro p ro
    simp [Connect, startTransaction]

/-- C20 at a connected store: after `Disconnect` no handle is held, and a new
`Connect` is accepted. -/
theorem disconnect_commits_and_clears_witness :
    (Disconnect demoConnected none none none).2 = .val none
      ∧ (Disconnect demoConnected none none none).1.db = none
      ∧ (Connect (Disconnect demoConnected none none none).1 (some "/tmp/db") false
          none none none).2 = .val none :=
  have h := disconnect_commits_and_clears.2 demoConnected 0 1 2 (by decide) (by decide)
    (by decide) (by decide)
  ⟨h.1, h.2.1, h.2.2.2.2.2.2.2.2 "/tmp/db" false⟩

/-! ## The package invariant holds in every reachable state -/

theorem Wf_initial : Wf Store.initial := by decide

theorem Wf_live_nil (st : Store) (hw : Wf st) (h : st.tx = none) : st.backend.liveTxs = [] := by
  apply List.eq_nil_iff_forall_not_mem.mpr
  intro x hx
  have := hw.1 x hx
  rw [h] at this
  cases this

theorem Wf_filter_nil (st : Store) (hw : Wf st) (k : Nat) (h : st.tx = some k) :
    st.backend.liveTxs.filter (fun x => x != k) = [] :=
  filter_ne_eq_nil _ _ (fun x hx => by
    have := hw.1 x hx
    rw [h] at this
    exact (Option.some.inj this).symm ▸ rfl)

theorem Wf_db (st : Store) (hw : Wf st) (k : Nat) (h : st.tx = some k) : st.db ≠ none := by
  intro hdb
  have := hw.2.1 hdb
  rw [h] at this
  cases this

theorem Wf_Connect (st : Store) (dbpath : Option String) (ro : Bool)
    (e1 e2 e3 : Option String) (hw : Wf st) : Wf (Connect st dbpath ro e1 e2 e3).1 := by
  cases hdb : st.db with
  | some d =>
    have : Connect st dbpath ro e1 e2 e3 = (st, .val (some "already open")) := by
      simp [Connect, hdb]
    rw [this]
    exact hw
  | none =>
    have htx : st.tx = none := hw.2.1 hdb
    have hl := Wf_live_nil st hw htx
    cases dbpath with
    | none =>
      have : Connect st none ro e1 e2 e3 = (st, .val (some "DBPATH not set")) := by
        simp [Connect, hdb]
      rw [this]
      exact hw
    | some p =>
      cases e1 with
      | some e => simp [Connect, hdb, Wf, hl, htx]
      | none =>
        cases e2 with
        | some e => simp [Connect, hdb, Wf, hl, htx]
        | none =>
          cases e3 with
          | some e => simp [Connect, hdb, Wf, hl, htx, startTransaction]
          | none => simp [Connect, hdb, Wf, hl, htx, startTransaction]

theorem Wf_Commit (st : Store) (e1 e2 : Option String) (hw : Wf st) :
    Wf (Commit st e1 e2).1 := by
  cases htx : st.tx with
  | none =>
    have : Commit st e1 e2 = (st, .panicked) := by simp [Commit, htx]
    rw [this]
    exact hw
  | some k =>
    have hf := Wf_filter_nil st hw k htx
    have hdb := Wf_db st hw k htx
    have hlt : k < st.backend.nextId := hw.2.2 k (by rw [htx]; simp)
    by_cases hl : k ∈ st.backend.liveTxs
    · cases e1 with
      | some e => simp [Commit, htx, txCommit, hl, Wf, Backend.finish, hf, hlt, hdb]
      | none =>
        cases hc : st.conn with
        | none => simp [Commit, htx, txCommit, hl, Wf, Backend.finish, hf, startTransaction, hc]
        | some c =>
          cases e2 with
          | some e =>
            simp [Commit, htx, txCommit, hl, Wf, Backend.finish, hf, startTransaction, hc]
          | none =>
            simp [Commit, htx, txCommit, hl, Wf, Backend.finish, hf, startTransaction, hc, hdb]
    · have : Commit st e1 e2 = (st, .val (some errTxDone)) := by
        rcases st with ⟨sdb, sconn, stx, sb⟩
        simp only at htx hl
        subst htx
        simp [Commit, txCommit, hl]
      rw [this]
      exact hw

theorem Wf_Rollback (st : Store) (e1 e2 : Option String) (hw : Wf st) :
    Wf (Rollback st e1 e2).1 := by
  cases htx : st.tx with
  | none =>
    have : Rollback st e1 e2 = (st, .panicked) := by simp [Rollback, htx]
    rw [this]
    exact hw
  | some k =>
    have hf := Wf_filter_nil st hw k htx
    have hdb := Wf_db st hw k htx
    have hlt : k < st.backend.nextId := hw.2.2 k (by rw [htx]; simp)
    by_cases hl : k ∈ st.backend.liveTxs
    · cases e1 with
      | some e => simp [Rollback, htx, txRollback, hl, Wf, Backend.finish, hf, hlt, hdb]
      | none =>
        cases hc : st.conn with
        | none =>
          simp [Rollback, htx, txRollback, hl, Wf, Backend.finish, hf, startTransaction, hc]
        | some c =>
          cases e2 with
          | some e =>
            simp [Rollback, htx, txRollback, hl, Wf, Backend.finish, hf, startTransaction, hc]
          | none =>
            simp [Rollback, htx, txRollback, hl, Wf, Backend.finish, hf, startTransaction, hc,
              hdb]
    · have : Rollback st e1 e2 = (st, .val (some errTxDone)) := by
        rcases st with ⟨sdb, sconn, stx, sb⟩
        simp only at htx hl
        subst htx
        simp [Rollback, txRollback, hl]
      rw [this]
      exact hw

theorem Wf_congr (st st2 : Store) (hw : Wf st) (h1 : st2.tx = st.tx) (h2 : st2.db = st.db)
    (h3 : st2.backend.liveTxs = st.backend.liveTxs)
    (h4 : st2.backend.nextId = st.backend.nextId) : Wf st2 := by
  unfold Wf
  rw [h1, h2, h3, h4]
  exact hw

theorem Exec_frame (st : Store) (q : String) (args : List String) (e : Option String) :
    (Exec st q args e).1.tx = st.tx ∧ (Exec st q args e).1.db = st.db
      ∧ (Exec st q args e).1.conn = st.conn
      ∧ (Exec st q args e).1.backend.liveTxs = st.backend.liveTxs
      ∧ (Exec st q args e).1.backend.nextId = st.backend.nextId := by
  cases htx : st.tx with
  | none => simp [Exec, htx]
  | some k =>
    by_cases hl : k ∈ st.backend.liveTxs
    · cases e <;> simp [Exec, htx, txRun, hl]
    · simp [Exec, htx, txRun, hl]

theorem QueryRow_eq_Exec (st : Store) (q : String) (args : List String) (e : Option String) :
    QueryRow st q args e = Exec st q args e := rfl

theorem Wf_Exec (st : Store) (q : String) (args : List String) (e : Option String)
    (hw : Wf st) : Wf (Exec st q args e).1 ∧ Wf (QueryRow st q args e).1 := by
  obtain ⟨h1, h2, _, h3, h4⟩ := Exec_frame st q args e
  rw [QueryRow_eq_Exec]
  exact ⟨Wf_congr st _ hw h1 h2 h3 h4, Wf_congr st _ hw h1 h2 h3 h4⟩

theorem Wf_Exit (st : Store) (e1 e2 : Option String) (hw : Wf st) : Wf (Exit st e1 e2).1 := by
  cases htx : st.tx with
  | none =>
    have hl := Wf_live_nil st hw htx
    cases hdb : st.db <;> cases e2 <;> simp [Exit, htx, hdb, Wf, hl]
  | some k =>
    have hf := Wf_filter_nil st hw k htx
    have hl2 : k ∉ st.backend.liveTxs → st.backend.liveTxs = [] := by
      intro hk
      apply List.eq_nil_iff_forall_not_mem.mpr
      intro x hx
      have := hw.1 x hx
      rw [htx] at this
      cases this
      exact hk hx
    by_cases hl : k ∈ st.backend.liveTxs
    · cases hdb : st.db <;> cases e1 <;> cases e2 <;>
        simp [Exit, htx, hdb, Wf, txRollback, hl, Backend.finish, hf]
    · cases hdb : st.db <;> cases e1 <;> cases e2 <;>
        simp [Exit, htx, hdb, Wf, txRollback, hl, hl2 hl]

theorem Wf_Disconnect (st : Store) (e1 e2 e3 : Option String) (hw : Wf st) :
    Wf (Disconnect st e1 e2 e3).1 := by
  cases hdb : st.db with
  | none =>
    have : Disconnect st e1 e2 e3 = (st, .val none) := by simp [Disconnect, hdb]
    rw [this]
    exact hw
  | some d =>
    cases htx : st.tx with
    | none =>
      have : Disconnect st e1 e2 e3 = (st, .panicked) := by simp [Disconnect, hdb, htx]
      rw [this]
      exact hw
    | some k =>
      have hf := Wf_filter_nil st hw k htx
      have hlt : k < st.backend.nextId := hw.2.2 k (by rw [htx]; simp)
      by_cases hl : k ∈ st.backend.liveTxs
      · cases e1 with
        | some e => simp [Disconnect, hdb, htx, txCommit, hl, Wf, Backend.finish, hf, hlt]
        | none =>
          cases hc : st.conn with
          | none => simp [Disconnect, hdb, htx, txCommit, hl, Wf, Backend.finish, hf, hc]
          | some c =>
            cases e2 with
            | some e => simp [Disconnect, hdb, htx, txCommit, hl, Wf, Backend.finish, hf, hc]
            | none =>
              cases e3 with
              | some e => simp [Disconnect, hdb, htx, txCommit, hl, Wf, Backend.finish, hf, hc]
              | none => simp [Disconnect, hdb, htx, txCommit, hl, Wf, Backend.finish, hf, hc]
      · have : Disconnect st e1 e2 e3 = (st, .val (some errTxDone)) := by
          rcases st with ⟨sdb, sconn, stx, sb⟩
          simp only at htx hl hdb
          subst htx hdb
          simp [Disconnect, txCommit, hl]
        rw [this]
        exact hw

/-! ## C21 -/

/-- C21: from every store, whatever the rollback and the close answer, `Exit`
returns nil (it does not panic) and leaves the store without transaction,
connection and database handle; a second `Exit`, whatever the backend would
answer, returns nil and changes nothing, the backend included. -/
theorem exit_never_fails (st : Store) (r c r2 c2 : Option String) :
    (Exit st r c).2 = .val none
      ∧ (Exit st r c).1.tx = none ∧ (Exit st r c).1.conn = none ∧ (Exit st r c).1.db = none
      ∧ Exit (Exit st r c).1 r2 c2 = ((Exit st r c).1, .val none) := by
  have h1 : (Exit st r c).1.tx = none := by
    rcases st with ⟨d, cn, t, b⟩
    cases t <;> cases d <;> cases c <;> rfl
  have h2 : (Exit st r c).1.conn = none := rfl
  have h3 : (Exit st r c).1.db = none := rfl
  refine ⟨rfl, h1, h2, h3, ?_⟩
  generalize Exit st r c = p at h1 h2 h3
  rcases p with ⟨⟨d, cn, t, b⟩, v⟩
  simp only at h1 h2 h3
  subst h1 h2 h3
  rfl

/-! ## C22 -/

/-- C22: a `Connect` on the fresh store whose `db.Conn` fails returns that error
and keeps the database handle it had opened, and so does one whose first
transaction cannot be started; the next `Connect`, with every backend step
succeeding, is then rejected as already open, and `Disconnect` on the store
left by the first failure panics (it commits through the nil transaction). -/
theorem connect_failure_leaves_handle :
    (Connect Store.initial (some "/nonexistent") false none
        (some "unable to open database file") none).2
        = .val (some "unable to open database file")
      ∧ (Connect Store.initial (some "/nonexistent") false none
          (some "unable to open database file") none).1.db = some 0
      ∧ (Connect (Connect Store.initial (some "/nonexistent") false none
          (some "unable to open database file") none).1 (some "/var/db") false none none none).2
        = .val (some "already open")
      ∧ (Disconnect (Connect Store.initial (some "/nonexistent") false none
          (some "unable to open database file") none).1 none none none).2 = .panicked
      ∧ (Connect Store.initial (some "/var/db") false none none (some "database is locked")).2
        = .val (some "database is locked")
      ∧ (Connect Store.initial (some "/var/db") false none none (some "database is locked")).1.db
        = some 0
      ∧ (Connect (Connect Store.initial (some "/var/db") false none none
          (some "database is locked")).1 (some "/var/db") false none none none).2
        = .val (some "already open") := by
  decide

theorem IsCancelled_open (st : Store) (accounts : List Account) (scan : Bool) (uid id : Nat)
    (htx : st.tx = some id) (hl : id ∈ st.backend.liveTxs) :
    (IsCancelled st accounts none scan uid).2
      = match accounts.find? (fun a => a.uid == uid) with
        | none => .val 1
        | some a => if scan then .val (-1) else if a.status = "X" then .val 1 else .val 0 := by
  unfold IsCancelled
  simp only [htx, txRun, hl, if_true]
  cases accounts.find? (fun a => a.uid == uid) with
  | none => rfl
  | some a =>
    simp only
    cases scan
    · by_cases hx : a.status = "X" <;> simp [hx]
    · simp

/-! ## C25 -/

/-- C25: with a transaction handle in the store, `IsCancelled` returns 1 when
the query finds no row for the uid and when the row found has status "X", 0
when the row found has another status, and -1 when the query or the scan of
its row fails for another reason (a finished transaction included). -/
theorem isCancelled_result (st : Store) (accounts : List Account) (fail : Option String)
    (scan : Bool) (uid id : Nat) (htx : st.tx = some id) :
    (id ∈ st.backend.liveTxs → fail = none →
        accounts.find? (fun a => a.uid == uid) = none →
        (IsCancelled st accounts fail scan uid).2 = .val 1)
      ∧ (∀ a, id ∈ st.backend.liveTxs → fail = none → scan = false →
          accounts.find? (fun a => a.uid == uid) = some a → a.status = "X" →
          (IsCancelled st accounts fail scan uid).2 = .val 1)
      ∧ (∀ a, id ∈ st.backend.liveTxs → fail = none → scan = false →
          accounts.find? (fun a => a.uid == uid) = some a → a.status ≠ "X" →
          (IsCancelled st accounts fail scan uid).2 = .val 0)
      ∧ (fail ≠ none ∨ id ∉ st.backend.liveTxs →
          (IsCancelled st accounts fail scan uid).2 = .val (-1))
      ∧ (∀ a, accounts.find? (fun a => a.uid == uid) = some a → scan = true →
          (IsCancelled st accounts fail scan uid).2 = .val (-1)) := by
  refine ⟨?_, ?_, ?_, ?_, ?_⟩
  · intro hl hf hn
    subst hf
    rw [IsCancelled_open st accounts scan uid id htx hl, hn]
  · intro a hl hf hs hn hx
    subst hf
    rw [IsCancelled_open st accounts scan uid id htx hl, hn]
    simp [hs, hx]
  · intro a hl hf hs hn hx
    subst hf
    rw [IsCancelled_open st accounts scan uid id htx hl, hn]
    simp [hs, hx]
  · intro h
    unfold IsCancelled
    simp only [htx, txRun]
    by_cases hl : id ∈ st.backend.liveTxs
    · rcases h with h | h
      · cases fail with
        | none => exact absurd rfl h
        | some e => simp [hl]
      · exact absurd hl h
    · simp [hl]
  · intro a hn hs
    unfold IsCancelled
    simp only [htx, txRun]
    by_cases hl : id ∈ st.backend.liveTxs
    · cases fail with
      | none => simp [hl, hn, hs]
      | some e => simp [hl]
    · simp [hl]

theorem isCancelled_result_witness :
    (IsCancelled demoConnected demoAccounts none false 666003).2 = .val 1
      ∧ (IsCancelled demoConnected demoAccounts none false 666000).2 = .val 0
      ∧ (IsCancelled demoConnected demoAccounts none false 5).2 = .val 1
      ∧ (IsCancelled demoConnected demoAccounts (some "disk I/O error") false 666000).2
        = .val (-1) :=
  have h := isCancelled_result demoConnected demoAccounts none false 666003 2 (by decide)
  have h0 := isCancelled_result demoConnected demoAccounts none false 666000 2 (by decide)
  have h5 := isCancelled_result demoConnected demoAccounts none false 5 2 (by decide)
  have he := isCancelled_result demoConnected demoAccounts (some "disk I/O error") false
    666000 2 (by decide)
  ⟨h.2.1 demoCancelled (by decide) rfl rfl (by decide) (by decide),
   h0.2.2.1 demoActive (by decide) rfl rfl (by decide) (by decide),
   h5.1 (by decide) rfl (by decide),
   he.2.2.2.1 (Or.inl (by decide))⟩

end Db

namespace Auth

/-! ## White space -/

theorem mk_eq_empty (l : List Char) : String.mk l = "" ↔ l = [] := by
  constructor
  · intro h
    exact congrArg String.data h
  · intro h
    rw [h]

theorem dropWhile_head_not {α : Type} (p : α → Bool) (l : List α) (b : α) (rest : List α)
    (h : l.dropWhile p = b :: rest) : p b = false := by
  induction l with
  | nil => simp at h
  | cons x xs ih =>
    rw [List.dropWhile_cons] at h
    by_cases hx : p x = true
    · rw [if_pos hx] at h
      exact ih h
    · rw [if_neg hx] at h
      have hb : x = b := (List.cons.inj h).1
      rw [← hb]
      simpa using hx

theorem TrimSpace_eq_empty (s : String) : TrimSpace s = "" ↔ allSpace s := by
  unfold TrimSpace allSpace
  rw [mk_eq_empty, List.reverse_eq_nil_iff, List.dropWhile_eq_nil_iff]
  constructor
  · intro h
    have h1 : List.dropWhile isSpace (List.dropWhile isSpace s.toList) = [] := by
      rw [List.dropWhile_eq_nil_iff]
      intro x hx
      exact h x (List.mem_reverse.mpr hx)
    rw [List.dropWhile_idempotent, List.dropWhile_eq_nil_iff] at h1
    exact h1
  · intro h x hx
    have h1 : List.dropWhile isSpace s.toList = [] := List.dropWhile_eq_nil_iff.mpr h
    rw [h1] at hx
    simp at hx

theorem not_allSpace_ne_empty (s : String) (h : ¬ allSpace s) : s ≠ "" := by
  intro hs
  apply h
  rw [hs]
  intro c hc
  simp at hc

theorem TrimSpace_idem (s : String) : TrimSpace (TrimSpace s) = TrimSpace s := by
  unfold TrimSpace
  show String.mk (List.reverse (List.dropWhile isSpace (List.reverse (List.dropWhile isSpace
      (List.reverse (List.dropWhile isSpace (List.reverse (List.dropWhile isSpace s.toList))))))))
    = _
  have key : List.dropWhile isSpace
      (List.reverse (List.dropWhile isSpace (List.reverse (List.dropWhile isSpace s.toList))))
      = List.reverse (List.dropWhile isSpace (List.reverse (List.dropWhile isSpace s.toList))) := by
    obtain ⟨r, hr⟩ : (List.dropWhile isSpace s.toList).rdropWhile isSpace
        <+: List.dropWhile isSpace s.toList := List.rdropWhile_prefix isSpace _
    unfold List.rdropWhile at hr
    generalize List.reverse (List.dropWhile isSpace (List.reverse
      (List.dropWhile isSpace s.toList))) = t at hr ⊢
    cases t with
    | nil => rfl
    | cons b t2 =>
      have hb := dropWhile_head_not isSpace s.toList b (t2 ++ r) (by rw [← hr]; rfl)
      rw [List.dropWhile_cons, if_neg (by simp [hb])]
  rw [key, List.reverse_reverse, List.dropWhile_idempotent]

/-! ## The checks at the head of `Login` -/

theorem Login_found (L : Params) (now : String) (f : LoginFaults) (name password addr : String)
    (session : Session) (e : Env) (id : Nat) (a : Db.Account)
    (hv : Valid L name password) (htx : e.st.tx = some id) (hl : id ∈ e.st.backend.liveTxs)
    (hq : f.query = none) (hs : f.scan = false) (hfind : lookup e.accounts name = some a) :
    Login L now f name password addr session e
      = verify L now f (TrimSpace password) addr session (queried e id name) a := by
  obtain ⟨hn, hp, hln, hlp⟩ := hv
  have hn0 := not_allSpace_ne_empty name hn
  have hp0 := not_allSpace_ne_empty password hp
  have hn1 : TrimSpace name ≠ "" := fun h => hn ((TrimSpace_eq_empty name).mp h)
  have hp1 : TrimSpace password ≠ "" := fun h => hp ((TrimSpace_eq_empty password).mp h)
  unfold lookup at hfind
  rcases e with ⟨⟨d, c, t, b⟩, acc⟩
  simp only at htx hl hfind
  subst htx
  unfold Login
  simp only [hn0, hp0, hn1, hp1, or_self, if_false, not_lt.mpr hln, not_lt.mpr hlp, gt_iff_lt,
    Db.QueryRow, Db.txRun, hl, if_true, hq, hfind, hs, Bool.false_eq_true]
  rfl

/-! ## C26 -/

/-- C26: before anything reaches the database `Login` returns `LoginError` when
the name or the password is empty, else `LoginIncorrect` when the name or the
password is white space only, else `LoginError` when the trimmed name has more
than `NameSize` bytes or the trimmed password more than `PasswordSize`; the
store, the table and the session are then as they were.  A name and a password
that are not white space only fare exactly as their trimmed values do, so the
white space around them is never counted. -/
theorem login_validates_parameters (L : Params) (now : String) (f : LoginFaults)
    (name password addr : String) (session : Session) (e : Env) :
    (name = "" ∨ password = "" →
        Login L now f name password addr session e = ⟨e, session, .val .LoginError⟩)
      ∧ (name ≠ "" → password ≠ "" → allSpace name ∨ allSpace password →
        Login L now f name password addr session e = ⟨e, session, .val .LoginIncorrect⟩)
      ∧ (¬ allSpace name → ¬ allSpace password →
        len (TrimSpace name) > L.NameSize ∨ len (TrimSpace password) > L.PasswordSize →
        Login L now f name password addr session e = ⟨e, session, .val .LoginError⟩)
      ∧ (¬ allSpace name → ¬ allSpace password →
        Login L now f name password addr session e
          = Login L now f (TrimSpace name) (TrimSpace password) addr session e) := by
  refine ⟨?_, ?_, ?_, ?_⟩
  · intro h
    unfold Login
    rw [if_pos h]
  · intro hn0 hp0 h
    unfold Login
    rw [if_neg (by simp [hn0, hp0])]
    by_cases hn : allSpace name
    · simp only [(TrimSpace_eq_empty name).mpr hn, if_true]
    · have hp : allSpace password := h.resolve_left hn
      have hn1 : TrimSpace name ≠ "" := fun h1 => hn ((TrimSpace_eq_empty name).mp h1)
      simp only [hn1, if_false, (TrimSpace_eq_empty password).mpr hp, if_true]
  · intro hn hp h
    have hn0 := not_allSpace_ne_empty name hn
    have hp0 := not_allSpace_ne_empty password hp
    have hn1 : TrimSpace name ≠ "" := fun h1 => hn ((TrimSpace_eq_empty name).mp h1)
    have hp1 : TrimSpace password ≠ "" := fun h1 => hp ((TrimSpace_eq_empty password).mp h1)
    unfold Login
    simp only [hn0, hp0, hn1, hp1, or_self, if_false]
    rw [if_pos h]
  · intro hn hp
    have hn0 := not_allSpace_ne_empty name hn
    have hp0 := not_allSpace_ne_empty password hp
    have hn1 : TrimSpace name ≠ "" := fun h1 => hn ((TrimSpace_eq_empty name).mp h1)
    have hp1 : TrimSpace password ≠ "" := fun h1 => hp ((TrimSpace_eq_empty password).mp h1)
    unfold Login
    simp only [hn0, hp0, hn1, hp1, or_self, if_false, TrimSpace_idem]

theorem login_validates_parameters_witness :
    Login demoParams "now" LoginFaults.none "" "secret" "192.0.2.1" noSession demoEnv
        = ⟨demoEnv, noSession, .val .LoginError⟩
      ∧ Login demoParams "now" LoginFaults.none "   " "secret" "192.0.2.1" noSession demoEnv
        = ⟨demoEnv, noSession, .val .LoginIncorrect⟩
      ∧ Login demoParams "now" LoginFaults.none "abcdefghijklmnopqrstuvwxyz0123456" "secret"
          "192.0.2.1" noSession demoEnv
        = ⟨demoEnv, noSession, .val .LoginError⟩
      ∧ Login demoParams "now" LoginFaults.none "                                bob   "
          " secret" "192.0.2.1" noSession demoEnv
        = Login demoParams "now" LoginFaults.none
            (TrimSpace "                                bob   ") (TrimSpace " secret")
            "192.0.2.1" noSession demoEnv :=
  ⟨(login_validates_parameters demoParams "now" LoginFaults.none "" "secret" "192.0.2.1"
      noSession demoEnv).1 (Or.inl rfl),
   (login_validates_parameters demoParams "now" LoginFaults.none "   " "secret" "192.0.2.1"
      noSession demoEnv).2.1 (by decide) (by decide) (Or.inl (by decide)),
   (login_validates_parameters demoParams "now" LoginFaults.none
      "abcdefghijklmnopqrstuvwxyz0123456" "secret" "192.0.2.1" noSession demoEnv).2.2.1
      (by decide) (by decide) (Or.inl (by decide)),
   (login_validates_parameters demoParams "now" LoginFaults.none
      "                                bob   " " secret" "192.0.2.1" noSession demoEnv).2.2.2
      (by decide) (by decide)⟩

/-! ## After the account row is read -/

theorem verify_wrong_password (L : Params) (now : String) (f : LoginFaults)
    (password addr : String) (session : Session) (e : Env) (id : Nat) (a : Db.Account)
    (htx : e.st.tx = some id) (hl : id ∈ e.st.backend.liveTxs)
    (hst : a.status = "A" ∨ a.status = "S") (hpw : L.hashMatches a.encrypt password = false) :
    verify L now f password addr session e a
      = match f.exec with
        | some _ => ⟨e, session, .val .LoginError⟩
        | none =>
          ⟨{ st := { e.st with backend := { e.st.backend with
                ran := e.st.backend.ran ++ [(id, failureQuery,
                  [toString (if a.nunsuclog < 32767 then a.nunsuclog + 1 else a.nunsuclog),
                   addr, toString a.uid])] } },
             accounts := recordFailure e.accounts now
               (if a.nunsuclog < 32767 then a.nunsuclog + 1 else a.nunsuclog) addr a.uid },
           session,
           .val (if f.rowsAffected = false ∧ rowsWithUid e.accounts a.uid = 1
             then .LoginIncorrect else .LoginError)⟩ := by
  have hx : a.status ≠ "X" := by
    rcases hst with h | h <;> rw [h] <;> decide
  have hk : ¬ (a.status ≠ "A" ∧ a.status ≠ "S") := by
    rcases hst with h | h <;> simp [h]
  rcases e with ⟨⟨d, c, t, b⟩, acc⟩
  simp only at htx hl
  subst htx
  unfold verify
  simp only [hx, hk, if_false, hpw, Bool.not_false, if_true, Db.Exec, Db.txRun, hl]
  cases hf : f.exec with
  | some x => rfl
  | none =>
    simp only
    cases hr : f.rowsAffected
    · by_cases hrows : rowsWithUid acc a.uid = 1
      · simp [hrows]
      · simp [hrows]
    · simp

theorem verify_right_password (L : Params) (now : String) (f : LoginFaults)
    (password addr : String) (session : Session) (e : Env) (id : Nat) (a : Db.Account)
    (htx : e.st.tx = some id) (hl : id ∈ e.st.backend.liveTxs)
    (hst : a.status = "A") (hpw : L.hashMatches a.encrypt password = true)
    (hcount : a.nunsuclog < L.maxPasswordTries)
    (hexec : f.exec = none) (hrows : f.rowsAffected = false)
    (hone : rowsWithUid e.accounts a.uid = 1) :
    verify L now f password addr session e a
      = ⟨{ st := { e.st with backend := { e.st.backend with
              ran := e.st.backend.ran ++ [(id, successQuery, [addr, toString a.uid])] } },
           accounts := recordSuccess e.accounts now addr a.uid },
         { UID := a.uid, SucIP := a.sucip.getD "", UnsucIP := a.unsucip.getD "",
           SLogin := a.slogin.getD "NEVER", ULogin := a.ulogin.getD "NEVER" },
         .val (if a.complimentary ≠ "Y" ∧ a.minutes ≤ 0 then .LoginNoCredit else .LoginOK)⟩ := by
  rcases e with ⟨⟨d, c, t, b⟩, acc⟩
  simp only at htx hl hone
  subst htx
  unfold verify
  have hax : ¬ ("A" : String) = "X" := by decide
  simp only [hst, hax, if_false, hpw, Bool.not_true, ne_eq, not_true_eq_false, false_and,
    Bool.false_eq_true, ge_iff_le, not_le.mpr hcount, Db.Exec, Db.txRun, hl, if_true, hexec,
    hrows, hone, or_self]
  by_cases hc : a.complimentary ≠ "Y" ∧ a.minutes ≤ 0
  · simp [hc]
  · rw [if_neg hc, if_neg hc]

theorem verify_rejected (L : Params) (now : String) (f : LoginFaults)
    (password addr : String) (session : Session) (e : Env) (a : Db.Account) :
    (a.status = "X" → verify L now f password addr session e a
        = ⟨e, session, .val .LoginIncorrect⟩)
      ∧ (a.status ≠ "A" → a.status ≠ "S" → a.status ≠ "X" →
        verify L now f password addr session e a = ⟨e, session, .val .LoginError⟩)
      ∧ (a.status = "S" → L.hashMatches a.encrypt password = true →
        verify L now f password addr session e a = ⟨e, session, .val .LoginSuspended⟩)
      ∧ (a.status = "A" → L.hashMatches a.encrypt password = true →
        a.nunsuclog ≥ L.maxPasswordTries →
        verify L now f password addr session e a = ⟨e, session, .val .LoginIncorrect⟩) := by
  have hsx : ¬ ("S" : String) = "X" := by decide
  have hsa : ¬ ("S" : String) = "A" := by decide
  have hax : ¬ ("A" : String) = "X" := by decide
  refine ⟨?_, ?_, ?_, ?_⟩
  · intro h
    unfold verify
    rw [if_pos h]
  · intro h1 h2 h3
    unfold verify
    rw [if_neg h3, if_pos ⟨h1, h2⟩]
  · intro h hpw
    unfold verify
    simp [h, hsx, hsa, hpw]
  · intro h hpw hc
    unfold verify
    simp [h, hax, hpw, hc]

theorem queried_tx (e : Env) (id : Nat) (name : String) :
    (queried e id name).st.tx = e.st.tx ∧ (queried e id name).accounts = e.accounts
      ∧ (queried e id name).st.backend.liveTxs = e.st.backend.liveTxs :=
  ⟨rfl, rfl, rfl⟩

/-! ## C27 -/

/-- C27, as the claim states it, fails: for an active account whose stored
failure count is 40000 a wrong password leaves 40000 in the row, not
min(40000 + 1, 32767). -/
theorem failure_count_above_limit_is_kept :
    (Login demoParams "now" LoginFaults.none "bob" "wrong" "192.0.2.1" noSession
        { demoEnv with accounts := [demoOverflown] }).ret = .val .LoginIncorrect
      ∧ (Login demoParams "now" LoginFaults.none "bob" "wrong" "192.0.2.1" noSession
        { demoEnv with accounts := [demoOverflown] }).env.accounts.map (fun a => a.nunsuclog)
          = [40000]
      ∧ (Login demoParams "now" LoginFaults.none "bob" "wrong" "192.0.2.1" noSession
        { demoEnv with accounts := [demoOverflown] }).env.accounts.map (fun a => a.nunsuclog)
          ≠ [min (demoOverflown.nunsuclog + 1) 32767] := by
  decide

/-- C27, amended: for an account with status "A" or "S" and a password that
does not match the stored hash, `Login` issues the failure update with the old
count plus one when the old count is below 32767 and with the old count itself
otherwise (which is min(old + 1, 32767) for every old count up to 32767),
together with the caller's address; it returns `LoginIncorrect` when that
update succeeds on exactly one row and `LoginError` when the update fails, its
row count cannot be read or is not 1.  The caller's session is not touched. -/
theorem login_wrong_password (L : Params) (now : String) (f : LoginFaults)
    (name password addr : String) (session : Session) (e : Env) (id : Nat) (a : Db.Account)
    (hv : Valid L name password) (htx : e.st.tx = some id) (hl : id ∈ e.st.backend.liveTxs)
    (hq : f.query = none) (hs : f.scan = false) (hfind : lookup e.accounts name = some a)
    (hst : a.status = "A" ∨ a.status = "S")
    (hpw : L.hashMatches a.encrypt (TrimSpace password) = false) :
    (Login L now f name password addr session e).ret
        = .val (if f.exec = none ∧ f.rowsAffected = false ∧ rowsWithUid e.accounts a.uid = 1
            then .LoginIncorrect else .LoginError)
      ∧ (Login L now f name password addr session e).env.accounts
        = (if f.exec = none then
            recordFailure e.accounts now
              (if a.nunsuclog < 32767 then a.nunsuclog + 1 else a.nunsuclog) addr a.uid
          else e.accounts)
      ∧ (f.exec = none →
        (Login L now f name password addr session e).env.st.backend.ran
          = (queried e id name).st.backend.ran ++ [(id, failureQuery,
              [toString (if a.nunsuclog < 32767 then a.nunsuclog + 1 else a.nunsuclog),
               addr, toString a.uid])])
      ∧ (Login L now f name password addr session e).session = session
      ∧ (a.nunsuclog ≤ 32767 →
        (if a.nunsuclog < 32767 then a.nunsuclog + 1 else a.nunsuclog)
          = min (a.nunsuclog + 1) 32767) := by
  rw [Login_found L now f name password addr session e id a hv htx hl hq hs hfind,
    verify_wrong_password L now f (TrimSpace password) addr session (queried e id name) id a
      htx hl hst hpw]
  refine ⟨?_, ?_, ?_, ?_, ?_⟩
  · cases hf : f.exec with
    | some x => simp
    | none => simp [queried]
  · cases hf : f.exec with
    | some x => simp [queried]
    | none => simp [queried]
  · intro hf
    simp only [hf]
  · cases hf : f.exec <;> rfl
  · intro h
    by_cases hlt : a.nunsuclog < 32767
    · rw [if_pos hlt, min_eq_left (by omega)]
    · rw [if_neg hlt, min_eq_right (by omega)]
      omega

theorem login_wrong_password_witness :
    (Login demoParams "now" LoginFaults.none " Bob " "wrong" "192.0.2.1" noSession demoEnv).ret
        = .val .LoginIncorrect
      ∧ (Login demoParams "now" LoginFaults.none " Bob " "wrong" "192.0.2.1" noSession
          demoEnv).env.accounts
        = recordFailure demoEnv.accounts "now" 1 "192.0.2.1" 666000 :=
  have h := login_wrong_password demoParams "now" LoginFaults.none " Bob " "wrong" "192.0.2.1"
    noSession demoEnv 2 Db.demoActive (by decide) (by decide) (by decide) rfl rfl (by decide)
    (Or.inl (by decide)) (by decide)
  ⟨h.1, h.2.1⟩

/-! ## C28 -/

/-- C28 is false as stated: for the active account locked out after twenty
failures a wrong password is counted, the stored failure count goes from 20 to
21 and the failure update reaches the backend after the query. -/
theorem locked_out_wrong_password_is_counted :
    demoLocked.status = "A" ∧ demoLocked.nunsuclog ≥ demoParams.maxPasswordTries
      ∧ (Login demoParams "now" LoginFaults.none "bob" "wrong" "192.0.2.1" noSession
        { demoEnv with accounts := [demoLocked] }).ret = .val .LoginIncorrect
      ∧ (Login demoParams "now" LoginFaults.none "bob" "wrong" "192.0.2.1" noSession
        { demoEnv with accounts := [demoLocked] }).env.accounts.map (fun a => a.nunsuclog)
          = [21]
      ∧ (Login demoParams "now" LoginFaults.none "bob" "wrong" "192.0.2.1" noSession
        { demoEnv with accounts := [demoLocked] }).env.st.backend.ran.map (fun q => q.2.1)
          = demoEnv.st.backend.ran.map (fun q => q.2.1) ++ [selectQuery, failureQuery] := by
  decide

/-- C28 as amended: for an active account whose stored failure count has
reached `maxPasswordTries`, `Login` with the right password returns
`LoginIncorrect`; the accounts table is as it was, the only statement that
reached the backend is the query, whatever the backend would answer to an
update, and the caller's session is as it was.  With a wrong password the
failure is recorded as for any other account: the failure update is issued
with the old count plus one (the old count itself from 32767 on), the result
is `LoginIncorrect` when that update succeeds on exactly one row and
`LoginError` otherwise, and the caller's session is as it was. -/
theorem locked_out_login_changes_nothing (L : Params) (now : String) (f : LoginFaults)
    (name password addr : String) (session : Session) (e : Env) (id : Nat) (a : Db.Account)
    (hv : Valid L name password) (htx : e.st.tx = some id) (hl : id ∈ e.st.backend.liveTxs)
    (hq : f.query = none) (hs : f.scan = false) (hfind : lookup e.accounts name = some a)
    (hst : a.status = "A") (hcount : a.nunsuclog ≥ L.maxPasswordTries) :
    (L.hashMatches a.encrypt (TrimSpace password) = true →
        (Login L now f name password addr session e).ret = .val .LoginIncorrect
          ∧ (Login L now f name password addr session e).env.accounts = e.accounts
          ∧ (Login L now f name password addr session e).env.st.backend.ran
            = e.st.backend.ran
              ++ [(id, selectQuery, [keyText (UniqueName (bytes (TrimSpace name)))])]
          ∧ (Login L now f name password addr session e).session = session)
      ∧ (L.hashMatches a.encrypt (TrimSpace password) = false →
        (Login L now f name password addr session e).ret
            = .val (if f.exec = none ∧ f.rowsAffected = false
                  ∧ rowsWithUid e.accounts a.uid = 1
                then .LoginIncorrect else .LoginError)
          ∧ (Login L now f name password addr session e).env.accounts
            = (if f.exec = none then
                recordFailure e.accounts now
                  (if a.nunsuclog < 32767 then a.nunsuclog + 1 else a.nunsuclog) addr a.uid
              else e.accounts)
          ∧ (f.exec = none →
            (Login L now f name password addr session e).env.st.backend.ran
              = e.st.backend.ran
                ++ [(id, selectQuery, [keyText (UniqueName (bytes (TrimSpace name)))]),
                    (id, failureQuery,
                      [toString (if a.nunsuclog < 32767 then a.nunsuclog + 1
                          else a.nunsuclog),
                       addr, toString a.uid])])
          ∧ (Login L now f name password addr session e).session = session) := by
  refine ⟨?_, ?_⟩
  · intro hpw
    rw [Login_found L now f name password addr session e id a hv htx hl hq hs hfind,
      (verify_rejected L now f (TrimSpace password) addr session (queried e id name) a).2.2.2
        hst hpw hcount]
    exact ⟨rfl, rfl, rfl, rfl⟩
  · intro hpw
    rw [Login_found L now f name password addr session e id a hv htx hl hq hs hfind,
      verify_wrong_password L now f (TrimSpace password) addr session (queried e id name) id a
        htx hl (Or.inl hst) hpw]
    refine ⟨?_, ?_, ?_, ?_⟩
    · cases hf : f.exec with
      | some x => simp
      | none => simp [queried]
    · cases hf : f.exec with
      | some x => simp [queried]
      | none => simp [queried]
    · intro hf
      simp [hf, queried]
    · cases hf : f.exec <;> rfl

/-- C28 as amended, at the account locked out after twenty failures: the right
password changes nothing, a wrong one raises the stored count to 21. -/
theorem locked_out_login_changes_nothing_witness :
    (Login demoParams "now" LoginFaults.none "bob" "secret" "192.0.2.1" noSession
        { demoEnv with accounts := [demoLocked] }).ret = .val .LoginIncorrect
      ∧ (Login demoParams "now" LoginFaults.none "bob" "secret" "192.0.2.1" noSession
        { demoEnv with accounts := [demoLocked] }).env.accounts = [demoLocked]
      ∧ (Login demoParams "now" LoginFaults.none "bob" "wrong" "192.0.2.1" noSession
        { demoEnv with accounts := [demoLocked] }).env.accounts
          = recordFailure [demoLocked] "now" 21 "192.0.2.1" 666000 :=
  have h := (locked_out_login_changes_nothing demoParams "now" LoginFaults.none "bob" "secret"
    "192.0.2.1" noSession { demoEnv with accounts := [demoLocked] } 2 demoLocked
    (by decide) (by decide) (by decide) rfl rfl (by decide) (by decide) (by decide)).1
    (by decide)
  have h2 := (locked_out_login_changes_nothing demoParams "now" LoginFaults.none "bob" "wrong"
    "192.0.2.1" noSession { demoEnv with accounts := [demoLocked] } 2 demoLocked
    (by decide) (by decide) (by decide) rfl rfl (by decide) (by decide) (by decide)).2
    (by decide)
  ⟨h.1, h.2.1, h2.2.1⟩

/-! ## C29 -/

/-- C29: for the account row that the query returns, a cancelled account gets
`LoginIncorrect` whatever the password, an unknown status `LoginError`, a
suspended account with the right password `LoginSuspended`; and when the
account update that `Login` makes succeeds on exactly one row, a suspended
account with a wrong password gets `LoginIncorrect` and an active account with
the right password and a failure count below the limit gets `LoginNoCredit`
exactly when it is not complimentary and has no minutes left, `LoginOK`
otherwise.  In all, with that update succeeding, the result is the one the
specification tabulates by status. -/
theorem login_outcome_by_status (L : Params) (now : String) (f : LoginFaults)
    (name password addr : String) (session : Session) (e : Env) (id : Nat) (a : Db.Account)
    (hv : Valid L name password) (htx : e.st.tx = some id) (hl : id ∈ e.st.backend.liveTxs)
    (hq : f.query = none) (hs : f.scan = false) (hfind : lookup e.accounts name = some a) :
    (a.status = "X" → (Login L now f name password addr session e).ret = .val .LoginIncorrect)
      ∧ (a.status ≠ "A" → a.status ≠ "S" → a.status ≠ "X" →
        (Login L now f name password addr session e).ret = .val .LoginError)
      ∧ (a.status = "S" → L.hashMatches a.encrypt (TrimSpace password) = true →
        (Login L now f name password addr session e).ret = .val .LoginSuspended)
      ∧ (f.exec = none → f.rowsAffected = false → rowsWithUid e.accounts a.uid = 1 →
        (a.status = "S" → L.hashMatches a.encrypt (TrimSpace password) = false →
          (Login L now f name password addr session e).ret = .val .LoginIncorrect)
        ∧ (a.status = "A" → L.hashMatches a.encrypt (TrimSpace password) = true →
          a.nunsuclog < L.maxPasswordTries →
          ((Login L now f name password addr session e).ret = .val .LoginNoCredit
              ↔ (a.complimentary ≠ "Y" ∧ a.minutes ≤ 0))
            ∧ ((Login L now f name password addr session e).ret = .val .LoginOK
              ↔ ¬ (a.complimentary ≠ "Y" ∧ a.minutes ≤ 0)))
        ∧ (Login L now f name password addr session e).ret
          = .val (outcomeByStatus L a (L.hashMatches a.encrypt (TrimSpace password)))) := by
  rw [Login_found L now f name password addr session e id a hv htx hl hq hs hfind]
  have hrej := verify_rejected L now f (TrimSpace password) addr session (queried e id name) a
  have hwrong : f.exec = none → f.rowsAffected = false → rowsWithUid e.accounts a.uid = 1 →
      (a.status = "A" ∨ a.status = "S") →
      L.hashMatches a.encrypt (TrimSpace password) = false →
      (verify L now f (TrimSpace password) addr session (queried e id name) a).ret
        = .val .LoginIncorrect := by
    intro h1 h2 h3 hst hpw
    rw [verify_wrong_password L now f (TrimSpace password) addr session (queried e id name) id a
      htx hl hst hpw, h1]
    simp [h2, h3, queried]
  have hright : f.exec = none → f.rowsAffected = false → rowsWithUid e.accounts a.uid = 1 →
      a.status = "A" → L.hashMatches a.encrypt (TrimSpace password) = true →
      a.nunsuclog < L.maxPasswordTries →
      (verify L now f (TrimSpace password) addr session (queried e id name) a).ret
        = .val (if a.complimentary ≠ "Y" ∧ a.minutes ≤ 0 then .LoginNoCredit else .LoginOK) := by
    intro h1 h2 h3 hst hpw hc
    rw [verify_right_password L now f (TrimSpace password) addr session (queried e id name) id a
      htx hl hst hpw hc h1 h2 h3]
  have hsx : ¬ ("S" : String) = "X" := by decide
  have hsa : ¬ ("S" : String) = "A" := by decide
  have hax : ¬ ("A" : String) = "X" := by decide
  have has : ¬ ("A" : String) = "S" := by decide
  refine ⟨fun h => by rw [hrej.1 h], fun h1 h2 h3 => by rw [hrej.2.1 h1 h2 h3],
    fun h hpw => by rw [hrej.2.2.1 h hpw], ?_⟩
  intro h1 h2 h3
  refine ⟨fun hst hpw => hwrong h1 h2 h3 (Or.inr hst) hpw, ?_, ?_⟩
  · intro hst hpw hc
    rw [hright h1 h2 h3 hst hpw hc]
    by_cases hcr : a.complimentary ≠ "Y" ∧ a.minutes ≤ 0
    · simp [hcr]
    · rw [if_neg hcr]
      simp [hcr]
  · unfold outcomeByStatus
    by_cases hX : a.status = "X"
    · rw [hrej.1 hX, if_pos hX]
    · rw [if_neg hX]
      by_cases hS : a.status = "S"
      · rw [if_pos hS]
        cases hpw : L.hashMatches a.encrypt (TrimSpace password)
        · rw [hwrong h1 h2 h3 (Or.inr hS) hpw]
          simp
        · rw [hrej.2.2.1 hS hpw]
          simp
      · rw [if_neg hS]
        by_cases hA : a.status = "A"
        · rw [if_pos hA]
          cases hpw : L.hashMatches a.encrypt (TrimSpace password)
          · rw [hwrong h1 h2 h3 (Or.inl hA) hpw]
            simp
          · by_cases hc : a.nunsuclog ≥ L.maxPasswordTries
            · rw [hrej.2.2.2 hA hpw hc]
              simp [hc]
            · rw [hright h1 h2 h3 hA hpw (not_le.mp hc)]
              simp [hc]
        · rw [if_neg hA, hrej.2.1 hA hS hX]

theorem login_outcome_by_status_witness :
    (Login demoParams "now" LoginFaults.none "bob" "secret" "192.0.2.1" noSession demoEnv).ret
        = .val .LoginOK
      ∧ (Login demoParams "now" LoginFaults.none "al" "secret" "192.0.2.1" noSession
          demoEnv).ret = .val .LoginIncorrect
      ∧ (Login demoParams "now" LoginFaults.none "bob" "secret" "192.0.2.1" noSession
          { demoEnv with accounts := [demoNoCredit] }).ret = .val .LoginNoCredit
      ∧ (Login demoParams "now" LoginFaults.none "bob" "secret" "192.0.2.1" noSession
          { demoEnv with accounts := [demoSuspended] }).ret = .val .LoginSuspended :=
  have h := login_outcome_by_status demoParams "now" LoginFaults.none "bob" "secret"
    "192.0.2.1" noSession demoEnv 2 Db.demoActive (by decide) (by decide) (by decide) rfl rfl
    (by decide)
  have hx := login_outcome_by_status demoParams "now" LoginFaults.none "al" "secret"
    "192.0.2.1" noSession demoEnv 2 Db.demoCancelled (by decide) (by decide) (by decide) rfl rfl
    (by decide)
  have hn := login_outcome_by_status demoParams "now" LoginFaults.none "bob" "secret"
    "192.0.2.1" noSession { demoEnv with accounts := [demoNoCredit] } 2 demoNoCredit
    (by decide) (by decide) (by decide) rfl rfl (by decide)
  have hsu := login_outcome_by_status demoParams "now" LoginFaults.none "bob" "secret"
    "192.0.2.1" noSession { demoEnv with accounts := [demoSuspended] } 2 demoSuspended
    (by decide) (by decide) (by decide) rfl rfl (by decide)
  ⟨((h.2.2.2 rfl rfl (by decide)).2.1 (by decide) (by decide) (by decide)).2.mpr (by decide),
   hx.1 (by decide),
   ((hn.2.2.2 rfl rfl (by decide)).2.1 (by decide) (by decide) (by decide)).1.mpr (by decide),
   hsu.2.2.1 (by decide) (by decide)⟩

/-! ## Bytes -/

theorem isUpper_iff (b : Nat) (h : b < 256) : isUpper b = true ↔ 0x41 ≤ b ∧ b ≤ 0x5A := by
  unfold isUpper
  rw [decide_eq_true_iff]
  omega

theorem isGraph_iff (b : Nat) (h : b < 256) : isGraph b = true ↔ 0x21 ≤ b ∧ b ≤ 0x7E := by
  unfold isGraph
  rw [decide_eq_true_iff]
  omega

theorem toLower_upper (b : Nat) (h1 : 0x41 ≤ b) (h2 : b ≤ 0x5A) : toLower b = b + 32 := by
  have hu : isUpper b = true := (isUpper_iff b (by omega)).mpr ⟨h1, h2⟩
  unfold toLower
  rw [if_pos hu]
  interval_cases b <;> rfl

theorem UniqueName_step (b : Nat) (h : b < 256) (unique : List Nat) :
    (if isUpper b then unique ++ [toLower b]
      else if isGraph b then unique ++ [b] else unique)
      = unique ++ (keptByte b).toList := by
  unfold keptByte
  by_cases hu : 0x41 ≤ b ∧ b ≤ 0x5A
  · rw [if_pos ((isUpper_iff b h).mpr hu), if_pos hu, toLower_upper b hu.1 hu.2]
    rfl
  · have hu2 : ¬ isUpper b = true := fun h2 => hu ((isUpper_iff b h).mp h2)
    rw [if_neg hu2, if_neg hu]
    by_cases hg : 0x21 ≤ b ∧ b ≤ 0x7E
    · rw [if_pos ((isGraph_iff b h).mpr hg), if_pos hg]
      rfl
    · have hg2 : ¬ isGraph b = true := fun h2 => hg ((isGraph_iff b h).mp h2)
      rw [if_neg hg2, if_neg hg]
      simp

theorem UniqueName_foldl (name : List Nat) (h : ∀ b ∈ name, b < 256) (unique : List Nat) :
    name.foldl (fun unique ch =>
        if isUpper ch then unique ++ [toLower ch]
        else if isGraph ch then unique ++ [ch]
        else unique) unique
      = unique ++ name.filterMap keptByte := by
  induction name generalizing unique with
  | nil => simp
  | cons b rest ih =>
    have hb : b < 256 := h b (List.mem_cons_self b rest)
    have hrest : ∀ x ∈ rest, x < 256 := fun x hx => h x (List.mem_cons_of_mem b hx)
    rw [List.foldl_cons, UniqueName_step b hb unique, ih hrest]
    cases hk : keptByte b with
    | none => simp [List.filterMap_cons, hk]
    | some v => simp [List.filterMap_cons, hk]

/-! ## C30 -/

/-- C30: the unique name of a byte string is the string of its kept bytes, in
their order: an upper-case ASCII letter gives its lower-case letter, any other
byte from 0x21 to 0x7E is kept, every other byte is dropped.  The two range
tests, computed with the wrapping subtraction of bytes, hold exactly on 0x41 to
0x5A and on 0x21 to 0x7E, and `toLower` adds 32 to an upper-case letter. -/
theorem uniqueName_keeps_printable_bytes (name : List Nat) (h : ∀ b ∈ name, b < 256) :
    UniqueName name = name.filterMap keptByte
      ∧ (∀ b, b < 256 → (isUpper b = true ↔ 0x41 ≤ b ∧ b ≤ 0x5A)
          ∧ (isGraph b = true ↔ 0x21 ≤ b ∧ b ≤ 0x7E)
          ∧ (isUpper b = true → toLower b = b + 32))
      ∧ (∀ b ∈ UniqueName name, (0x21 ≤ b ∧ b ≤ 0x40) ∨ (0x5B ≤ b ∧ b ≤ 0x7E)) := by
  have h1 : UniqueName name = name.filterMap keptByte := by
    unfold UniqueName
    rw [UniqueName_foldl name h []]
    rfl
  refine ⟨h1, ?_, ?_⟩
  · intro b hb
    refine ⟨isUpper_iff b hb, isGraph_iff b hb, ?_⟩
    intro hu
    have h2 := (isUpper_iff b hb).mp hu
    exact toLower_upper b h2.1 h2.2
  · intro b hb
    rw [h1, List.mem_filterMap] at hb
    obtain ⟨x, _, hx⟩ := hb
    unfold keptByte at hx
    by_cases hu : 0x41 ≤ x ∧ x ≤ 0x5A
    · rw [if_pos hu] at hx
      have hx2 : x + 32 = b := Option.some.inj hx
      omega
    · rw [if_neg hu] at hx
      by_cases hg : 0x21 ≤ x ∧ x ≤ 0x7E
      · rw [if_pos hg] at hx
        have hx2 : x = b := Option.some.inj hx
        omega
      · rw [if_neg hg] at hx
        cases hx

theorem uniqueName_keeps_printable_bytes_witness :
    UniqueName [0x54, 0x65, 0x73, 0x74, 0x20, 0x09, 0x55, 0x73, 0x65, 0x72, 0x7F, 0xC3, 0xA9,
        0x31, 0x21]
      = [0x74, 0x65, 0x73, 0x74, 0x75, 0x73, 0x65, 0x72, 0x31, 0x21] :=
  (uniqueName_keeps_printable_bytes
    [0x54, 0x65, 0x73, 0x74, 0x20, 0x09, 0x55, 0x73, 0x65, 0x72, 0x7F, 0xC3, 0xA9, 0x31, 0x21]
    (by decide)).1.trans (by decide)

/-! ## The unique name as a filter -/

theorem UniqueName_filterMap (name : List Nat) (h : ∀ b ∈ name, b < 256) :
    UniqueName name = name.filterMap keptByte := by
  unfold UniqueName
  rw [UniqueName_foldl name h []]
  rfl

theorem keptByte_some (b v : Nat) (h : keptByte b = some v) :
    ((0x21 ≤ v ∧ v ≤ 0x40) ∨ (0x5B ≤ v ∧ v ≤ 0x7E)) ∧ keptByte v = some v := by
  unfold keptByte at h ⊢
  by_cases hu : 0x41 ≤ b ∧ b ≤ 0x5A
  · rw [if_pos hu] at h
    have hv : b + 32 = v := Option.some.inj h
    subst hv
    refine ⟨by omega, ?_⟩
    rw [if_neg (by omega), if_pos (by omega)]
  · rw [if_neg hu] at h
    by_cases hg : 0x21 ≤ b ∧ b ≤ 0x7E
    · rw [if_pos hg] at h
      have hv : b = v := Option.some.inj h
      subst hv
      refine ⟨by omega, ?_⟩
      rw [if_neg hu, if_pos hg]
    · rw [if_neg hg] at h
      cases h

theorem filterMap_keptByte_fixed (l : List Nat) (h : ∀ v ∈ l, keptByte v = some v) :
    l.filterMap keptByte = l := by
  induction l with
  | nil => rfl
  | cons v rest ih =>
    rw [List.filterMap_cons, h v (List.mem_cons_self v rest),
      ih (fun x hx => h x (List.mem_cons_of_mem v hx))]

theorem SameName_filterMap (s t : List Nat) (h : SameName s t) :
    s.filterMap keptByte = t.filterMap keptByte := by
  induction h with
  | nil => rfl
  | same b _ ih => simp only [List.filterMap_cons, ih]
  | lower b h1 h2 _ ih =>
    have e1 : keptByte b = some (b + 32) := by
      unfold keptByte
      rw [if_pos ⟨h1, h2⟩]
    have e2 : keptByte (b + 32) = some (b + 32) := by
      unfold keptByte
      rw [if_neg (by omega), if_pos (by omega)]
    simp only [List.filterMap_cons, e1, e2, ih]
  | upper b h1 h2 _ ih =>
    have e1 : keptByte b = some (b + 32) := by
      unfold keptByte
      rw [if_pos ⟨h1, h2⟩]
    have e2 : keptByte (b + 32) = some (b + 32) := by
      unfold keptByte
      rw [if_neg (by omega), if_pos (by omega)]
    simp only [List.filterMap_cons, e1, e2, ih]
  | dropLeft b hb _ ih =>
    have e1 : keptByte b = none := by
      unfold keptByte
      rw [if_neg (by omega), if_neg (by omega)]
    simp only [List.filterMap_cons, e1, ih]
  | dropRight b hb _ ih =>
    have e1 : keptByte b = none := by
      unfold keptByte
      rw [if_neg (by omega), if_neg (by omega)]
    simp only [List.filterMap_cons, e1, ih]

/-! ## C38 -/

/-- C38: for every byte string, the unique name of its unique name is its
unique name; the unique name holds only bytes from 0x21 to 0x7E that are not
upper-case letters; it is no longer than the string; and two byte strings that
differ only in the case of ASCII letters and in bytes outside 0x21 to 0x7E have
the same unique name. -/
theorem uniqueName_is_projection (s : List Nat) (h : ∀ b ∈ s, b < 256) :
    UniqueName (UniqueName s) = UniqueName s
      ∧ (∀ b ∈ UniqueName s, 0x21 ≤ b ∧ b ≤ 0x7E ∧ ¬ (0x41 ≤ b ∧ b ≤ 0x5A))
      ∧ (UniqueName s).length ≤ s.length
      ∧ (∀ t, (∀ b ∈ t, b < 256) → SameName s t → UniqueName s = UniqueName t) := by
  have hs := UniqueName_filterMap s h
  have hmem : ∀ v ∈ UniqueName s,
      ((0x21 ≤ v ∧ v ≤ 0x40) ∨ (0x5B ≤ v ∧ v ≤ 0x7E)) ∧ keptByte v = some v := by
    intro v hv
    rw [hs, List.mem_filterMap] at hv
    obtain ⟨b, _, hb⟩ := hv
    exact keptByte_some b v hb
  refine ⟨?_, ?_, ?_, ?_⟩
  · rw [UniqueName_filterMap (UniqueName s) (fun v hv => by have := (hmem v hv).1; omega)]
    exact filterMap_keptByte_fixed _ (fun v hv => (hmem v hv).2)
  · intro b hb
    have := (hmem b hb).1
    omega
  · rw [hs]
    exact List.length_filterMap_le _ _
  · intro t ht hst
    rw [hs, UniqueName_filterMap t ht]
    exact SameName_filterMap s t hst

theorem uniqueName_is_projection_witness :
    UniqueName (UniqueName [0x54, 0x20, 0x6F, 0x4D]) = UniqueName [0x54, 0x20, 0x6F, 0x4D]
      ∧ UniqueName [0x54, 0x20, 0x6F, 0x4D] = UniqueName [0x74, 0x6F, 0xC3, 0x6D] :=
  have h := uniqueName_is_projection [0x54, 0x20, 0x6F, 0x4D] (by decide)
  ⟨h.1, h.2.2.2 [0x74, 0x6F, 0xC3, 0x6D] (by decide)
    (SameName.lower 0x54 (by decide) (by decide)
      (SameName.dropLeft 0x20 (Or.inl (by decide))
        (SameName.same 0x6F
          (SameName.dropRight 0xC3 (Or.inr (by decide))
            (SameName.lower 0x4D (by decide) (by decide) SameName.nil)))))⟩

/-! ## What `Login` does to the caller's session -/

theorem verify_session (L : Params) (now : String) (f : LoginFaults)
    (password addr : String) (session : Session) (e : Env) (a : Db.Account) :
    ((verify L now f password addr session e a).ret ≠ .val .LoginOK →
        (verify L now f password addr session e a).ret ≠ .val .LoginNoCredit →
        (verify L now f password addr session e a).session = session)
      ∧ ((verify L now f password addr session e a).ret = .val .LoginOK
          ∨ (verify L now f password addr session e a).ret = .val .LoginNoCredit →
        (verify L now f password addr session e a).session
          = { UID := a.uid, SLogin := a.slogin.getD "NEVER",
              ULogin := a.ulogin.getD "NEVER", SucIP := a.sucip.getD "",
              UnsucIP := a.unsucip.getD "" }) := by
  rcases hx1 : Db.Exec e.st failureQuery
      [toString (if a.nunsuclog < 32767 then a.nunsuclog + 1 else a.nunsuclog), addr,
        toString a.uid] f.exec with ⟨st2, r2⟩
  rcases hx2 : Db.Exec e.st successQuery [addr, toString a.uid] f.exec with ⟨st3, r3⟩
  unfold verify
  simp only [hx1, hx2]
  split_ifs <;> (try rcases r2 with (_ | _) | _) <;> (try rcases r3 with (_ | _) | _) <;>
    simp

theorem Login_eq (L : Params) (now : String) (f : LoginFaults)
    (name password addr : String) (session : Session) (e : Env) :
    Login L now f name password addr session e
      = if name = "" ∨ password = "" then ⟨e, session, .val .LoginError⟩
        else if TrimSpace name = "" then ⟨e, session, .val .LoginIncorrect⟩
        else if TrimSpace password = "" then ⟨e, session, .val .LoginIncorrect⟩
        else if len (TrimSpace name) > L.NameSize ∨ len (TrimSpace password) > L.PasswordSize
          then ⟨e, session, .val .LoginError⟩
        else
          match Db.QueryRow e.st selectQuery [keyText (UniqueName (bytes (TrimSpace name)))]
              f.query with
          | (st1, .panicked) => ⟨{ e with st := st1 }, session, .panicked⟩
          | (st1, .val (some _)) => ⟨{ e with st := st1 }, session, .val .LoginError⟩
          | (st1, .val none) =>
            match lookup e.accounts name with
            | none => ⟨{ e with st := st1 }, session, .val .LoginIncorrect⟩
            | some a =>
              if f.scan then ⟨{ e with st := st1 }, session, .val .LoginError⟩
              else verify L now f (TrimSpace password) addr session { e with st := st1 } a := by
  rfl

/-! ## C39 -/

/-- C39: whatever the parameters, the store, the table and the answers of the
backend, `Login` leaves the caller's session exactly as it was passed in unless
it returns `LoginOK` or `LoginNoCredit` (a panic included); when it returns one
of these two, the session holds the uid of the account row the query returned,
its stored `slogin` and `ulogin` as read by the query, with "NEVER" for a NULL,
and its stored `sucip` and `unsucip`, empty for a NULL. -/
theorem login_fills_session_only_on_success (L : Params) (now : String) (f : LoginFaults)
    (name password addr : String) (session : Session) (e : Env) :
    ((Login L now f name password addr session e).ret ≠ .val .LoginOK →
        (Login L now f name password addr session e).ret ≠ .val .LoginNoCredit →
        (Login L now f name password addr session e).session = session)
      ∧ ((Login L now f name password addr session e).ret = .val .LoginOK
          ∨ (Login L now f name password addr session e).ret = .val .LoginNoCredit →
        ∃ a, lookup e.accounts name = some a
          ∧ (Login L now f name password addr session e).session
            = { UID := a.uid, SLogin := a.slogin.getD "NEVER",
                ULogin := a.ulogin.getD "NEVER", SucIP := a.sucip.getD "",
                UnsucIP := a.unsucip.getD "" }) := by
  rw [Login_eq]
  rcases hq : Db.QueryRow e.st selectQuery [keyText (UniqueName (bytes (TrimSpace name)))]
      f.query with ⟨st1, r⟩
  cases hfind : lookup e.accounts name with
  | none =>
    simp only
    split_ifs <;> (try rcases r with (_ | _) | _) <;> simp
  | some a =>
    have hv := verify_session L now f (TrimSpace password) addr session { e with st := st1 } a
    simp only
    split_ifs
    · simp
    · simp
    · simp
    · simp
    · rcases r with (_ | _) | _ <;> simp
    · rcases r with (_ | _) | _
      · exact ⟨hv.1, fun h => ⟨a, rfl, hv.2 h⟩⟩
      · simp
      · simp

theorem login_fills_session_only_on_success_witness :
    (Login demoParams "now" LoginFaults.none "bob" "secret" "192.0.2.1" noSession
        demoEnv).session
        = { UID := 666000, SLogin := "NEVER", ULogin := "NEVER", SucIP := "", UnsucIP := "" }
      ∧ (Login demoParams "now" LoginFaults.none "bob" "wrong" "192.0.2.1" noSession
          demoEnv).session = noSession :=
  have h := login_fills_session_only_on_success demoParams "now" LoginFaults.none "bob"
    "secret" "192.0.2.1" noSession demoEnv
  have h2 := login_fills_session_only_on_success demoParams "now" LoginFaults.none "bob"
    "wrong" "192.0.2.1" noSession demoEnv
  ⟨by
    obtain ⟨a, ha, hs⟩ := h.2 (Or.inl (by decide))
    have ha2 : a = Db.demoActive := by
      have : lookup demoEnv.accounts "bob" = some Db.demoActive := by decide
      rw [this] at ha
      exact (Option.some.inj ha).symm
    rw [hs, ha2]
    rfl,
   h2.1 (by decide) (by decide)⟩

/-! ## C40 -/

/-- C40: `GetCookie` leaves 0 in the caller's uid unless it returns `CookieOK`.
With a live transaction and a query that succeeds: a missing cookie gives
`CookieNotFound`; a cookie with `expire < now` is deleted (the delete
statement for its sid follows the query, and the rows with that sid are gone)
and gives `CookieNotFound`; a cookie with `expire >= now` gives `CookieOK`, the
stored uid, and the expiry `now + 1800` (for `now + 1800` within the `int64`
range): the update statement carrying `now + 1800` and the sid follows the
query, every row with that sid holds the expiry `now + 1800`, and the other
rows and columns are as they were; a failing scan, delete or update gives
`CookieError`, and so does a failing query or a finished transaction. -/
theorem getCookie_outcomes (now : Int) (f : CookieFaults) (sid : String) (e : CookieEnv)
    (id : Nat) (htx : e.st.tx = some id) :
    ((GetCookie now f sid e).ret ≠ .val .CookieOK → (GetCookie now f sid e).uid = 0)
      ∧ (id ∈ e.st.backend.liveTxs → f.query = none →
          (e.cookies.find? (fun c => c.sid == sid) = none →
            (GetCookie now f sid e).ret = .val .CookieNotFound)
          ∧ (∀ c, e.cookies.find? (fun c => c.sid == sid) = some c → f.scan = false →
              (c.expire < now → f.exec = none →
                (GetCookie now f sid e).ret = .val .CookieNotFound
                  ∧ (GetCookie now f sid e).env.cookies
                    = e.cookies.filter (fun x => x.sid != sid)
                  ∧ (GetCookie now f sid e).uid = 0
                  ∧ (GetCookie now f sid e).env.st.backend.ran
                    = e.st.backend.ran
                      ++ [(id, "SELECT uid, expire FROM cookies WHERE sid = ?", [sid]),
                          (id, "DELETE FROM cookies WHERE sid = ?", [sid])])
              ∧ (now ≤ c.expire → f.exec = none →
                  -2 ^ 63 ≤ now + 1800 → now + 1800 < 2 ^ 63 →
                  (GetCookie now f sid e).ret = .val .CookieOK
                    ∧ (GetCookie now f sid e).uid = c.uid
                    ∧ (GetCookie now f sid e).env.cookies
                      = renewed e.cookies (now + 1800) sid
                    ∧ (GetCookie now f sid e).env.cookies
                      = e.cookies.map (fun x =>
                          if x.sid = sid then { sid := x.sid, uid := x.uid, expire := now + 1800 }
                          else x)
                    ∧ (∀ x ∈ (GetCookie now f sid e).env.cookies,
                        x.sid = sid → x.expire = now + 1800)
                    ∧ (GetCookie now f sid e).env.st.backend.ran
                      = e.st.backend.ran
                        ++ [(id, "SELECT uid, expire FROM cookies WHERE sid = ?", [sid]),
                            (id, "UPDATE cookies SET expire = ? WHERE sid = ?",
                              [toString (now + 1800), sid])])
              ∧ (f.exec ≠ none → (GetCookie now f sid e).ret = .val .CookieError))
          ∧ (∀ c, e.cookies.find? (fun c => c.sid == sid) = some c → f.scan = true →
              (GetCookie now f sid e).ret = .val .CookieError))
      ∧ (f.query ≠ none ∨ id ∉ e.st.backend.liveTxs →
          (GetCookie now f sid e).ret = .val .CookieError) := by
  rcases e with ⟨⟨d, c0, t, b⟩, cookies⟩
  simp only at htx
  subst htx
  refine ⟨?_, ?_, ?_⟩
  · unfold GetCookie
    simp only [Db.QueryRow, Db.Exec, Db.txRun]
    by_cases hl : id ∈ b.liveTxs
    · cases hq : f.query with
      | some x => simp [hl]
      | none =>
        cases hfind : cookies.find? (fun c => c.sid == sid) with
        | none => simp [hl]
        | some c =>
          cases hs : f.scan
          · cases hx : f.exec with
            | some y =>
              by_cases hlt : c.expire < now <;> simp [hl, hlt]
            | none =>
              by_cases hlt : c.expire < now <;> simp [hl, hlt]
          · simp [hl]
    · simp [hl]
  · intro hl hq
    refine ⟨?_, ?_, ?_⟩
    · intro hfind
      simp [GetCookie, Db.QueryRow, Db.txRun, hl, hq, hfind]
    · intro c hfind hs
      refine ⟨?_, ?_, ?_⟩
      · intro hlt hx
        simp [GetCookie, Db.QueryRow, Db.Exec, Db.txRun, hl, hq, hfind, hs, hlt, hx]
      · intro hge hx h1 h2
        have hw : Billing.wrap64 (now + 1800) = now + 1800 :=
          Billing.wrap64_of_range _ h1 h2
        have hmap : renewed cookies (now + 1800) sid
            = cookies.map (fun x =>
                if x.sid = sid then { sid := x.sid, uid := x.uid, expire := now + 1800 }
                else x) := by
          unfold renewed
          apply List.map_congr_left
          intro x _
          by_cases hx : x.sid = sid <;> simp [hx]
        have hall : ∀ x ∈ renewed cookies (now + 1800) sid,
            x.sid = sid → x.expire = now + 1800 := by
          rw [hmap]
          intro x hxm hxs
          rw [List.mem_map] at hxm
          obtain ⟨y, _, hy⟩ := hxm
          by_cases hys : y.sid = sid
          · rw [if_pos hys] at hy
            rw [← hy]
          · rw [if_neg hys] at hy
            rw [hy] at hys
            exact absurd hxs hys
        have hmain : GetCookie now f sid ⟨⟨d, c0, some id, b⟩, cookies⟩
            = ⟨⟨⟨d, c0, some id, { b with ran := b.ran
                  ++ [(id, "SELECT uid, expire FROM cookies WHERE sid = ?", [sid]),
                      (id, "UPDATE cookies SET expire = ? WHERE sid = ?",
                        [toString (now + 1800), sid])] }⟩,
                renewed cookies (now + 1800) sid⟩, c.uid, .val .CookieOK⟩ := by
          simp [GetCookie, Db.QueryRow, Db.Exec, Db.txRun, hl, hq, hfind, hs, not_lt.mpr hge,
            hx, hw]
        rw [hmain]
        exact ⟨rfl, rfl, rfl, hmap, hall, rfl⟩
      · intro hx
        cases hxe : f.exec with
        | none => exact absurd hxe hx
        | some y =>
          by_cases hlt : c.expire < now <;>
            simp [GetCookie, Db.QueryRow, Db.Exec, Db.txRun, hl, hq, hfind, hs, hlt, hxe]
    · intro c hfind hs
      simp [GetCookie, Db.QueryRow, Db.txRun, hl, hq, hfind, hs]
  · intro h
    by_cases hl : id ∈ b.liveTxs
    · rcases h with h | h
      · cases hq : f.query with
        | none => exact absurd hq h
        | some x => simp [GetCookie, Db.QueryRow, Db.txRun, hl, hq]
      · exact absurd hl h
    · simp [GetCookie, Db.QueryRow, Db.txRun, hl]

/-- C40 at the cookie that expires at reading 1000: at reading 500 it is
renewed to 2300, at reading 1001 it is deleted, and another sid is not found. -/
theorem getCookie_outcomes_witness :
    (GetCookie 500 CookieFaults.none "s1" demoCookies).ret = .val .CookieOK
      ∧ (GetCookie 500 CookieFaults.none "s1" demoCookies).uid = 666000
      ∧ (GetCookie 500 CookieFaults.none "s1" demoCookies).env.cookies
        = renewed demoCookies.cookies (500 + 1800) "s1"
      ∧ (GetCookie 500 CookieFaults.none "s1" demoCookies).env.cookies
        = [{ sid := "s1", uid := 666000, expire := 2300 }]
      ∧ (GetCookie 1001 CookieFaults.none "s1" demoCookies).ret = .val .CookieNotFound
      ∧ (GetCookie 1001 CookieFaults.none "s1" demoCookies).uid = 0
      ∧ (GetCookie 1001 CookieFaults.none "s1" demoCookies).env.cookies = []
      ∧ (GetCookie 500 CookieFaults.none "s2" demoCookies).ret = .val .CookieNotFound :=
  have h := getCookie_outcomes 500 CookieFaults.none "s1" demoCookies 2 (by decide)
  have h2 := getCookie_outcomes 1001 CookieFaults.none "s1" demoCookies 2 (by decide)
  have h3 := getCookie_outcomes 500 CookieFaults.none "s2" demoCookies 2 (by decide)
  have hok := ((h.2.1 (by decide) rfl).2.1 ⟨"s1", 666000, 1000⟩ (by decide) rfl).2.1
    (by decide) rfl (by decide) (by decide)
  have hdel := ((h2.2.1 (by decide) rfl).2.1 ⟨"s1", 666000, 1000⟩ (by decide) rfl).1
    (by decide) rfl
  ⟨hok.1, hok.2.1, hok.2.2.1, hok.2.2.2.1.trans (by decide), hdel.1,
   h2.1 (by rw [hdel.1]; decide), hdel.2.1.trans (by decide),
   (h3.2.1 (by decide) rfl).1 (by decide)⟩

end Auth

namespace Rules

/-! ## C31 -/

/-- C31 is false as stated: for the uid 666000, inside the range, `RulesLockFile`
and `IsLockedOut` panic when the home directory lookup panics. -/
theorem lock_file_panics_without_home :
    Ibgames.MinAccountID ≤ 666000 ∧ 666000 ≤ Ibgames.MaxAccountID
      ∧ RulesLockFile .panicked 666000 = .panicked
      ∧ IsLockedOut .panicked (fun _ => true) 666000 = .panicked := by
  decide

/-- C31 as amended: `RulesLockFile` and `IsLockedOut` panic for every uid below
100000 and for every uid above 2147483647, which is 2^31 - 1 and not 2^32 - 1,
and for a uid in the range they panic exactly when the home directory lookup
panics; so each panics exactly when the uid is out of range or the lookup
panics.  For a uid in the range and a lookup that returns, `RulesLockFile`
returns the home directory followed by "/lock/" and the uid in decimal, and
`IsLockedOut` returns whether that path is accessible. -/
theorem lock_file_panics_outside_range (homeDir : Db.Ret String) (access : String → Bool)
    (uid : Nat) :
    (uid < 100000 ∨ 2147483647 < uid →
        RulesLockFile homeDir uid = .panicked ∧ IsLockedOut homeDir access uid = .panicked)
      ∧ (RulesLockFile homeDir uid = .panicked
          ↔ (uid < 100000 ∨ 2147483647 < uid ∨ homeDir = .panicked))
      ∧ (IsLockedOut homeDir access uid = .panicked
          ↔ (uid < 100000 ∨ 2147483647 < uid ∨ homeDir = .panicked))
      ∧ (∀ home, homeDir = .val home → 100000 ≤ uid → uid ≤ 2147483647 →
          RulesLockFile homeDir uid = .val (home ++ "/lock/" ++ toString uid)
            ∧ IsLockedOut homeDir access uid
              = .val (access (home ++ "/lock/" ++ toString uid)))
      ∧ Ibgames.MaxAccountID = 2 ^ 31 - 1 := by
  by_cases h : uid < 100000 ∨ 2147483647 < uid
  · have hout : RulesLockFile homeDir uid = .panicked
        ∧ IsLockedOut homeDir access uid = .panicked := by
      unfold IsLockedOut RulesLockFile
      simp only [Ibgames.MinAccountID, Ibgames.MaxAccountID, gt_iff_lt, if_pos h, and_self]
    refine ⟨fun _ => hout, ?_, ?_, ?_, by decide⟩
    · exact ⟨fun _ => by omega, fun _ => hout.1⟩
    · exact ⟨fun _ => by omega, fun _ => hout.2⟩
    · intro home _ h1 h2
      omega
  · cases homeDir with
    | panicked =>
      have hp : RulesLockFile .panicked uid = .panicked
          ∧ IsLockedOut .panicked access uid = .panicked := by
        unfold IsLockedOut RulesLockFile
        simp only [Ibgames.MinAccountID, Ibgames.MaxAccountID, gt_iff_lt, if_neg h, and_self]
      refine ⟨fun h2 => absurd h2 h, ?_, ?_, ?_, by decide⟩
      · exact ⟨fun _ => Or.inr (Or.inr rfl), fun _ => hp.1⟩
      · exact ⟨fun _ => Or.inr (Or.inr rfl), fun _ => hp.2⟩
      · intro home hh
        cases hh
    | val home0 =>
      have hv : RulesLockFile (.val home0) uid = .val (home0 ++ "/lock/" ++ toString uid)
          ∧ IsLockedOut (.val home0) access uid
            = .val (access (home0 ++ "/lock/" ++ toString uid)) := by
        unfold IsLockedOut RulesLockFile
        simp only [Ibgames.MinAccountID, Ibgames.MaxAccountID, gt_iff_lt, if_neg h, and_self]
      refine ⟨fun h2 => absurd h2 h, ?_, ?_, ?_, by decide⟩
      · rw [hv.1]
        constructor
        · intro hc
          cases hc
        · intro hc
          rcases hc with hc | hc | hc
          · exact absurd (Or.inl hc) h
          · exact absurd (Or.inr hc) h
          · cases hc
      · rw [hv.2]
        constructor
        · intro hc
          cases hc
        · intro hc
          rcases hc with hc | hc | hc
          · exact absurd (Or.inl hc) h
          · exact absurd (Or.inr hc) h
          · cases hc
      · intro home hh _ _
        cases hh
        exact hv

/-- C31 as amended, at the bounds of the tests: a path for 666000, a panic below
the range and above it, and a panic inside the range when the home directory
lookup panics. -/
theorem lock_file_panics_outside_range_witness :
    RulesLockFile (.val "/home/ib") 666000 = .val "/home/ib/lock/666000"
      ∧ RulesLockFile (.val "/home/ib") 99999 = .panicked
      ∧ IsLockedOut (.val "/home/ib") (fun p => p == "/home/ib/lock/666000") 2147483648
        = .panicked
      ∧ IsLockedOut (.val "/home/ib") (fun p => p == "/home/ib/lock/666000") 666000
        = .val true
      ∧ RulesLockFile .panicked 666000 = .panicked :=
  ⟨((lock_file_panics_outside_range (.val "/home/ib") (fun _ => false) 666000).2.2.2.1
      "/home/ib" rfl (by decide) (by decide)).1.trans (by decide),
   ((lock_file_panics_outside_range (.val "/home/ib") (fun _ => false) 99999).1
      (Or.inl (by decide))).1,
   ((lock_file_panics_outside_range (.val "/home/ib") (fun p => p == "/home/ib/lock/666000")
      2147483648).1 (Or.inr (by decide))).2,
   ((lock_file_panics_outside_range (.val "/home/ib") (fun p => p == "/home/ib/lock/666000")
      666000).2.2.2.1 "/home/ib" rfl (by decide) (by decide)).2.trans (by decide),
   (lock_file_panics_outside_range .panicked (fun _ => false) 666000).2.1.mpr
      (Or.inr (Or.inr rfl))⟩

end Rules

namespace Goodies

/-! ## Matching the prompt pattern -/

theorem foldEq_iff (r x : Nat)
    (hr : r = 0x6F ∨ r = 0x67 ∨ r = 0x69 ∨ r = 0x6E ∨ r = 0x77 ∨ r = 0x72 ∨ r = 0x64
      ∨ r = 0x3A) :
    foldEq r x = true ↔ lowerASCII x = r := by
  unfold foldEq lowerASCII
  rw [decide_eq_true_iff]
  split <;> omega

theorem run_cat (a b : Regex) (s : List Nat) :
    (Regex.cat a b).run s = (a.run s).flatMap (fun t => b.run t) := by
  simp [Regex.run]

theorem run_alt (a b : Regex) (s : List Nat) :
    (Regex.alt a b).run s = a.run s ++ b.run s := by
  simp [Regex.run]

theorem run_lit (r : Nat) (t : List Nat) :
    (Regex.lit r true).run t
      = match t with
        | [] => []
        | x :: rest => if foldEq r x = true then [rest] else [] := by
  cases t <;> simp [Regex.run]

theorem run_word (p q r s : Nat) (t : List Nat) :
    (Regex.cat (.lit p true) (.cat (.lit q true) (.cat (.lit r true) (.lit s true)))).run t
      = match t with
        | a :: b :: c :: d :: rest =>
          if foldEq p a = true ∧ foldEq q b = true ∧ foldEq r c = true ∧ foldEq s d = true
          then [rest] else []
        | _ => [] := by
  rcases t with _ | ⟨a, _ | ⟨b, _ | ⟨c, _ | ⟨d, rest⟩⟩⟩⟩
  · simp [run_cat, run_lit]
  · by_cases h1 : foldEq p a = true <;> simp [run_cat, run_lit, h1]
  · by_cases h1 : foldEq p a = true <;> by_cases h2 : foldEq q b = true <;>
      simp [run_cat, run_lit, h1, h2]
  · by_cases h1 : foldEq p a = true <;> by_cases h2 : foldEq q b = true <;>
      by_cases h3 : foldEq r c = true <;> simp [run_cat, run_lit, h1, h2, h3]
  · by_cases h1 : foldEq p a = true <;> by_cases h2 : foldEq q b = true <;>
      by_cases h3 : foldEq r c = true <;> by_cases h4 : foldEq s d = true <;>
      simp [run_cat, run_lit, h1, h2, h3, h4]

theorem promptRegex_run (t : List Nat) :
    (promptRegex.run t).isEmpty = false
      ↔ ∃ a b c d e rest, t = a :: b :: c :: d :: e :: rest
          ∧ ((lowerASCII a = 0x6F ∧ lowerASCII b = 0x67 ∧ lowerASCII c = 0x69
                ∧ lowerASCII d = 0x6E)
              ∨ (lowerASCII a = 0x77 ∧ lowerASCII b = 0x6F ∧ lowerASCII c = 0x72
                ∧ lowerASCII d = 0x64))
          ∧ lowerASCII e = 0x3A := by
  have ho := fun x => foldEq_iff 0x6F x (by simp)
  have hg := fun x => foldEq_iff 0x67 x (by simp)
  have hi := fun x => foldEq_iff 0x69 x (by simp)
  have hn := fun x => foldEq_iff 0x6E x (by simp)
  have hw := fun x => foldEq_iff 0x77 x (by simp)
  have hr := fun x => foldEq_iff 0x72 x (by simp)
  have hd := fun x => foldEq_iff 0x64 x (by simp)
  have hc := fun x => foldEq_iff 0x3A x (by simp)
  unfold promptRegex
  rw [run_cat, run_alt, run_word, run_word]
  rcases t with _ | ⟨a, _ | ⟨b, _ | ⟨c, _ | ⟨d, _ | ⟨e, rest⟩⟩⟩⟩⟩
  · simp
  · simp
  · simp
  · simp
  · by_cases h1 : (foldEq 0x6F a = true ∧ foldEq 0x67 b = true ∧ foldEq 0x69 c = true
        ∧ foldEq 0x6E d = true) <;>
      by_cases h2 : (foldEq 0x77 a = true ∧ foldEq 0x6F b = true ∧ foldEq 0x72 c = true
        ∧ foldEq 0x64 d = true) <;>
      simp [h1, h2, run_lit]
  · have hsplit : ∀ (P1 P2 : Prop) [Decidable P1] [Decidable P2],
        ((((if P1 then [e :: rest] else []) ++ (if P2 then [e :: rest] else [])).flatMap
            (fun t => (Regex.lit 0x3A true).run t)).isEmpty = false)
          ↔ ((P1 ∨ P2) ∧ foldEq 0x3A e = true) := by
      intro P1 P2 _ _
      by_cases h1 : P1 <;> by_cases h2 : P2 <;> by_cases h3 : foldEq 0x3A e = true <;>
        simp [h1, h2, h3, run_lit]
    rw [hsplit, ho, hg, hi, hn, hw, hr, hd, hc, ho]
    constructor
    · rintro ⟨h, h3⟩
      exact ⟨a, b, c, d, e, rest, rfl, h, h3⟩
    · rintro ⟨a2, b2, c2, d2, e2, rest2, heq, h, h3⟩
      simp only [List.cons.injEq] at heq
      obtain ⟨rfl, rfl, rfl, rfl, rfl, rfl⟩ := heq
      exact ⟨h, h3⟩

theorem map_eq_five (mid : List Nat) (p1 p2 p3 p4 p5 : Nat) :
    mid.map lowerASCII = [p1, p2, p3, p4, p5]
      ↔ ∃ a b c d e, mid = [a, b, c, d, e] ∧ lowerASCII a = p1 ∧ lowerASCII b = p2
          ∧ lowerASCII c = p3 ∧ lowerASCII d = p4 ∧ lowerASCII e = p5 := by
  constructor
  · intro h
    rcases mid with _ | ⟨a, _ | ⟨b, _ | ⟨c, _ | ⟨d, _ | ⟨e, _ | ⟨x, rest⟩⟩⟩⟩⟩⟩ <;>
      simp at h
    exact ⟨a, b, c, d, e, rfl, h⟩
  · rintro ⟨a, b, c, d, e, rfl, h1, h2, h3, h4, h5⟩
    simp [h1, h2, h3, h4, h5]

theorem MatchString_promptRegex (s : List Nat) :
    promptRegex.MatchString s = true
      ↔ ContainsIgnoringCase s [0x6F, 0x67, 0x69, 0x6E, 0x3A]
          ∨ ContainsIgnoringCase s [0x77, 0x6F, 0x72, 0x64, 0x3A] := by
  unfold Regex.MatchString ContainsIgnoringCase
  rw [List.any_eq_true]
  constructor
  · rintro ⟨t, ht, hrun⟩
    rw [List.mem_tails] at ht
    obtain ⟨pre, hpre⟩ := ht
    have hrun2 : (promptRegex.run t).isEmpty = false := by simpa using hrun
    obtain ⟨a, b, c, d, e, rest, rfl, h, h5⟩ := (promptRegex_run t).mp hrun2
    rcases h with ⟨h1, h2, h3, h4⟩ | ⟨h1, h2, h3, h4⟩
    · left
      exact ⟨pre, [a, b, c, d, e], rest, by rw [← hpre]; simp,
        (map_eq_five _ _ _ _ _ _).mpr ⟨a, b, c, d, e, rfl, h1, h2, h3, h4, h5⟩⟩
    · right
      exact ⟨pre, [a, b, c, d, e], rest, by rw [← hpre]; simp,
        (map_eq_five _ _ _ _ _ _).mpr ⟨a, b, c, d, e, rfl, h1, h2, h3, h4, h5⟩⟩
  · intro h
    rcases h with ⟨pre, mid, post, hs, hm⟩ | ⟨pre, mid, post, hs, hm⟩
    · obtain ⟨a, b, c, d, e, rfl, h1, h2, h3, h4, h5⟩ := (map_eq_five _ _ _ _ _ _).mp hm
      refine ⟨a :: b :: c :: d :: e :: post, ?_, ?_⟩
      · rw [List.mem_tails]
        exact ⟨pre, by rw [hs]; simp⟩
      · have := (promptRegex_run (a :: b :: c :: d :: e :: post)).mpr
          ⟨a, b, c, d, e, post, rfl, Or.inl ⟨h1, h2, h3, h4⟩, h5⟩
        simpa using this
    · obtain ⟨a, b, c, d, e, rfl, h1, h2, h3, h4, h5⟩ := (map_eq_five _ _ _ _ _ _).mp hm
      refine ⟨a :: b :: c :: d :: e :: post, ?_, ?_⟩
      · rw [List.mem_tails]
        exact ⟨pre, by rw [hs]; simp⟩
      · have := (promptRegex_run (a :: b :: c :: d :: e :: post)).mpr
          ⟨a, b, c, d, e, post, rfl, Or.inr ⟨h1, h2, h3, h4⟩, h5⟩
        simpa using this

/-! ## C32 -/

/-- C32: `ContainsPrompt s` is true exactly when the code points of `s` contain,
with ASCII upper-case letters read as lower case, the string "ogin:" or the
string "word:" at some position; it is false for the empty string, for "login"
and for "passwords:", and true for "blogin:" and "myword:test". -/
theorem containsPrompt_iff (s : String) :
    (ContainsPrompt s = true
        ↔ ContainsIgnoringCase (runes s) (runes "ogin:")
            ∨ ContainsIgnoringCase (runes s) (runes "word:"))
      ∧ ContainsPrompt "" = false ∧ ContainsPrompt "login" = false
      ∧ ContainsPrompt "passwords:" = false ∧ ContainsPrompt "blogin:" = true
      ∧ ContainsPrompt "myword:test" = true := by
  refine ⟨?_, by decide, by decide, by decide, by decide, by decide⟩
  have e1 : runes "ogin:" = [0x6F, 0x67, 0x69, 0x6E, 0x3A] := by decide
  have e2 : runes "word:" = [0x77, 0x6F, 0x72, 0x64, 0x3A] := by decide
  rw [e1, e2, ← MatchString_promptRegex]
  unfold ContainsPrompt
  by_cases hs : s = ""
  · rw [if_pos hs, hs]
    decide
  · rw [if_neg hs]

end Goodies
